import Mathlib

/-!
# NoiseRF: triple-buffer handoff, noise-profile store, FFT framing, state persistence,
audio processing and activation

A shallow embedding of `plugin/clap_plugin.c`, `src/shared/noise_estimation/noise_profile.c`
and `src/shared/stft/fft_transform.c`.

Conventions of the embedding
* `uint32_t` values are natural numbers; bitwise operators are the ones of `Nat`.
* A C array reached through a pointer is a function from the index to the element;
  a store through the pointer is `Function.update`.
* A `noise_profile_state *` into `buffers[3]` is the index of the slot.
* A handle of the denoiser library or of the crossfade is the state of what it points to,
  `none` when null; the functions of both are parameters.
-/

namespace NoiseRF

/-! ## Triple buffer (`clap_plugin.c`, lines 79-125) -/

/-- The macro `#define TRIPLE_BUFFER_DIRTY_BIT (1u << 31)`. -/
def TRIPLE_BUFFER_DIRTY_BIT : Nat := 2 ^ 31

/-- The macro `#define TRIPLE_BUFFER_MASK (~TRIPLE_BUFFER_DIRTY_BIT)`, a 32-bit complement. -/
def TRIPLE_BUFFER_MASK : Nat := 2 ^ 32 - 1 - TRIPLE_BUFFER_DIRTY_BIT

/-- The struct `noise_profile_state_swap_buffers`, for slots of type `T`. -/
structure noise_profile_state_swap_buffers (T : Type) where
  buffers : Nat → T
  middle_buffer_state : Nat
  back_buffer_index : Nat
  front_buffer_index : Nat

/-- The function `init_noise_profile_buffers`: sets the three indices and leaves the slots alone. -/
def init_noise_profile_buffers {T : Type} (b : noise_profile_state_swap_buffers T) :
    noise_profile_state_swap_buffers T :=
  { b with middle_buffer_state := 1, back_buffer_index := 0, front_buffer_index := 2 }

/-- The memory `init_noise_profile_buffers` expects: every slot holds the zero value `z`
(the struct comes from `calloc`). -/
def zeroed_buffers {T : Type} (z : T) : noise_profile_state_swap_buffers T :=
  { buffers := fun _ => z, middle_buffer_state := 0, back_buffer_index := 0,
    front_buffer_index := 0 }

/-- The function `writable_noise_profile_state`: the pointer `&buffers->buffers[back_buffer_index]`. -/
def writable_noise_profile_state {T : Type} (b : noise_profile_state_swap_buffers T) : Nat :=
  b.back_buffer_index

/-- A store of `v` through the pointer returned by `writable_noise_profile_state`. -/
def write_noise_profile_state {T : Type} (b : noise_profile_state_swap_buffers T) (v : T) :
    noise_profile_state_swap_buffers T :=
  { b with buffers := Function.update b.buffers (writable_noise_profile_state b) v }

/-- The function `publish_noise_profile_state`: one atomic exchange on `middle_buffer_state`, then the
producer-private `back_buffer_index` takes the old middle slot. -/
def publish_noise_profile_state {T : Type} (b : noise_profile_state_swap_buffers T) :
    noise_profile_state_swap_buffers T :=
  let old_middle_state := b.middle_buffer_state
  { b with
    middle_buffer_state := b.back_buffer_index ||| TRIPLE_BUFFER_DIRTY_BIT
    back_buffer_index := old_middle_state &&& TRIPLE_BUFFER_MASK }

/-- The atomic load that opens `noise_profile_state_consume`:
`buffers->middle_buffer_state & TRIPLE_BUFFER_DIRTY_BIT`, as a truth value. -/
def consume_sees_dirty {T : Type} (b : noise_profile_state_swap_buffers T) : Bool :=
  b.middle_buffer_state &&& TRIPLE_BUFFER_DIRTY_BIT != 0

/-- The atomic exchange of `noise_profile_state_consume` and the update of the
consumer-private `front_buffer_index` that follows it. -/
def consume_exchange {T : Type} (b : noise_profile_state_swap_buffers T) :
    noise_profile_state_swap_buffers T :=
  let prev := b.middle_buffer_state
  { b with
    middle_buffer_state := b.front_buffer_index
    front_buffer_index := prev &&& TRIPLE_BUFFER_MASK }

/-- The function `noise_profile_state_consume`: the returned flag, `*out_state` (a slot index) and the
buffers after the call. -/
def noise_profile_state_consume {T : Type} (b : noise_profile_state_swap_buffers T) :
    Bool × Nat × noise_profile_state_swap_buffers T :=
  if !consume_sees_dirty b then
    (false, b.front_buffer_index, b)
  else
    let b' := consume_exchange b
    (true, b'.front_buffer_index, b')

/-- One call made on a triple buffer by its producer or its consumer. -/
inductive buffer_call (T : Type) where
  | write (v : T)
  | publish
  | consume

/-- The buffers after one call. -/
def apply_call {T : Type} (b : noise_profile_state_swap_buffers T) :
    buffer_call T → noise_profile_state_swap_buffers T
  | .write v => write_noise_profile_state b v
  | .publish => publish_noise_profile_state b
  | .consume => (noise_profile_state_consume b).2.2

/-- The buffers after a sequence of calls, oldest first. -/
def apply_calls {T : Type} (b : noise_profile_state_swap_buffers T)
    (calls : List (buffer_call T)) : noise_profile_state_swap_buffers T :=
  calls.foldl apply_call b

/-- A state reachable from `init_noise_profile_buffers` by calls of the two parties. -/
def reachable {T : Type} (b : noise_profile_state_swap_buffers T) : Prop :=
  ∃ (b0 : noise_profile_state_swap_buffers T) (calls : List (buffer_call T)),
    b = apply_calls (init_noise_profile_buffers b0) calls

/-- The producer writes each value of `vs` into its writable slot and publishes after
each write. -/
def write_and_publish_all {T : Type} (b : noise_profile_state_swap_buffers T)
    (vs : List T) : noise_profile_state_swap_buffers T :=
  vs.foldl (fun acc v => publish_noise_profile_state (write_noise_profile_state acc v)) b

/-- The slot index held in `middle_buffer_state`, dirty bit masked off. -/
def middle_index {T : Type} (b : noise_profile_state_swap_buffers T) : Nat :=
  b.middle_buffer_state &&& TRIPLE_BUFFER_MASK

/-- The three roles name three different slots of `buffers[3]`, and the middle word is a
slot index with or without the dirty bit. -/
def indices_distinct {T : Type} (b : noise_profile_state_swap_buffers T) : Prop :=
  b.back_buffer_index < 3 ∧ b.front_buffer_index < 3 ∧ middle_index b < 3 ∧
  b.back_buffer_index ≠ b.front_buffer_index ∧
  b.back_buffer_index ≠ middle_index b ∧
  b.front_buffer_index ≠ middle_index b ∧
  (b.middle_buffer_state = middle_index b ∨
    b.middle_buffer_state = middle_index b ||| TRIPLE_BUFFER_DIRTY_BIT)

/-! ## Producer and consumer running concurrently

The producer repeats: store a fresh value in the writable slot, then
`publish_noise_profile_state`. The consumer repeats `noise_profile_state_consume`, whose two
atomic accesses (the load of the dirty bit, the exchange) are separate steps, so that the
producer may run between them. The `n`-th value the producer writes is `val n`; the zeroed
slots hold `val 0`. -/

/-- The two parties of a triple buffer. -/
inductive thread where
  | producer
  | consumer

/-- What one completed call of `noise_profile_state_consume` delivered. The fields `stamp`
and `published` are bookkeeping: the number of the publish that wrote the delivered slot
(0 for the zeroed content), and the number of publishes completed when the call took
effect. -/
structure observation (T : Type) where
  returned : Bool
  held : Nat
  slot : Nat
  value : T
  stamp : Nat
  published : Nat

/-- The shared buffers, where each party stands in its code, and bookkeeping. -/
structure interleaved (T : Type) where
  shared : noise_profile_state_swap_buffers T
  producer_wrote : Bool
  consumer_saw_dirty : Bool
  published : Nat
  stamp : Nat → Nat
  observed : List (observation T)

/-- The state after `init_noise_profile_buffers` on zeroed memory. -/
def interleaved_start {T : Type} (val : Nat → T) : interleaved T :=
  { shared := init_noise_profile_buffers (zeroed_buffers (val 0))
    producer_wrote := false
    consumer_saw_dirty := false
    published := 0
    stamp := fun _ => 0
    observed := [] }

/-- The scheduled party performs its next atomic step. -/
def interleaved_step {T : Type} (val : Nat → T) (s : interleaved T) : thread → interleaved T
  | .producer =>
    if !s.producer_wrote then
      { s with
        shared := write_noise_profile_state s.shared (val (s.published + 1))
        stamp := Function.update s.stamp (writable_noise_profile_state s.shared)
          (s.published + 1)
        producer_wrote := true }
    else
      { s with
        shared := publish_noise_profile_state s.shared
        published := s.published + 1
        producer_wrote := false }
  | .consumer =>
    if !s.consumer_saw_dirty then
      if !consume_sees_dirty s.shared then
        { s with
          observed :=
            { returned := false
              held := s.shared.front_buffer_index
              slot := s.shared.front_buffer_index
              value := s.shared.buffers s.shared.front_buffer_index
              stamp := s.stamp s.shared.front_buffer_index
              published := s.published } :: s.observed }
      else
        { s with consumer_saw_dirty := true }
    else
      let b' := consume_exchange s.shared
      { s with
        shared := b'
        consumer_saw_dirty := false
        observed :=
          { returned := true
            held := s.shared.front_buffer_index
            slot := b'.front_buffer_index
            value := b'.buffers b'.front_buffer_index
            stamp := s.stamp b'.front_buffer_index
            published := s.published } :: s.observed }

/-- The state after the steps of a schedule, oldest first. -/
def run_interleaved {T : Type} (val : Nat → T) (sched : List thread) : interleaved T :=
  sched.foldl (interleaved_step val) (interleaved_start val)

/-- How a call of `noise_profile_state_consume` relates to the call before it: it starts
from the slot the earlier call delivered, delivers nothing older, and when it returns
false it delivers the same content again. -/
def follows {T : Type} (newer older : observation T) : Prop :=
  newer.held = older.slot ∧ older.stamp ≤ newer.stamp ∧
  (newer.returned = false → newer.value = older.value ∧ newer.stamp = older.stamp)

/-- The invariant of the concurrent run. -/
structure interleaved_inv {T : Type} (val : Nat → T) (s : interleaved T) : Prop where
  distinct : indices_distinct s.shared
  content : ∀ i, s.shared.buffers i = val (s.stamp i)
  saw : s.consumer_saw_dirty = true → consume_sees_dirty s.shared = true
  dirty : consume_sees_dirty s.shared = true →
    s.stamp (middle_index s.shared) = s.published ∧ 1 ≤ s.published
  clean : consume_sees_dirty s.shared = false →
    s.stamp s.shared.front_buffer_index = s.published
  front_le : s.stamp s.shared.front_buffer_index ≤ s.published
  wrote : s.producer_wrote = true → s.stamp s.shared.back_buffer_index = s.published + 1
  each : ∀ o ∈ s.observed, o.value = val o.stamp ∧
    ((o.returned = false ∧ o.slot = o.held) ∨
      (o.returned = true ∧ o.stamp = o.published ∧ 1 ≤ o.published))
  chain : List.Chain' follows s.observed
  head : ∀ o, s.observed.head? = some o →
    o.slot = s.shared.front_buffer_index ∧ o.stamp = s.stamp s.shared.front_buffer_index
  older_le : ∀ o ∈ s.observed, o.stamp ≤ s.stamp s.shared.front_buffer_index
  sorted : List.Pairwise (fun newer older => older.stamp ≤ newer.stamp) s.observed

/-! ## Noise profile store (`noise_profile.c`) -/

/-- The operations on C `float` that `set_noise_profile` uses, on a carrier `α`:
the conversions `(float)k` and `(uint32_t)x`, the constants `0.F` and `1.0f` and the four
arithmetic operators. -/
structure float_arith (α : Type) where
  of_uint32 : Nat → α
  to_uint32 : α → Nat
  zero : α
  one : α
  add : α → α → α
  sub : α → α → α
  mul : α → α → α
  div : α → α → α

/-- Exact arithmetic: the operations of `float_arith` over the rationals, the conversion
to `uint32_t` truncating. -/
def rat_arith : float_arith ℚ :=
  { of_uint32 := fun n => (n : ℚ)
    to_uint32 := fun x => ⌊x⌋₊
    zero := 0
    one := 1
    add := fun x y => x + y
    sub := fun x y => x - y
    mul := fun x y => x * y
    div := fun x y => x / y }

/-- The struct `NoiseProfile`; the `float *noise_profile` is the array it points to. -/
structure NoiseProfile (α : Type) where
  noise_profile_size : Nat
  noise_profile_blocks_averaged : Nat
  noise_profile : Nat → α
  noise_spectrum_available : Bool

/-- The difference `a - 1` on `uint32_t`. -/
def u32_pred (a : Nat) : Nat := (a + 2 ^ 32 - 1) % 2 ^ 32

/-- The call `memcpy(dst, src, n * sizeof(float))` on arrays that do not overlap. -/
def memcpy_floats {α : Type} (dst src : Nat → α) (n : Nat) : Nat → α :=
  fun i => if i < n then src i else dst i

/-- The body of the loop of `set_noise_profile`: the value stored in bin `k`. -/
def interpolated_bin {α : Type} (ar : float_arith α) (noise_profile : Nat → α)
    (noise_profile_size self_size k : Nat) : α :=
  let src_idx := ar.div (ar.mul (ar.of_uint32 k) (ar.of_uint32 (u32_pred noise_profile_size)))
    (ar.of_uint32 (u32_pred self_size))
  let idx_low := ar.to_uint32 src_idx
  let idx_high := (idx_low + 1) % 2 ^ 32
  let idx_high := if idx_high ≥ noise_profile_size then u32_pred noise_profile_size
    else idx_high
  let alpha := ar.sub src_idx (ar.of_uint32 idx_low)
  ar.add (ar.mul (ar.sub ar.one alpha) (noise_profile idx_low))
    (ar.mul alpha (noise_profile idx_high))

/-- The loop `for (k = 1; k < self->noise_profile_size; k++)` of `set_noise_profile`. -/
def resize_loop {α : Type} (ar : float_arith α) (noise_profile : Nat → α)
    (noise_profile_size self_size : Nat) (out : Nat → α) : Nat → α :=
  (List.range' 1 (self_size - 1)).foldl
    (fun acc k =>
      Function.update acc k (interpolated_bin ar noise_profile noise_profile_size self_size k))
    out

/-- The function `set_noise_profile`. A null `self` or a null `noise_profile` is `none`. Returns the
flag and the store after the call. -/
def set_noise_profile {α : Type} (ar : float_arith α) (self : Option (NoiseProfile α))
    (noise_profile : Option (Nat → α)) (noise_profile_size : Nat)
    (noise_profile_blocks_averaged : Nat) : Bool × Option (NoiseProfile α) :=
  match self, noise_profile with
  | some self, some noise_profile =>
    let data :=
      if noise_profile_size = self.noise_profile_size then
        memcpy_floats self.noise_profile noise_profile noise_profile_size
      else
        resize_loop ar noise_profile noise_profile_size self.noise_profile_size
          (Function.update self.noise_profile 0 (noise_profile 0))
    (true, some
      { self with
        noise_profile := data
        noise_profile_blocks_averaged := noise_profile_blocks_averaged
        noise_spectrum_available := true })
  | _, _ => (false, self)

/-- The store left by `set_noise_profile` on non-null arguments. -/
def profile_after_set {α : Type} (ar : float_arith α) (self : NoiseProfile α)
    (noise_profile : Nat → α) (noise_profile_size blocks : Nat) : NoiseProfile α :=
  ((set_noise_profile ar (some self) (some noise_profile) noise_profile_size blocks).2).getD
    self


/-- The function `noise_profile_initialize`; `calloc` leaves every bin `0.0f`. -/
def noise_profile_initialize {α : Type} (ar : float_arith α) (size : Nat) : NoiseProfile α :=
  { noise_profile_size := size
    noise_profile_blocks_averaged := 0
    noise_profile := fun _ => ar.zero
    noise_spectrum_available := false }

/-- The function `is_noise_estimation_available`. -/
def is_noise_estimation_available {α : Type} (self : NoiseProfile α) : Bool :=
  self.noise_spectrum_available

/-- The function `get_noise_profile`. -/
def get_noise_profile {α : Type} (self : NoiseProfile α) : Nat → α := self.noise_profile

/-- The function `get_noise_profile_size`. -/
def get_noise_profile_size {α : Type} (self : NoiseProfile α) : Nat := self.noise_profile_size

/-- The function `get_noise_profile_blocks_averaged`. -/
def get_noise_profile_blocks_averaged {α : Type} (self : NoiseProfile α) : Nat :=
  self.noise_profile_blocks_averaged

/-- The function `increment_blocks_averaged`, the constant
`MIN_NUMBER_OF_WINDOWS_NOISE_AVERAGED` of `configurations.h` being a parameter. A null `self`
is `none`. Returns the flag and the store after the call. -/
def increment_blocks_averaged {α : Type} (MIN_NUMBER_OF_WINDOWS_NOISE_AVERAGED : Nat)
    (self : Option (NoiseProfile α)) : Bool × Option (NoiseProfile α) :=
  match self with
  | none => (false, none)
  | some self =>
    let self : NoiseProfile α :=
      { self with
        noise_profile_blocks_averaged := (self.noise_profile_blocks_averaged + 1) % 2 ^ 32 }
    let self : NoiseProfile α :=
      if self.noise_profile_blocks_averaged > MIN_NUMBER_OF_WINDOWS_NOISE_AVERAGED ∧
          self.noise_spectrum_available = false then
        { self with noise_spectrum_available := true }
      else self
    (true, some self)

/-- Modelled from the spec: the helper `initialize_spectrum_with_value(spectrum, size, value)`
of `utils/spectral_utils`, whose code is not among the sources. It stores `value` in the
first `size` entries of `spectrum` (the reset "zeroes all bins"). -/
def initialize_spectrum_with_value {α : Type} (spectrum : Nat → α) (size : Nat) (value : α) :
    Nat → α :=
  fun k => if k < size then value else spectrum k

/-- The function `reset_noise_profile`. A null `self` is `none`. Returns the flag and the store
after the call. -/
def reset_noise_profile {α : Type} (ar : float_arith α) (self : Option (NoiseProfile α)) :
    Bool × Option (NoiseProfile α) :=
  match self with
  | none => (false, none)
  | some self =>
    (true, some
      { self with
        noise_profile :=
          initialize_spectrum_with_value self.noise_profile self.noise_profile_size ar.zero
        noise_profile_blocks_averaged := 0
        noise_spectrum_available := false })

/-- The store after `n` calls of `increment_blocks_averaged` in a row. -/
def increment_blocks_averaged_times {α : Type} (MIN_NUMBER_OF_WINDOWS_NOISE_AVERAGED : Nat)
    (n : Nat) (self : Option (NoiseProfile α)) : Option (NoiseProfile α) :=
  (fun s => (increment_blocks_averaged MIN_NUMBER_OF_WINDOWS_NOISE_AVERAGED s).2)^[n] self

/-- A store is empty: no block averaged, no profile available, every bin `0.0f`. -/
def NoiseProfile.empty {α : Type} (ar : float_arith α) (self : NoiseProfile α) : Prop :=
  self.noise_profile_blocks_averaged = 0 ∧ self.noise_spectrum_available = false ∧
    ∀ k, k < self.noise_profile_size → self.noise_profile k = ar.zero

/-- The local `src_idx` of the loop of `set_noise_profile` at bin `k`. -/
def src_idx {α : Type} (ar : float_arith α) (noise_profile_size self_size k : Nat) : α :=
  ar.div (ar.mul (ar.of_uint32 k) (ar.of_uint32 (u32_pred noise_profile_size)))
    (ar.of_uint32 (u32_pred self_size))

/-- The local `idx_low` of the loop of `set_noise_profile` at bin `k`. -/
def idx_low {α : Type} (ar : float_arith α) (noise_profile_size self_size k : Nat) : Nat :=
  ar.to_uint32 (src_idx ar noise_profile_size self_size k)

/-- The local `idx_high` of the loop of `set_noise_profile` at bin `k`, after the `if`. -/
def idx_high {α : Type} (ar : float_arith α) (noise_profile_size self_size k : Nat) : Nat :=
  if (idx_low ar noise_profile_size self_size k + 1) % 2 ^ 32 ≥ noise_profile_size then
    u32_pred noise_profile_size
  else (idx_low ar noise_profile_size self_size k + 1) % 2 ^ 32

/-- The local `alpha` of the loop of `set_noise_profile` at bin `k`. -/
def alpha {α : Type} (ar : float_arith α) (noise_profile_size self_size k : Nat) : α :=
  ar.sub (src_idx ar noise_profile_size self_size k)
    (ar.of_uint32 (idx_low ar noise_profile_size self_size k))

/-! ## FFT framing (`fft_transform.c`) -/

/-- The conversion `(int)x` of a `uint32_t` (two's complement). -/
def int_of_uint32 (x : Nat) : Int := if x < 2 ^ 31 then (x : Int) else (x : Int) - 2 ^ 32

/-- The conversion of an `int` to `uint32_t`. -/
def uint32_of_int (x : Int) : Nat := (x % 2 ^ 32).toNat

/-- Doubling `p` until it is not below `value`, in at most `fuel` steps. -/
def next_power_two_from (value : Nat) : Nat → Nat → Nat
  | 0, p => p
  | fuel + 1, p => if value ≤ p then p else next_power_two_from value fuel (2 * p)

/-- Modelled from the spec: the helper `get_next_power_two` of `utils/general_utils`, whose
code is not among the sources, taken as the least power of two not below its argument (1 for
an argument below 1). The result is not reduced to the range of `int`. -/
def get_next_power_two (value : Int) : Int :=
  (next_power_two_from value.toNat value.toNat 1 : Nat)

/-- The struct `FftTransform` without the PFFFT setup and work buffer; the two `float *`
buffers are the arrays they point to. -/
structure FftTransform (α : Type) where
  fft_size : Nat
  frame_size : Nat
  zeropadding_amount : Nat
  copy_position : Nat
  padding_amount : Nat
  input_fft_buffer : Nat → α
  output_fft_buffer : Nat → α

/-- The call `memset(buffer, 0, n * sizeof(float))`. -/
def memset_floats {α : Type} (ar : float_arith α) (buffer : Nat → α) (n : Nat) : Nat → α :=
  fun i => if i < n then ar.zero else buffer i

/-- The function `calculate_fft_size`: the returned size and `*self` after the call. -/
def calculate_fft_size {α : Type} (self : FftTransform α) : Nat × FftTransform α :=
  let next_power_of_two := uint32_of_int (get_next_power_two (int_of_uint32 self.frame_size))
  let self : FftTransform α :=
    { self with padding_amount := (next_power_of_two + 2 ^ 32 - self.frame_size) % 2 ^ 32 }
  (if next_power_of_two < 32 then 32 else next_power_of_two, self)

/-- The function `allocate_pffft`: both buffers hold `fft_size` zeroes. -/
def allocate_pffft {α : Type} (ar : float_arith α) (self : FftTransform α) : FftTransform α :=
  { self with
    input_fft_buffer := memset_floats ar self.input_fft_buffer self.fft_size
    output_fft_buffer := memset_floats ar self.output_fft_buffer self.fft_size }

/-- The `FftTransform` that `calloc` returns. -/
def zero_fft_transform {α : Type} (ar : float_arith α) : FftTransform α :=
  { fft_size := 0
    frame_size := 0
    zeropadding_amount := 0
    copy_position := 0
    padding_amount := 0
    input_fft_buffer := fun _ => ar.zero
    output_fft_buffer := fun _ => ar.zero }

/-- The function `fft_transform_initialize`; `padding_type` is not used by the code. -/
def fft_transform_initialize {α : Type} (ar : float_arith α) (frame_size _padding_type
    zeropadding_amount : Nat) : FftTransform α :=
  let self := zero_fft_transform ar
  let self : FftTransform α := { self with zeropadding_amount := zeropadding_amount }
  let self : FftTransform α := { self with frame_size := frame_size }
  let r := calculate_fft_size self
  let self : FftTransform α := { r.2 with fft_size := r.1 }
  let self : FftTransform α :=
    { self with
      copy_position := (self.fft_size / 2 + 2 ^ 32 - self.frame_size / 2) % 2 ^ 32 }
  allocate_pffft ar self

/-- The function `fft_transform_initialize_bins`. -/
def fft_transform_initialize_bins {α : Type} (ar : float_arith α) (fft_size : Nat) :
    FftTransform α :=
  let self := zero_fft_transform ar
  let self : FftTransform α := { self with fft_size := fft_size }
  let self : FftTransform α := { self with frame_size := self.fft_size }
  allocate_pffft ar self

/-- The function `get_fft_size`. -/
def get_fft_size {α : Type} (self : FftTransform α) : Nat := self.fft_size

/-- The frame lies inside the buffers of the transform. -/
def FftTransform.in_bounds {α : Type} (self : FftTransform α) : Prop :=
  self.copy_position + self.frame_size ≤ self.fft_size ∧ self.fft_size < 2 ^ 32

/-! ## Plugin state (`clap_plugin.c`)

A `float` or `double` object is its IEEE 754 bit pattern, a natural number below `2 ^ 32`
or `2 ^ 64`; objects are laid out in memory and in the persisted stream least significant
byte first. -/

/-- A member of `enum param_ids`. -/
def pid_AMOUNT : Nat := 238
/-- A member of `enum param_ids`. -/
def pid_OFFSET : Nat := 1923048
/-- A member of `enum param_ids`. -/
def pid_SMOOTHING : Nat := 349857
/-- A member of `enum param_ids`. -/
def pid_WHITENING : Nat := 12357
/-- A member of `enum param_ids`. -/
def pid_TRANSIENT_PROTECTION : Nat := 329847
/-- A member of `enum param_ids`. -/
def pid_LEARN_NOISE : Nat := 57433
/-- A member of `enum param_ids`. -/
def pid_RESIDUAL_LISTEN : Nat := 56201
/-- A member of `enum param_ids`. -/
def pid_RESET_PROFILE : Nat := 453689734
/-- A member of `enum param_ids`. -/
def pid_ENABLE : Nat := 239487
/-- A member of `enum param_ids`. -/
def pid_NOISE_SCALING_TYPE : Nat := 6710386
/-- A member of `enum param_ids`. -/
def pid_POST_FILTER_THRESHOLD : Nat := 18613465

/-- The macro `#define PARAMS_COUNT 11`. -/
def PARAMS_COUNT : Nat := 11

/-- The macro `#define NOISE_PROFILE_MAX_SIZE 9000`. -/
def NOISE_PROFILE_MAX_SIZE : Nat := 9000

/-- The struct `noise_profile_state`: `channels c i` is the bit pattern of
`channels[c][i]`. The C arrays end at `c = 1` and `i = 8999`. -/
structure noise_profile_state where
  channels : Nat → Nat → Nat
  blocks_averaged : Nat
  size : Nat

/-- The `double` constant `0.0`. -/
def double_0 : Nat := 0
/-- The `double` constant `1.0`. -/
def double_1 : Nat := 0x3FF0000000000000
/-- The `double` constant `2.0`. -/
def double_2 : Nat := 0x4000000000000000
/-- The `double` constant `10.0`. -/
def double_10 : Nat := 0x4024000000000000

/-- The comparison `value >= 0.5` on a `double`: the sign bit is clear, the pattern is not
below the one of `0.5` and not above the one of `+inf` (beyond it lie the NaNs). -/
def double_ge_half (value : Nat) : Bool :=
  decide (0x3FE0000000000000 ≤ value ∧ value ≤ 0x7FF0000000000000)

/-- The conversions of C between `double`, `float` and `uint32_t`, and `round`, on bit
patterns. They are the ones of the C implementation and are taken as given. -/
structure c_conversions where
  to_float : Nat → Nat
  to_double : Nat → Nat
  to_uint32 : Nat → Nat
  of_uint32 : Nat → Nat
  round : Nat → Nat

/-- What the development uses of the conversions: a `double` has 64 bits; widening a
`float` and narrowing it again gives a `float` that widens to the same `double`; an
`uint32_t` converted to `double`, rounded and converted back is unchanged. -/
structure c_conversions.lawful (cv : c_conversions) : Prop where
  to_double_lt : ∀ f, cv.to_double f < 2 ^ 64
  round_lt : ∀ d, cv.round d < 2 ^ 64
  narrow_widen : ∀ f, cv.to_double (cv.to_float (cv.to_double f)) = cv.to_double f
  uint32_back : ∀ u, u < 2 ^ 32 → cv.to_uint32 (cv.round (cv.of_uint32 u)) = u

/-- The part of the struct `clap_noiserf` that parameters and persistence use. -/
structure clap_noiserf where
  channel_count : Nat
  amount : Nat
  offset : Nat
  smoothing : Nat
  whitening : Nat
  transient_protection : Bool
  learn_noise : Nat
  residual_listen : Bool
  reset_profile : Bool
  enable : Bool
  noise_scaling_type : Nat
  post_filter_threshold : Nat
  pending_noise_profile_change : noise_profile_state_swap_buffers noise_profile_state
  current_noise_profile : noise_profile_state_swap_buffers noise_profile_state

/-- The function `set_value`. -/
def set_value (cv : c_conversions) (plug : clap_noiserf) (param_id : Nat) (value : Nat) :
    clap_noiserf :=
  if param_id = pid_AMOUNT then { plug with amount := cv.to_float value }
  else if param_id = pid_OFFSET then { plug with offset := cv.to_float value }
  else if param_id = pid_SMOOTHING then { plug with smoothing := cv.to_float value }
  else if param_id = pid_WHITENING then { plug with whitening := cv.to_float value }
  else if param_id = pid_TRANSIENT_PROTECTION then
    { plug with transient_protection := double_ge_half value }
  else if param_id = pid_LEARN_NOISE then { plug with learn_noise := cv.to_uint32 value }
  else if param_id = pid_RESIDUAL_LISTEN then
    { plug with residual_listen := double_ge_half value }
  else if param_id = pid_RESET_PROFILE then { plug with reset_profile := double_ge_half value }
  else if param_id = pid_ENABLE then { plug with enable := double_ge_half value }
  else if param_id = pid_NOISE_SCALING_TYPE then
    { plug with noise_scaling_type := cv.to_uint32 value }
  else if param_id = pid_POST_FILTER_THRESHOLD then
    { plug with post_filter_threshold := cv.to_float value }
  else plug

/-- The fields of `clap_param_info_t` that the plugin reads back. -/
structure clap_param_info where
  id : Nat
  default_value : Nat

/-- The function `param_get_info`: the returned flag and `*param_info`, which is zeroed first. -/
def param_get_info (param_index : Nat) : Bool × clap_param_info :=
  match param_index with
  | 0 => (true, { id := pid_AMOUNT, default_value := double_10 })
  | 1 => (true, { id := pid_OFFSET, default_value := double_2 })
  | 2 => (true, { id := pid_SMOOTHING, default_value := double_0 })
  | 3 => (true, { id := pid_WHITENING, default_value := double_0 })
  | 4 => (true, { id := pid_TRANSIENT_PROTECTION, default_value := double_0 })
  | 5 => (true, { id := pid_LEARN_NOISE, default_value := double_0 })
  | 6 => (true, { id := pid_RESIDUAL_LISTEN, default_value := double_0 })
  | 7 => (true, { id := pid_RESET_PROFILE, default_value := double_0 })
  | 8 => (true, { id := pid_ENABLE, default_value := double_1 })
  | 9 => (true, { id := pid_NOISE_SCALING_TYPE, default_value := double_0 })
  | 10 => (true, { id := pid_POST_FILTER_THRESHOLD, default_value := double_0 })
  | _ => (false, { id := 0, default_value := 0 })

/-- The expression `b ? 1.0 : 0.0`. -/
def double_of_bool (b : Bool) : Nat := if b then double_1 else double_0

/-- The function `param_get_value`: the returned flag and `*value` (left alone, here 0, when the id is
unknown). -/
def param_get_value (cv : c_conversions) (plug : clap_noiserf) (param_id : Nat) : Bool × Nat :=
  if param_id = pid_AMOUNT then (true, cv.to_double plug.amount)
  else if param_id = pid_OFFSET then (true, cv.to_double plug.offset)
  else if param_id = pid_SMOOTHING then (true, cv.to_double plug.smoothing)
  else if param_id = pid_WHITENING then (true, cv.to_double plug.whitening)
  else if param_id = pid_TRANSIENT_PROTECTION then
    (true, double_of_bool plug.transient_protection)
  else if param_id = pid_LEARN_NOISE then (true, cv.round (cv.of_uint32 plug.learn_noise))
  else if param_id = pid_RESIDUAL_LISTEN then (true, double_of_bool plug.residual_listen)
  else if param_id = pid_RESET_PROFILE then (true, double_of_bool plug.reset_profile)
  else if param_id = pid_ENABLE then (true, double_of_bool plug.enable)
  else if param_id = pid_NOISE_SCALING_TYPE then
    (true, cv.round (cv.of_uint32 plug.noise_scaling_type))
  else if param_id = pid_POST_FILTER_THRESHOLD then
    (true, cv.to_double plug.post_filter_threshold)
  else (false, 0)

/-- The function `set_all_params_to_default`. -/
def set_all_params_to_default (cv : c_conversions) (plug : clap_noiserf) : clap_noiserf :=
  (List.range PARAMS_COUNT).foldl
    (fun p i => set_value cv p (param_get_info i).2.id (param_get_info i).2.default_value)
    plug

/-- The zeroed `noise_profile_state`. -/
def zero_noise_profile_state : noise_profile_state :=
  { channels := fun _ _ => 0, blocks_averaged := 0, size := 0 }

/-- The function `create`: the zeroed struct with its channel count. -/
def create (channel_count : Nat) : clap_noiserf :=
  { channel_count := channel_count
    amount := 0
    offset := 0
    smoothing := 0
    whitening := 0
    transient_protection := false
    learn_noise := 0
    residual_listen := false
    reset_profile := false
    enable := false
    noise_scaling_type := 0
    post_filter_threshold := 0
    pending_noise_profile_change := zeroed_buffers zero_noise_profile_state
    current_noise_profile := zeroed_buffers zero_noise_profile_state }

/-- The function `init`. -/
def init (cv : c_conversions) (plug : clap_noiserf) : clap_noiserf :=
  set_all_params_to_default cv
    { plug with
      pending_noise_profile_change :=
        init_noise_profile_buffers plug.pending_noise_profile_change
      current_noise_profile := init_noise_profile_buffers plug.current_noise_profile }

/-! ### Streams -/

/-- The `w` bytes of an object of value `v`, least significant first. -/
def le_encode : Nat → Nat → List Nat
  | 0, _ => []
  | w + 1, v => v % 256 :: le_encode w (v / 256)

/-- The value of an object from its bytes, least significant first. -/
def le_decode : List Nat → Nat
  | [] => 0
  | b :: bs => b % 256 + 256 * le_decode bs

/-- Memory that held `old` after `received` was stored at its start. -/
def overwrite (old received : List Nat) : List Nat :=
  received ++ old.drop received.length

/-- An input stream of the host: the bytes it still holds, the most bytes (`chunk + 1`) one
`read` call delivers, and, when `fail_after` is `some k`, the number of bytes after which
`read` reports an error. -/
structure clap_istream where
  data : List Nat
  chunk : Nat
  fail_after : Option Nat

/-- The call `stream->read(stream, buffer, size)`: the returned count (0 at the end of the stream,
negative on error), the bytes stored in `buffer` and the stream after the call. -/
def clap_istream.read (stream : clap_istream) (size : Nat) : Int × List Nat × clap_istream :=
  if stream.fail_after = some 0 then (-1, [], stream)
  else
    let limit := match stream.fail_after with
      | some k => min k (stream.chunk + 1)
      | none => stream.chunk + 1
    let n := min (min size limit) stream.data.length
    ((n : Int), stream.data.take n,
      { stream with
        data := stream.data.drop n
        fail_after := stream.fail_after.map (fun k => k - n) })

/-- The function `read_from_stream`: the returned flag, the bytes stored in `buffer` and the stream
after the call. `size` here is what is left to read, `size - bytes_read`. -/
def read_from_stream (stream : clap_istream) (size : Nat) : Bool × List Nat × clap_istream :=
  if size = 0 then (true, [], stream)
  else if (stream.read size).1 = 0 then (false, [], (stream.read size).2.2)
  else if (stream.read size).1 < 0 then (false, [], (stream.read size).2.2)
  else
    let rest := read_from_stream (stream.read size).2.2 (size - (stream.read size).1.toNat)
    (rest.1, (stream.read size).2.1 ++ rest.2.1, rest.2.2)
termination_by size
decreasing_by
  simp_wf
  omega

/-- An output stream of the host: the bytes it has accepted, the most bytes (`chunk + 1`)
one `write` call accepts, and, when `room` is `some k`, the number of bytes after which
`write` accepts nothing more and returns a negative value (`full_is_error`) or 0. -/
structure clap_ostream where
  written : List Nat
  chunk : Nat
  room : Option Nat
  full_is_error : Bool

/-- The call `stream->write(stream, buffer, size)`: the returned count and the stream after the
call. -/
def clap_ostream.write (stream : clap_ostream) (buffer : List Nat) (size : Nat) :
    Int × clap_ostream :=
  if stream.room = some 0 then
    (if stream.full_is_error then -1 else 0, stream)
  else
    let limit := match stream.room with
      | some k => min k (stream.chunk + 1)
      | none => stream.chunk + 1
    let n := min size limit
    ((n : Int),
      { stream with
        written := stream.written ++ buffer.take n
        room := stream.room.map (fun k => k - n) })

/-- The function `write_to_stream`: the returned flag and the stream after the call; `none` when the
loop never exits. `buffer` and `size` are what is left to write. A `write` that returns 0
leaves `bytes_written` and the stream as they were, so the loop repeats that iteration
for ever. -/
def write_to_stream (stream : clap_ostream) (buffer : List Nat) (size : Nat) :
    Option (Bool × clap_ostream) :=
  if size = 0 then some (true, stream)
  else if (stream.write buffer size).1 < 0 then some (false, (stream.write buffer size).2)
  else if (stream.write buffer size).1 = 0 then none
  else
    write_to_stream (stream.write buffer size).2
      (buffer.drop (stream.write buffer size).1.toNat)
      (size - (stream.write buffer size).1.toNat)
termination_by size
decreasing_by
  simp_wf
  omega

/-- The struct `state_coder`: the mode with the stream it uses. -/
inductive state_coder where
  | ENCODE (ostream : clap_ostream)
  | DECODE (istream : clap_istream)

/-- The function `code`: the returned flag, the content of `buffer` and the coder after the call;
`none` when the call never returns. -/
def code (coder : state_coder) (buffer : List Nat) (size : Nat) :
    Option (Bool × List Nat × state_coder) :=
  if size = 0 then some (true, buffer, coder)
  else
    match coder with
    | .ENCODE ostream =>
      (write_to_stream ostream buffer size).map
        (fun r => (r.1, buffer, state_coder.ENCODE r.2))
    | .DECODE istream =>
      let r := read_from_stream istream size
      some (r.1, overwrite buffer r.2.1, state_coder.DECODE r.2.2)

/-- A `noise_profile_state *`: a slot of one of the two triple buffers of the plugin. -/
inductive state_ptr where
  | pending (slot : Nat)
  | current (slot : Nat)

/-- The object a `noise_profile_state *` points to. -/
def deref (plug : clap_noiserf) : state_ptr → noise_profile_state
  | .pending slot => plug.pending_noise_profile_change.buffers slot
  | .current slot => plug.current_noise_profile.buffers slot

/-- A store through a `noise_profile_state *`. -/
def store (plug : clap_noiserf) (p : state_ptr) (st : noise_profile_state) : clap_noiserf :=
  match p with
  | .pending slot =>
    { plug with
      pending_noise_profile_change :=
        { plug.pending_noise_profile_change with
          buffers := Function.update plug.pending_noise_profile_change.buffers slot st } }
  | .current slot =>
    { plug with
      current_noise_profile :=
        { plug.current_noise_profile with
          buffers := Function.update plug.current_noise_profile.buffers slot st } }

/-- The loop of `current_noise_profile` that copies `size` floats of each channel. -/
def copy_channels (channel_count size : Nat) (dst src : Nat → Nat → Nat) : Nat → Nat → Nat :=
  fun channel => if channel < channel_count then memcpy_floats (dst channel) (src channel) size
    else dst channel

/-- The function `current_noise_profile`: the returned pointer and the plugin after the call. -/
def current_noise_profile (plug : clap_noiserf) (consume_pending : Bool) :
    state_ptr × clap_noiserf :=
  let consumed :=
    if consume_pending then noise_profile_state_consume plug.pending_noise_profile_change
    else (false, 0, plug.pending_noise_profile_change)
  let plug := { plug with pending_noise_profile_change := consumed.2.2 }
  if consumed.1 then
    let state := plug.pending_noise_profile_change.buffers consumed.2.1
    let slot := writable_noise_profile_state plug.current_noise_profile
    let current := plug.current_noise_profile.buffers slot
    let current : noise_profile_state :=
      { blocks_averaged := state.blocks_averaged
        size := state.size
        channels := copy_channels plug.channel_count state.size current.channels
          state.channels }
    (state_ptr.pending consumed.2.1,
      { plug with
        current_noise_profile :=
          publish_noise_profile_state
            (write_noise_profile_state plug.current_noise_profile current) })
  else
    let pending_middle_state := plug.pending_noise_profile_change.middle_buffer_state
    if pending_middle_state &&& TRIPLE_BUFFER_DIRTY_BIT != 0 then
      (state_ptr.pending (pending_middle_state &&& TRIPLE_BUFFER_MASK), plug)
    else
      let r := noise_profile_state_consume plug.current_noise_profile
      (state_ptr.current r.2.1, { plug with current_noise_profile := r.2.2 })

/-- The bytes of the first `n` floats of an array. -/
def floats_bytes (a : Nat → Nat) (n : Nat) : List Nat :=
  (List.range n).flatMap (fun i => le_encode 4 (a i))

/-- An array of floats after its first `n` floats were replaced by the memory content
`bytes`. -/
def floats_stored (a : Nat → Nat) (n : Nat) (bytes : List Nat) : Nat → Nat :=
  fun i => if i < n then le_decode ((bytes.drop (4 * i)).take 4) else a i

/-- The loop over the parameters in `code_state`, `remaining` iterations from index `i`. In
decode mode `param_id` starts uninitialised (here 0); a successful read replaces all of
it. -/
def code_params (cv : c_conversions) :
    Nat → Nat → clap_noiserf → state_coder → Option (Bool × clap_noiserf × state_coder)
  | 0, _, plug, coder => some (true, plug, coder)
  | remaining + 1, i, plug, coder =>
    let param_id := match coder with
      | .ENCODE _ => (param_get_info i).2.id
      | .DECODE _ => 0
    match code coder (le_encode 4 param_id) 4 with
    | none => none
    | some (false, _, coder) => some (false, plug, coder)
    | some (true, buffer, coder) =>
      let param_id := le_decode buffer
      let value := match coder with
        | .ENCODE _ => (param_get_value cv plug param_id).2
        | .DECODE _ => double_0
      match code coder (le_encode 8 value) 8 with
      | none => none
      | some (false, _, coder) => some (false, plug, coder)
      | some (true, buffer, coder) =>
        let value := le_decode buffer
        let plug := match coder with
          | .ENCODE _ => plug
          | .DECODE _ => set_value cv plug param_id value
        code_params cv remaining (i + 1) plug coder

/-- The loop over the channels in `code_state`, `remaining` iterations from `channel`. The
byte count `sizeof(float) * state->size` does not overflow a 64-bit `size_t`. -/
def code_channels :
    Nat → Nat → state_ptr → clap_noiserf → state_coder →
      Option (Bool × clap_noiserf × state_coder)
  | 0, _, _, plug, coder => some (true, plug, coder)
  | remaining + 1, channel, state, plug, coder =>
    let st := deref plug state
    match code coder (floats_bytes (st.channels channel) st.size) (4 * st.size) with
    | none => none
    | some (ok, buffer, coder) =>
      let plug := match coder with
        | .ENCODE _ => plug
        | .DECODE _ =>
          store plug state
            { st with
              channels := Function.update st.channels channel
                (floats_stored (st.channels channel) st.size buffer) }
      if !ok then some (false, plug, coder)
      else code_channels remaining (channel + 1) state plug coder

/-- The function `code_state`: the returned flag, the plugin and the coder after the call; `none` when
the call never returns. The `assert`s are not executed. -/
def code_state (cv : c_conversions) (plug : clap_noiserf) (coder : state_coder) :
    Option (Bool × clap_noiserf × state_coder) :=
  let version := 1
  match code coder (le_encode 4 version) 4 with
  | none => none
  | some (false, _, coder) => some (false, plug, coder)
  | some (true, _, coder) =>
    let params_count := PARAMS_COUNT
    match code coder (le_encode 4 params_count) 4 with
    | none => none
    | some (false, _, coder) => some (false, plug, coder)
    | some (true, buffer, coder) =>
      let params_count := le_decode buffer
      let plug := match coder with
        | .ENCODE _ => plug
        | .DECODE _ =>
          if params_count > PARAMS_COUNT then set_all_params_to_default cv plug else plug
      match code_params cv params_count 0 plug coder with
      | none => none
      | some (false, plug, coder) => some (false, plug, coder)
      | some (true, plug, coder) =>
        let r := match coder with
          | .ENCODE _ => current_noise_profile plug false
          | .DECODE _ =>
            (state_ptr.pending (writable_noise_profile_state plug.pending_noise_profile_change),
              plug)
        let state := r.1
        let plug := r.2
        match code coder (le_encode 4 (deref plug state).blocks_averaged) 4 with
        | none => none
        | some (ok, buffer, coder) =>
          let plug := match coder with
            | .ENCODE _ => plug
            | .DECODE _ =>
              store plug state { deref plug state with blocks_averaged := le_decode buffer }
          if !ok then some (false, plug, coder)
          else
            match code coder (le_encode 4 (deref plug state).size) 4 with
            | none => none
            | some (ok, buffer, coder) =>
              let plug := match coder with
                | .ENCODE _ => plug
                | .DECODE _ => store plug state { deref plug state with size := le_decode buffer }
              if !ok then some (false, plug, coder)
              else
                match code_channels plug.channel_count 0 state plug coder with
                | none => none
                | some (false, plug, coder) => some (false, plug, coder)
                | some (true, plug, coder) =>
                  let plug := match coder with
                    | .ENCODE _ => plug
                    | .DECODE _ =>
                      { plug with
                        pending_noise_profile_change :=
                          publish_noise_profile_state plug.pending_noise_profile_change }
                  some (true, plug, coder)

/-- The function `state_save`: the returned flag, the plugin and the stream after the call. -/
def state_save (cv : c_conversions) (plug : clap_noiserf) (stream : clap_ostream) :
    Option (Bool × clap_noiserf × clap_ostream) :=
  match code_state cv plug (state_coder.ENCODE stream) with
  | some (result, plug, .ENCODE stream) => some (result, plug, stream)
  | _ => none

/-- The function `state_load`: the returned flag, the plugin and the stream after the call. -/
def state_load (cv : c_conversions) (plug : clap_noiserf) (stream : clap_istream) :
    Bool × clap_noiserf × clap_istream :=
  match code_state cv plug (state_coder.DECODE stream) with
  | some (result, plug, .DECODE stream) => (result, plug, stream)
  | _ => (false, plug, stream)

/-! ### Auxiliary notions for the statements about persistence -/

/-- The bytes a stream delivers before its end or its error. -/
def clap_istream.readable (stream : clap_istream) : Nat :=
  match stream.fail_after with
  | none => stream.data.length
  | some k => min k stream.data.length

/-- The stream after `n` bytes were delivered. -/
def clap_istream.advance (stream : clap_istream) (n : Nat) : clap_istream :=
  { stream with
    data := stream.data.drop n
    fail_after := stream.fail_after.map (fun k => k - n) }

/-- The stream after it accepted `bytes`. -/
def clap_ostream.accept (stream : clap_ostream) (bytes : List Nat) : clap_ostream :=
  { stream with written := stream.written ++ bytes }

/-- The bytes of a sequence of (parameter id, value) pairs. -/
def pairs_bytes (ps : List (Nat × Nat)) : List Nat :=
  ps.flatMap (fun p => le_encode 4 p.1 ++ le_encode 8 p.2)

/-- The (parameter id, value) pairs of the parameters with index `i, .., i + n - 1`, as
`code_state` encodes them. -/
def saved_pairs (cv : c_conversions) (plug : clap_noiserf) (i n : Nat) : List (Nat × Nat) :=
  (List.range' i n).map
    (fun j => ((param_get_info j).2.id, (param_get_value cv plug (param_get_info j).2.id).2))

/-- The plugin after `set_value` for each pair in turn. -/
def set_values (cv : c_conversions) (plug : clap_noiserf) (ps : List (Nat × Nat)) :
    clap_noiserf :=
  ps.foldl (fun q p => set_value cv q p.1 p.2) plug

/-- The bytes the stream delivers before its end or its error are a strict prefix of
`P`. -/
def clap_istream.short_of (stream : clap_istream) (P : List Nat) : Prop :=
  stream.readable < P.length ∧ stream.data.take stream.readable = P.take stream.readable

/-- The bytes of the first `size` floats of the channels `channel, .., channel + n - 1`. -/
def channels_bytes (ch : Nat → Nat → Nat) (size channel n : Nat) : List Nat :=
  (List.range' channel n).flatMap (fun c => floats_bytes (ch c) size)

/-- Channel arrays after the first `size` floats of the channels
`channel, .., channel + n - 1` were replaced by those of `src`. -/
def channels_replaced (dst src : Nat → Nat → Nat) (size channel n : Nat) : Nat → Nat → Nat :=
  fun c => if channel ≤ c ∧ c < channel + n then memcpy_floats (dst c) (src c) size else dst c

/-- A persisted payload: version, parameter count, the (id, value) pairs, `blocks_averaged`,
`size`, then `size` floats for each of `channel_count` channels. -/
def payload (version : Nat) (ps : List (Nat × Nat)) (blocks_averaged size : Nat)
    (ch : Nat → Nat → Nat) (channel_count : Nat) : List Nat :=
  le_encode 4 version ++ (le_encode 4 ps.length ++ (pairs_bytes ps ++
    (le_encode 4 blocks_averaged ++ (le_encode 4 size ++
      channels_bytes ch size 0 channel_count))))

/-- The plugin after a successful `state_load` of `payload version ps blocks_averaged size ch
channel_count`. -/
def loaded (cv : c_conversions) (plug : clap_noiserf) (ps : List (Nat × Nat))
    (blocks_averaged size : Nat) (ch : Nat → Nat → Nat) : clap_noiserf :=
  let plug1 := set_values cv
    (if ps.length > PARAMS_COUNT then set_all_params_to_default cv plug else plug) ps
  let old := plug1.pending_noise_profile_change.buffers
    (writable_noise_profile_state plug1.pending_noise_profile_change)
  { plug1 with
    pending_noise_profile_change :=
      publish_noise_profile_state
        (write_noise_profile_state plug1.pending_noise_profile_change
          { channels := channels_replaced old.channels ch size 0 plug1.channel_count
            blocks_averaged := blocks_averaged
            size := size }) }

/-- A `noise_profile_state` whose fields are values of their C types and whose `size`
meets `assert(state->size <= NOISE_PROFILE_MAX_SIZE)`. -/
def noise_profile_state.valid (st : noise_profile_state) : Prop :=
  st.blocks_averaged < 2 ^ 32 ∧ st.size ≤ NOISE_PROFILE_MAX_SIZE ∧
    ∀ c i, st.channels c i < 2 ^ 32

/-- A plugin whose `uint32_t` parameters are 32-bit values and whose profile slots are
valid. -/
def clap_noiserf.valid (plug : clap_noiserf) : Prop :=
  plug.learn_noise < 2 ^ 32 ∧ plug.noise_scaling_type < 2 ^ 32 ∧
    (∀ i, (plug.pending_noise_profile_change.buffers i).valid) ∧
    (∀ i, (plug.current_noise_profile.buffers i).valid)

/-- The profile `state_save` encodes: the object `current_noise_profile(plug, false)`
points to. -/
def saved_profile (plug : clap_noiserf) : noise_profile_state :=
  deref (current_noise_profile plug false).2 (current_noise_profile plug false).1

/-- The ids of the parameters of the plugin, in index order. -/
def param_ids : List Nat :=
  (List.range PARAMS_COUNT).map (fun i => (param_get_info i).2.id)

/-- A stand-in for the conversions of C that satisfies `c_conversions.lawful`; it moves bit
patterns and computes no IEEE 754 value. -/
def sample_conversions : c_conversions :=
  { to_float := fun d => d / 2 ^ 32 % 2 ^ 32
    to_double := fun f => f % 2 ^ 32 * 2 ^ 32
    to_uint32 := fun d => d % 2 ^ 32
    of_uint32 := fun u => u % 2 ^ 32
    round := fun d => d % 2 ^ 64 }

/-- A stereo plugin after `init`, with the enable parameter switched off. -/
def sample_plugin : clap_noiserf :=
  set_value sample_conversions (init sample_conversions (create 2)) pid_ENABLE double_0

/-- Twelve (id, value) pairs: the eleven parameters of the plugin and a pair whose id no
parameter has. -/
def sample_pairs : List (Nat × Nat) :=
  [(pid_AMOUNT, double_2), (pid_OFFSET, double_1), (pid_SMOOTHING, double_0),
    (pid_WHITENING, double_0), (pid_TRANSIENT_PROTECTION, double_1),
    (pid_LEARN_NOISE, double_0), (pid_RESIDUAL_LISTEN, double_0),
    (pid_RESET_PROFILE, double_0), (pid_ENABLE, double_1), (pid_NOISE_SCALING_TYPE, double_0),
    (pid_POST_FILTER_THRESHOLD, double_0), (7, double_10)]

/-! ## Audio processing (`clap_plugin.c`, `process`)

The denoiser library (`specbleach_*`) and the crossfade (`signal_crossfade_*`) are used by the
plugin through handles; their code is not among the sources, so their functions are
parameters of the model. -/

/-- The struct `SpectralBleachParameters` as `process` fills it. -/
structure SpectralBleachParameters where
  learn_noise : Int
  residual_listen : Bool
  reduction_amount : Nat
  smoothing_factor : Nat
  transient_protection : Bool
  whitening_factor : Nat
  noise_scaling_type : Int
  noise_rescale : Nat
  post_filter_threshold : Nat

/-- The functions of the denoiser library that the plugin calls, on the state `L` of an
instance. A function that returns `bool` gives the flag and the instance after the call;
`specbleach_process` also gives the samples at `output[0]`, `output[1]`, ... after the
call. Whether `specbleach_initialize(sample_rate, frame_size_ms)` returns an instance or null
is not a function of its two arguments, so the channel the call is made for comes first
here. The function `specbleach_free` gives what is left where the handle points. -/
structure specbleach (L : Type) where
  specbleach_initialize : Nat → Nat → Nat → Option L
  specbleach_free : L → L
  specbleach_get_latency : L → Nat
  specbleach_load_parameters : L → SpectralBleachParameters → Bool × L
  specbleach_reset_noise_profile : L → Bool × L
  specbleach_load_noise_profile : L → (Nat → Nat) → Nat → Nat → Bool × L
  specbleach_process : L → Nat → (Nat → Nat) → (Nat → Nat) → Bool × L × (Nat → Nat)
  specbleach_noise_profile_available : L → Bool
  specbleach_get_noise_profile_size : L → Nat
  specbleach_get_noise_profile_blocks_averaged : L → Nat
  specbleach_get_noise_profile : L → Nat → Nat

/-- The functions of the crossfade that the plugin calls, on the state `S` of a
crossfade; `signal_crossfade_free` gives what is left where the handle points. -/
structure signal_crossfade (S : Type) where
  signal_crossfade_initialize : Nat → Option S
  signal_crossfade_free : S → S
  signal_crossfade_run : S → Nat → (Nat → Nat) → (Nat → Nat) → Bool → Bool × S × (Nat → Nat)

/-- The struct `clap_noiserf` with the members the audio thread uses besides the parameters
and the triple buffers: the handles `soft_bypass` and `lib_instance[2]`. A handle is the state
of what it points to; a null handle is `none`. -/
structure clap_noiserf_instance (S L : Type) where
  plug : clap_noiserf
  soft_bypass : Option S
  lib_instance : Nat → Option L

/-- The constant `CLAP_CORE_EVENT_SPACE_ID` of the CLAP headers. -/
def CLAP_CORE_EVENT_SPACE_ID : Nat := 0

/-- The constant `CLAP_EVENT_PARAM_VALUE` of the CLAP headers. -/
def CLAP_EVENT_PARAM_VALUE : Nat := 5

/-- The constant `CLAP_PROCESS_CONTINUE` of the CLAP headers. -/
def CLAP_PROCESS_CONTINUE : Nat := 1

/-- An input event: the members of `clap_event_header_t` that `process` reads and, for an
event that is a `clap_event_param_value_t`, its `param_id` and `value`. -/
structure clap_event where
  time : Nat
  space_id : Nat
  type : Nat
  param_id : Nat
  value : Nat

/-- The function `process_event`. -/
def process_event (cv : c_conversions) (plug : clap_noiserf) (hdr : clap_event) :
    clap_noiserf :=
  if hdr.space_id = CLAP_CORE_EVENT_SPACE_ID then
    if hdr.type = CLAP_EVENT_PARAM_VALUE then set_value cv plug hdr.param_id hdr.value
    else plug
  else plug

/-- The members of `clap_process_t` that `process` uses: the frame count, the input events
(`in_events->size` is the length, `in_events->get` the indexing) and the sample arrays
`audio_inputs[0].data32` and `audio_outputs[0].data32`, indexed by channel and frame. -/
structure clap_process where
  frames_count : Nat
  in_events : List clap_event
  audio_inputs : Nat → Nat → Nat
  audio_outputs : Nat → Nat → Nat

/-- A loop `for (channel = 0; channel < channel_count; ++channel)` whose body replaces
`lib_instance[channel]` by the instance a library call leaves; each turn touches its own
entry only, and the library leaves a null handle alone. -/
def for_each_channel {L : Type} (channel_count : Nat) (call : Nat → L → L)
    (lib_instance : Nat → Option L) : Nat → Option L :=
  fun channel =>
    if channel < channel_count then (lib_instance channel).map (call channel)
    else lib_instance channel

/-- The block of `process` that consumes a pending noise profile change: the value of
`noise_profile_changed` and the plugin after it. -/
def consume_pending_noise_profile {S L : Type} (lib : specbleach L)
    (self : clap_noiserf_instance S L) : Bool × clap_noiserf_instance S L :=
  let r := noise_profile_state_consume self.plug.pending_noise_profile_change
  let plug := { self.plug with pending_noise_profile_change := r.2.2 }
  if r.1 then
    let state : noise_profile_state := plug.pending_noise_profile_change.buffers r.2.1
    (true,
      { self with
        plug := plug
        lib_instance :=
          for_each_channel plug.channel_count
            (fun channel x =>
              if state.size = 0 then (lib.specbleach_reset_noise_profile x).2
              else
                (lib.specbleach_load_noise_profile x (state.channels channel) state.size
                  state.blocks_averaged).2)
            self.lib_instance })
  else (false, { self with plug := plug })

/-- The loop `while (ev_index < ev_count && next_ev_frame == i)` of `process`: the plugin,
`ev_index` and `next_ev_frame` after it. Each turn that does not leave the loop advances
`ev_index`, so `fuel = ev_count - ev_index` turns are all there can be. -/
def handle_events (cv : c_conversions) (in_events : List clap_event) (frame_count i : Nat) :
    Nat → clap_noiserf → Nat → Nat → clap_noiserf × Nat × Nat
  | 0, plug, ev_index, next_ev_frame => (plug, ev_index, next_ev_frame)
  | fuel + 1, plug, ev_index, next_ev_frame =>
    if h : ev_index < in_events.length ∧ next_ev_frame = i then
      let hdr := in_events.get ⟨ev_index, h.1⟩
      if hdr.time ≠ i then (plug, ev_index, hdr.time)
      else
        let plug := process_event cv plug hdr
        let ev_index := ev_index + 1
        if ev_index = in_events.length then (plug, ev_index, frame_count)
        else handle_events cv in_events frame_count i fuel plug ev_index next_ev_frame
    else (plug, ev_index, next_ev_frame)

/-- The samples of a channel after a callee has written through `&data32[channel][i]`:
`window k` is what it left at `data32[channel][i + k]`. -/
def write_window (data32 : Nat → Nat → Nat) (channel i : Nat) (window : Nat → Nat) :
    Nat → Nat → Nat :=
  fun ch j => if ch = channel ∧ i ≤ j then window (j - i) else data32 ch j

/-- The calls `specbleach_process` and `signal_crossfade_run` for one channel of one
sub-block; a null handle is left alone by the callee. -/
def process_channel {S L : Type} (lib : specbleach L) (xf : signal_crossfade S)
    (block_size i : Nat) (audio_inputs : Nat → Nat → Nat)
    (acc : clap_noiserf_instance S L × (Nat → Nat → Nat)) (channel : Nat) :
    clap_noiserf_instance S L × (Nat → Nat → Nat) :=
  let acc : clap_noiserf_instance S L × (Nat → Nat → Nat) :=
    match acc.1.lib_instance channel with
    | none => acc
    | some x =>
      let r := lib.specbleach_process x block_size (fun k => audio_inputs channel (i + k))
        (fun k => acc.2 channel (i + k))
      ({ acc.1 with lib_instance := Function.update acc.1.lib_instance channel (some r.2.1) },
        write_window acc.2 channel i r.2.2)
  match acc.1.soft_bypass with
  | none => acc
  | some s =>
    let r := xf.signal_crossfade_run s block_size (fun k => audio_inputs channel (i + k))
      (fun k => acc.2 channel (i + k)) acc.1.plug.enable
    ({ acc.1 with soft_bypass := some r.2.1 }, write_window acc.2 channel i r.2.2)

/-- The variables of `process` that its sub-block loop reads and writes. -/
structure process_locals (S L : Type) where
  self : clap_noiserf_instance S L
  audio_outputs : Nat → Nat → Nat
  i : Nat
  ev_index : Nat
  next_ev_frame : Nat
  noise_profile_changed : Bool

/-- The struct `parameters` that `process` builds for a sub-block. -/
def sub_block_parameters (plug : clap_noiserf) : SpectralBleachParameters :=
  { learn_noise := int_of_uint32 plug.learn_noise
    residual_listen := plug.residual_listen
    reduction_amount := plug.amount
    smoothing_factor := plug.smoothing
    transient_protection := plug.transient_protection
    whitening_factor := plug.whitening
    noise_scaling_type := int_of_uint32 plug.noise_scaling_type
    noise_rescale := plug.offset
    post_filter_threshold := plug.post_filter_threshold }

/-- The body of the loop `for (uint32_t i = 0; i < frame_count;)` of `process`. -/
def process_sub_block {S L : Type} (cv : c_conversions) (lib : specbleach L)
    (xf : signal_crossfade S) (process : clap_process) (st : process_locals S L) :
    process_locals S L :=
  let ev := handle_events cv process.in_events process.frames_count st.i
    (process.in_events.length - st.ev_index) st.self.plug st.ev_index st.next_ev_frame
  let plug := ev.1
  let ev_index := ev.2.1
  let next_ev_frame := ev.2.2
  let block_size := (next_ev_frame + 2 ^ 32 - st.i) % 2 ^ 32
  let parameters := sub_block_parameters plug
  let noise_profile_changed :=
    if plug.learn_noise ≠ 0 then true else st.noise_profile_changed
  let lib_instance :=
    for_each_channel plug.channel_count
      (fun _ x => (lib.specbleach_load_parameters x parameters).2) st.self.lib_instance
  let lib_instance :=
    if plug.reset_profile then
      for_each_channel plug.channel_count
        (fun _ x => (lib.specbleach_reset_noise_profile x).2) lib_instance
    else lib_instance
  let plug := if plug.reset_profile then { plug with reset_profile := false } else plug
  let audio :=
    (List.range plug.channel_count).foldl
      (process_channel lib xf block_size st.i process.audio_inputs)
      ({ st.self with plug := plug, lib_instance := lib_instance }, st.audio_outputs)
  { self := audio.1
    audio_outputs := audio.2
    i := next_ev_frame
    ev_index := ev_index
    next_ev_frame := next_ev_frame
    noise_profile_changed := noise_profile_changed }

/-- The loop `for (uint32_t i = 0; i < frame_count;)` of `process`, for at most `fuel` turns;
`none` when the loop has not ended by then. -/
def process_loop {S L : Type} (cv : c_conversions) (lib : specbleach L)
    (xf : signal_crossfade S) (process : clap_process) :
    Nat → process_locals S L → Option (process_locals S L)
  | 0, st => if st.i < process.frames_count then none else some st
  | fuel + 1, st =>
    if st.i < process.frames_count then
      process_loop cv lib xf process fuel (process_sub_block cv lib xf process st)
    else some st

/-- The block of `process` that stores the noise profile in `current_noise_profile`. A null
`lib_instance[0]` counts as having no profile available. -/
def store_noise_profile {S L : Type} (lib : specbleach L) (self : clap_noiserf_instance S L)
    (noise_profile_changed : Bool) : clap_noiserf_instance S L :=
  match self.lib_instance 0 with
  | none => self
  | some x0 =>
    if lib.specbleach_noise_profile_available x0 ∧ noise_profile_changed = true then
      let slot := writable_noise_profile_state self.plug.current_noise_profile
      let state : noise_profile_state := self.plug.current_noise_profile.buffers slot
      let state : noise_profile_state :=
        { state with size := lib.specbleach_get_noise_profile_size x0 }
      let state : noise_profile_state :=
        { state with blocks_averaged := lib.specbleach_get_noise_profile_blocks_averaged x0 }
      let state : noise_profile_state :=
        { state with
          channels := fun channel =>
            if channel < self.plug.channel_count then
              match self.lib_instance channel with
              | none => state.channels channel
              | some x =>
                memcpy_floats (state.channels channel) (lib.specbleach_get_noise_profile x)
                  state.size
            else state.channels channel }
      { self with
        plug :=
          { self.plug with
            current_noise_profile :=
              publish_noise_profile_state
                (write_noise_profile_state self.plug.current_noise_profile state) } }
    else self

/-- The function `process`: the returned status, the plugin and `audio_outputs[0].data32`
after the call; `none` if the sub-block loop did not end within `2 * ev_count + 1` turns. -/
def process {S L : Type} (cv : c_conversions) (lib : specbleach L) (xf : signal_crossfade S)
    (self : clap_noiserf_instance S L) (process : clap_process) :
    Option (Nat × clap_noiserf_instance S L × (Nat → Nat → Nat)) :=
  let frame_count := process.frames_count
  let ev_count := process.in_events.length
  let next_ev_frame := if ev_count > 0 then 0 else frame_count
  let consumed := consume_pending_noise_profile lib self
  let st : process_locals S L :=
    { self := consumed.2
      audio_outputs := process.audio_outputs
      i := 0
      ev_index := 0
      next_ev_frame := next_ev_frame
      noise_profile_changed := consumed.1 }
  match process_loop cv lib xf process (2 * ev_count + 1) st with
  | none => none
  | some st =>
    some (CLAP_PROCESS_CONTINUE, store_noise_profile lib st.self st.noise_profile_changed,
      st.audio_outputs)

/-- The library `lib` with, beside each instance, the number of calls of
`specbleach_reset_noise_profile` made on it. -/
def counting_resets {L : Type} (lib : specbleach L) : specbleach (L × Nat) :=
  { specbleach_initialize := fun channel sample_rate frame_size_ms =>
      ( specbleach.specbleach_initialize lib channel sample_rate frame_size_ms).map
        (fun x => (x, 0))
    specbleach_free := fun x => (lib.specbleach_free x.1, x.2)
    specbleach_get_latency := fun x => lib.specbleach_get_latency x.1
    specbleach_load_parameters := fun x parameters =>
      ((lib.specbleach_load_parameters x.1 parameters).1,
        (lib.specbleach_load_parameters x.1 parameters).2, x.2)
    specbleach_reset_noise_profile := fun x =>
      ((lib.specbleach_reset_noise_profile x.1).1,
        (lib.specbleach_reset_noise_profile x.1).2, x.2 + 1)
    specbleach_load_noise_profile := fun x noise_profile size blocks =>
      ((lib.specbleach_load_noise_profile x.1 noise_profile size blocks).1,
        (lib.specbleach_load_noise_profile x.1 noise_profile size blocks).2, x.2)
    specbleach_process := fun x n input output =>
      ((lib.specbleach_process x.1 n input output).1,
        ((lib.specbleach_process x.1 n input output).2.1, x.2),
        (lib.specbleach_process x.1 n input output).2.2)
    specbleach_noise_profile_available := fun x => lib.specbleach_noise_profile_available x.1
    specbleach_get_noise_profile_size := fun x => lib.specbleach_get_noise_profile_size x.1
    specbleach_get_noise_profile_blocks_averaged := fun x =>
      lib.specbleach_get_noise_profile_blocks_averaged x.1
    specbleach_get_noise_profile := fun x => lib.specbleach_get_noise_profile x.1 }

/-- The number of calls of `specbleach_reset_noise_profile` counted on each handle. -/
def reset_counts {S L : Type} (self : clap_noiserf_instance S (L × Nat)) : Nat → Option Nat :=
  fun channel => (self.lib_instance channel).map Prod.snd

/-- An event that `process_event` passes to `set_value` for the reset-profile parameter. -/
def clap_event.sets_reset_profile (hdr : clap_event) : Prop :=
  hdr.space_id = CLAP_CORE_EVENT_SPACE_ID ∧ hdr.type = CLAP_EVENT_PARAM_VALUE ∧
    hdr.param_id = pid_RESET_PROFILE

/-- The calls of `specbleach_reset_noise_profile` per channel that the first block of
`process` makes: one when a pending change of size 0 is consumed. -/
def pending_resets {S L : Type} (self : clap_noiserf_instance S L) : Nat :=
  let r := noise_profile_state_consume self.plug.pending_noise_profile_change
  if r.1 = true ∧ (r.2.2.buffers r.2.1).size = 0 then 1 else 0

/-- A denoiser library whose instances have no state, for examples. -/
def sample_library : specbleach Unit :=
  { specbleach_initialize := fun _ _ _ => some ()
    specbleach_free := fun x => x
    specbleach_get_latency := fun _ => 0
    specbleach_load_parameters := fun x _ => (true, x)
    specbleach_reset_noise_profile := fun x => (true, x)
    specbleach_load_noise_profile := fun x _ _ _ => (true, x)
    specbleach_process := fun x _ input _ => (true, x, input)
    specbleach_noise_profile_available := fun _ => false
    specbleach_get_noise_profile_size := fun _ => 0
    specbleach_get_noise_profile_blocks_averaged := fun _ => 0
    specbleach_get_noise_profile := fun _ _ => 0 }

/-- A crossfade without state that leaves the output alone, for examples. -/
def sample_crossfade : signal_crossfade Unit :=
  { signal_crossfade_initialize := fun _ => some ()
    signal_crossfade_free := fun s => s
    signal_crossfade_run := fun s _ _ output _ => (true, s, output) }

/-- An activated stereo plugin whose reset-profile trigger is set. -/
def sample_instance : clap_noiserf_instance Unit (Unit × Nat) :=
  { plug := set_value sample_conversions sample_plugin pid_RESET_PROFILE double_1
    soft_bypass := some ()
    lib_instance := fun channel => if channel < 2 then some ((), 0) else none }

/-- A bound on the turns the sub-block loop of `process` still takes when it is at frame `i`
with `ev_index` events handled: two for each event left, one less when the next event is due
at `i`. -/
def turns_left (in_events : List clap_event) (i ev_index : Nat) : Nat :=
  if h : ev_index < in_events.length then
    2 * (in_events.length - ev_index) +
      (if (in_events.get ⟨ev_index, h⟩).time = i then 0 else 1)
  else 1

/-- What holds of `ev_index` and `next_ev_frame` each time the sub-block loop of `process`
tests `i < frame_count`: while events are left `next_ev_frame` is `i`, afterwards it is the
frame count. -/
def at_loop_head {S L : Type} (process : clap_process) (st : process_locals S L) : Prop :=
  st.ev_index ≤ process.in_events.length ∧
  (st.ev_index < process.in_events.length → st.next_ev_frame = st.i) ∧
  (process.in_events.length ≤ st.ev_index → st.next_ev_frame = process.frames_count)

/-- The variables of `process` when its sub-block loop starts. -/
def process_start {S L : Type} (lib : specbleach L) (self : clap_noiserf_instance S L)
    (process : clap_process) : process_locals S L :=
  { self := (consume_pending_noise_profile lib self).2
    audio_outputs := process.audio_outputs
    i := 0
    ev_index := 0
    next_ev_frame := if process.in_events.length > 0 then 0 else process.frames_count
    noise_profile_changed := (consume_pending_noise_profile lib self).1 }

/-- A call of `process` with no frame and no event. -/
def empty_process : clap_process :=
  { frames_count := 0
    in_events := []
    audio_inputs := fun _ _ => 0
    audio_outputs := fun _ _ => 0 }

/-- A call of `process` with 64 frames and one event, which sets the amount at frame 10. -/
def sample_process : clap_process :=
  { frames_count := 64
    in_events :=
      [{ time := 10, space_id := CLAP_CORE_EVENT_SPACE_ID, type := CLAP_EVENT_PARAM_VALUE,
         param_id := pid_AMOUNT, value := double_2 }]
    audio_inputs := fun _ _ => 0
    audio_outputs := fun _ _ => 0 }

/-- The parameters in force during the sub-block that starts with the variables `st`: the
plugin after the events due at frame `st.i`. -/
def sub_block_plug {S L : Type} (cv : c_conversions) (process : clap_process)
    (st : process_locals S L) : clap_noiserf :=
  (handle_events cv process.in_events process.frames_count st.i
    (process.in_events.length - st.ev_index) st.self.plug st.ev_index st.next_ev_frame).1

/-- The variables at the start of each sub-block that `process_loop` runs from `st`, in
order. -/
def sub_blocks {S L : Type} (cv : c_conversions) (lib : specbleach L)
    (xf : signal_crossfade S) (process : clap_process) :
    Nat → process_locals S L → List (process_locals S L)
  | 0, _ => []
  | fuel + 1, st =>
    if st.i < process.frames_count then
      st :: sub_blocks cv lib xf process fuel (process_sub_block cv lib xf process st)
    else []

/-! ## Lifecycle (`clap_plugin.c`: `latency_get`, `activate`, `deactivate`) -/

/-- The comparison `sample_rate > 192000.0` on a `double`: the sign bit is clear, the pattern
is above the one of `192000.0` and not above the one of `+inf` (beyond it lie the NaNs). -/
def double_gt_192000 (value : Nat) : Bool :=
  decide (0x4107700000000000 < value ∧ value ≤ 0x7FF0000000000000)

/-- The `float` constant `46`. -/
def float_46 : Nat := 0x42380000

/-- The `double` constant `48000.0`. -/
def double_48000 : Nat := 0x40E7700000000000

/-- The function `latency_get`. -/
def latency_get {S L : Type} (lib : specbleach L) (self : clap_noiserf_instance S L) : Nat :=
  match self.lib_instance 0 with
  | none => 0
  | some x => lib.specbleach_get_latency x

/-- The loop of `activate` that creates the instances, `remaining` turns from `channel`: the
flag is false when the loop has left by `return false`. -/
def activate_instances {L : Type} (lib : specbleach L) (sample_rate frame_size_ms : Nat) :
    Nat → Nat → (Nat → Option L) → Bool × (Nat → Option L)
  | 0, _, lib_instance => (true, lib_instance)
  | remaining + 1, channel, lib_instance =>
    match specbleach.specbleach_initialize lib channel sample_rate frame_size_ms with
    | none => (false, Function.update lib_instance channel none)
    | some x =>
      activate_instances lib sample_rate frame_size_ms remaining (channel + 1)
        (Function.update lib_instance channel (some x))

/-- The function `activate`: the returned flag and the plugin after the call. The `assert`s
are not executed. -/
def activate {S L : Type} (cv : c_conversions) (lib : specbleach L) (xf : signal_crossfade S)
    (self : clap_noiserf_instance S L) (sample_rate _min_frames_count _max_frames_count : Nat) :
    Bool × clap_noiserf_instance S L :=
  if double_gt_192000 sample_rate then (false, self)
  else
    let self : clap_noiserf_instance S L :=
      { self with
        soft_bypass :=
          signal_crossfade.signal_crossfade_initialize xf (cv.to_uint32 sample_rate) }
    if self.soft_bypass.isNone then (false, self)
    else
      let frame_size_ms := float_46
      let instances := activate_instances lib (cv.to_uint32 sample_rate) frame_size_ms
        self.plug.channel_count 0 self.lib_instance
      let self : clap_noiserf_instance S L := { self with lib_instance := instances.2 }
      if !instances.1 then (false, self)
      else
        let current := current_noise_profile self.plug true
        let state := deref current.2 current.1
        let self : clap_noiserf_instance S L := { self with plug := current.2 }
        if state.size ≠ 0 then
          (true,
            { self with
              lib_instance :=
                for_each_channel self.plug.channel_count
                  (fun channel x =>
                    (lib.specbleach_load_noise_profile x (state.channels channel) state.size
                      state.blocks_averaged).2)
                  self.lib_instance })
        else (true, self)

/-- The function `deactivate`: each non-null handle is passed to the `free` function of its
library and stays as it is. -/
def deactivate {S L : Type} (lib : specbleach L) (xf : signal_crossfade S)
    (self : clap_noiserf_instance S L) : clap_noiserf_instance S L :=
  { self with
    lib_instance :=
      for_each_channel self.plug.channel_count (fun _ x => lib.specbleach_free x)
        self.lib_instance
    soft_bypass := self.soft_bypass.map xf.signal_crossfade_free }

/-- The plugin after `create` and `init`: `calloc` leaves both kinds of handle null. -/
def created {S L : Type} (cv : c_conversions) (channel_count : Nat) :
    clap_noiserf_instance S L :=
  { plug := init cv (create channel_count)
    soft_bypass := none
    lib_instance := fun _ => none }

/-- A denoiser library that fails to create the instance of channel 1, for examples. -/
def failing_library : specbleach Unit :=
  { sample_library with
    specbleach_initialize := fun channel _ _ => if channel = 0 then some () else none }

/-- A denoiser library whose instance state says only whether the instance is live (`true`)
or has been freed (`false`), for examples. -/
def lifetime_library : specbleach Bool :=
  { specbleach_initialize := fun _ _ _ => some true
    specbleach_free := fun _ => false
    specbleach_get_latency := fun _ => 1024
    specbleach_load_parameters := fun x _ => (true, x)
    specbleach_reset_noise_profile := fun x => (true, x)
    specbleach_load_noise_profile := fun x _ _ _ => (true, x)
    specbleach_process := fun x _ input _ => (true, x, input)
    specbleach_noise_profile_available := fun _ => false
    specbleach_get_noise_profile_size := fun _ => 0
    specbleach_get_noise_profile_blocks_averaged := fun _ => 0
    specbleach_get_noise_profile := fun _ _ => 0 }

/-! ### Auxiliary notions for a failed `state_load` -/

/-- Between `before` and `after` the channel count, `current_noise_profile`, the three
indices of `pending_noise_profile_change` and every slot of it other than `slot` are the
same. -/
def only_pending_slot_written (slot : Nat) (before after : clap_noiserf) : Prop :=
  after.channel_count = before.channel_count ∧
    after.current_noise_profile = before.current_noise_profile ∧
    after.pending_noise_profile_change.middle_buffer_state =
      before.pending_noise_profile_change.middle_buffer_state ∧
    after.pending_noise_profile_change.back_buffer_index =
      before.pending_noise_profile_change.back_buffer_index ∧
    after.pending_noise_profile_change.front_buffer_index =
      before.pending_noise_profile_change.front_buffer_index ∧
    ∀ i, i ≠ slot →
      after.pending_noise_profile_change.buffers i =
        before.pending_noise_profile_change.buffers i

/-- The number of 4-byte objects of a `noise_profile_state`: the floats of
`channels[2][NOISE_PROFILE_MAX_SIZE]`, then `blocks_averaged` and `size`. -/
def NOISE_PROFILE_STATE_WORDS : Nat := 2 * NOISE_PROFILE_MAX_SIZE + 2

/-- The offset of `buffers[slot].channels[channel][i]` from `buffers[0].channels[0][0]`
in a `noise_profile_state_swap_buffers`, counted in 4-byte objects. -/
def channel_float_offset (slot channel i : Nat) : Nat :=
  slot * NOISE_PROFILE_STATE_WORDS + channel * NOISE_PROFILE_MAX_SIZE + i

/-- A stream that holds the start of a payload for a mono plugin: version 1, no parameter,
`blocks_averaged` 0, `size` 18004, then 18003 floats `1.0f` and the end of the stream. -/
def truncated_oversize_stream : clap_istream :=
  ⟨le_encode 4 1 ++ (le_encode 4 0 ++ (le_encode 4 0 ++ (le_encode 4 18004 ++
    (floats_bytes (fun _ => 1065353216) 18003 ++ [])))), 0, none⟩

/-- The channels of a payload for examples: every float of channel 0 is `1.0f`, every float
of the other channels `2.0f`. -/
def sample_channels : Nat → Nat → Nat :=
  fun c _ => if c = 0 then 1065353216 else 1073741824

/-! ### Auxiliary notions for the profile `state_save` encodes after `process` -/

/-- A denoiser library whose instance state is a pair (learning, profile available), for
examples: `specbleach_load_parameters` sets the first from `learn_noise`, a block processed
while learning makes a profile available, `specbleach_load_noise_profile` makes one
available and `specbleach_reset_noise_profile` makes none available; the profile has 5 bins,
each `1.0f`. -/
def learning_library : specbleach (Bool × Bool) :=
  { specbleach_initialize := fun _ _ _ => some (false, false)
    specbleach_free := fun x => x
    specbleach_get_latency := fun _ => 0
    specbleach_load_parameters := fun x parameters =>
      (true, (decide (parameters.learn_noise ≠ 0), x.2))
    specbleach_reset_noise_profile := fun x => (true, (x.1, false))
    specbleach_load_noise_profile := fun x _ _ _ => (true, (x.1, true))
    specbleach_process := fun x _ input _ => (true, (x.1, x.1 || x.2), input)
    specbleach_noise_profile_available := fun x => x.2
    specbleach_get_noise_profile_size := fun _ => 5
    specbleach_get_noise_profile_blocks_averaged := fun _ => 1
    specbleach_get_noise_profile := fun _ _ => 1065353216 }

/-- A stereo plugin after `init` and `activate` at 48000 Hz with `learning_library`, its
`learn_noise` parameter at 1. -/
def learning_instance : clap_noiserf_instance Unit (Bool × Bool) :=
  let self := (activate sample_conversions learning_library sample_crossfade
    (created sample_conversions 2) double_48000 1 64).2
  { self with plug := { self.plug with learn_noise := 1 } }

/-- The local `block_size` of the sub-block that starts with the variables `st`:
`next_ev_frame - i` on `uint32_t`, with `next_ev_frame` as the event loop leaves it. -/
def sub_block_size {S L : Type} (cv : c_conversions) (process : clap_process)
    (st : process_locals S L) : Nat :=
  ((handle_events cv process.in_events process.frames_count st.i
    (process.in_events.length - st.ev_index) st.self.plug st.ev_index
    st.next_ev_frame).2.2 + 2 ^ 32 - st.i) % 2 ^ 32

/-- The events that the event loop passes to `process_event` at the start of the sub-block
that starts with the variables `st`: those with index from `ev_index` up to the `ev_index`
the loop leaves. -/
def sub_block_events {S L : Type} (cv : c_conversions) (process : clap_process)
    (st : process_locals S L) : List clap_event :=
  (process.in_events.drop st.ev_index).take
    ((handle_events cv process.in_events process.frames_count st.i
      (process.in_events.length - st.ev_index) st.self.plug st.ev_index
      st.next_ev_frame).2.1 - st.ev_index)

/-- The frames of the sub-block that starts with the variables `st`:
`i, ..., i + block_size - 1`. -/
def sub_block_frames {S L : Type} (cv : c_conversions) (process : clap_process)
    (st : process_locals S L) : List Nat :=
  List.range' st.i (sub_block_size cv process st)

/-- A call of `process` with 64 frames and three events: one at frame 0 and two at frame
10. -/
def three_event_process : clap_process :=
  { frames_count := 64
    in_events :=
      [{ time := 0, space_id := CLAP_CORE_EVENT_SPACE_ID, type := CLAP_EVENT_PARAM_VALUE,
         param_id := pid_ENABLE, value := double_1 },
       { time := 10, space_id := CLAP_CORE_EVENT_SPACE_ID, type := CLAP_EVENT_PARAM_VALUE,
         param_id := pid_AMOUNT, value := double_2 },
       { time := 10, space_id := CLAP_CORE_EVENT_SPACE_ID, type := CLAP_EVENT_PARAM_VALUE,
         param_id := pid_OFFSET, value := double_1 }]
    audio_inputs := fun _ _ => 0
    audio_outputs := fun _ _ => 0 }

/-- What holds each time the sub-block loop of `process` tests `i < frame_count` when the
events are sorted by time: `at_loop_head`, `i` is at most the frame count, and the next
event, if one is left, is not due before `i`. -/
def sorted_loop_head {S L : Type} (process : clap_process) (st : process_locals S L) : Prop :=
  at_loop_head process st ∧ st.i ≤ process.frames_count ∧
    ∀ h : st.ev_index < process.in_events.length,
      st.i ≤ (process.in_events.get ⟨st.ev_index, h⟩).time

/-! ### Auxiliary notions for the casts of `set_noise_profile` -/

/-- The spacing of the binary32 values around `n >= 2^24`: the power of two `u` with
`2^23 * u <= n < 2^24 * u`, found by halving `n` at most `fuel` times; 1 below `2^24`. -/
def float_ulp : Nat → Nat → Nat
  | 0, _ => 1
  | fuel + 1, n => if n < 2 ^ 24 then 1 else 2 * float_ulp fuel (n / 2)

/-- The value of `(float)n` for a `uint32_t` `n` under IEEE 754 binary32 with the default
rounding: `n` itself below `2^24`, otherwise `n` rounded to a 24-bit significand, to
nearest, ties to the even significand. No `uint32_t` is beyond the range of `float`. -/
def float_of_uint32 (n : Nat) : Nat :=
  let ulp := float_ulp 8 n
  let q := n / ulp
  let r := n % ulp
  if 2 * r < ulp then q * ulp
  else if ulp < 2 * r then (q + 1) * ulp
  else if q % 2 = 0 then q * ulp
  else (q + 1) * ulp

/-- The arithmetic `rat_arith` with the cast `(float)n` rounded as binary32 rounds it; the
four operators stay exact. -/
def cast_rounding_arith : float_arith ℚ :=
  { rat_arith with of_uint32 := fun n => (float_of_uint32 n : ℚ) }

/-! ## Theorems -/

theorem idx_and_dirty (m : Nat) (h : m < 3) : m &&& TRIPLE_BUFFER_DIRTY_BIT = 0 := by
  interval_cases m <;> decide

theorem idx_and_mask (m : Nat) (h : m < 3) : m &&& TRIPLE_BUFFER_MASK = m := by
  interval_cases m <;> decide

theorem idx_or_dirty_and_dirty (m : Nat) (h : m < 3) :
    (m ||| TRIPLE_BUFFER_DIRTY_BIT) &&& TRIPLE_BUFFER_DIRTY_BIT ≠ 0 := by
  interval_cases m <;> decide

theorem idx_or_dirty_and_mask (m : Nat) (h : m < 3) :
    (m ||| TRIPLE_BUFFER_DIRTY_BIT) &&& TRIPLE_BUFFER_MASK = m := by
  interval_cases m <;> decide

theorem indices_distinct_init {T : Type} (b0 : noise_profile_state_swap_buffers T) :
    indices_distinct (init_noise_profile_buffers b0) := by
  simp only [indices_distinct, init_noise_profile_buffers, middle_index]
  decide

theorem indices_distinct_write {T : Type} (b : noise_profile_state_swap_buffers T) (v : T)
    (h : indices_distinct b) : indices_distinct (write_noise_profile_state b v) := h

theorem indices_distinct_publish {T : Type} (b : noise_profile_state_swap_buffers T)
    (h : indices_distinct b) : indices_distinct (publish_noise_profile_state b) := by
  obtain ⟨hb, hf, hm, hbf, hbm, hfm, _⟩ := h
  simp only [indices_distinct, publish_noise_profile_state, middle_index] at *
  rw [idx_or_dirty_and_mask _ hb]
  exact ⟨hm, hf, hb, fun e => hfm e.symm, fun e => hbm e.symm, hbf.symm, Or.inr rfl⟩

theorem indices_distinct_exchange {T : Type} (b : noise_profile_state_swap_buffers T)
    (h : indices_distinct b) : indices_distinct (consume_exchange b) := by
  obtain ⟨hb, hf, hm, hbf, hbm, hfm, _⟩ := h
  simp only [indices_distinct, consume_exchange, middle_index] at *
  rw [idx_and_mask _ hf]
  exact ⟨hb, hm, hf, hbm, hbf, fun e => hfm e.symm, Or.inl rfl⟩

theorem indices_distinct_consume {T : Type} (b : noise_profile_state_swap_buffers T)
    (h : indices_distinct b) : indices_distinct (noise_profile_state_consume b).2.2 := by
  unfold noise_profile_state_consume
  split
  · exact h
  · exact indices_distinct_exchange b h

theorem indices_distinct_apply_calls {T : Type} (calls : List (buffer_call T)) :
    ∀ b : noise_profile_state_swap_buffers T, indices_distinct b →
      indices_distinct (apply_calls b calls) := by
  induction calls with
  | nil => intro b h; exact h
  | cons c cs ih =>
    intro b h
    simp only [apply_calls, List.foldl_cons]
    apply ih
    cases c with
    | write v => exact indices_distinct_write b v h
    | publish => exact indices_distinct_publish b h
    | consume => exact indices_distinct_consume b h

theorem indices_distinct_of_reachable {T : Type} (b : noise_profile_state_swap_buffers T)
    (h : reachable b) : indices_distinct b := by
  obtain ⟨b0, calls, rfl⟩ := h
  exact indices_distinct_apply_calls calls _ (indices_distinct_init b0)

theorem perm_of_distinct (a b c : Nat) (ha : a < 3) (hb : b < 3) (hc : c < 3)
    (hab : a ≠ b) (hac : a ≠ c) (hbc : b ≠ c) : List.Perm [a, b, c] [0, 1, 2] := by
  interval_cases a <;> interval_cases b <;> interval_cases c <;>
    first
    | exact absurd rfl hab
    | exact absurd rfl hac
    | exact absurd rfl hbc
    | decide

/-- C3: in every state reachable from `init_noise_profile_buffers` by calls of the
producer (stores into the writable slot, `publish_noise_profile_state`) and of the
consumer (`noise_profile_state_consume`), `back_buffer_index`, `front_buffer_index` and
`middle_buffer_state` with the dirty bit masked off are a permutation of 0, 1, 2; so all
three are below 3 and the writable slot is not the front slot. -/
theorem C3_indices_permutation {T : Type} (b0 : noise_profile_state_swap_buffers T)
    (calls : List (buffer_call T)) :
    let b := apply_calls (init_noise_profile_buffers b0) calls
    List.Perm [b.back_buffer_index, b.front_buffer_index,
        b.middle_buffer_state &&& TRIPLE_BUFFER_MASK] [0, 1, 2] ∧
      b.back_buffer_index < 3 ∧ b.front_buffer_index < 3 ∧
      b.middle_buffer_state &&& TRIPLE_BUFFER_MASK < 3 ∧
      writable_noise_profile_state b ≠ b.front_buffer_index := by
  intro b
  obtain ⟨hb, hf, hm, hbf, hbm, hfm, _⟩ :=
    indices_distinct_apply_calls calls _ (indices_distinct_init b0)
  exact ⟨perm_of_distinct _ _ _ hb hf hm hbf hbm hfm, hb, hf, hm, hbf⟩

/-! ### Back-to-back publishes -/

theorem indices_distinct_write_and_publish_all {T : Type} (vs : List T) :
    ∀ b : noise_profile_state_swap_buffers T, indices_distinct b →
      indices_distinct (write_and_publish_all b vs) := by
  induction vs with
  | nil => intro b h; exact h
  | cons v vs ih =>
    intro b h
    simp only [write_and_publish_all, List.foldl_cons]
    exact ih _ (indices_distinct_publish _ (indices_distinct_write b v h))

theorem write_and_publish_all_append {T : Type} (b : noise_profile_state_swap_buffers T)
    (vs : List T) (v : T) :
    write_and_publish_all b (vs ++ [v]) =
      publish_noise_profile_state
        (write_noise_profile_state (write_and_publish_all b vs) v) := by
  simp [write_and_publish_all, List.foldl_append]

theorem consume_after_write_publish {T : Type} (c : noise_profile_state_swap_buffers T)
    (v : T) (h : indices_distinct c) :
    let r := noise_profile_state_consume
      (publish_noise_profile_state (write_noise_profile_state c v))
    r.1 = true ∧ r.2.2.buffers r.2.1 = v ∧
      (noise_profile_state_consume r.2.2).1 = false ∧
      (noise_profile_state_consume r.2.2).2.1 = r.2.1 ∧
      (noise_profile_state_consume r.2.2).2.2 = r.2.2 := by
  obtain ⟨hb, hf, hm, hbf, hbm, hfm, _⟩ := h
  have h1 := idx_or_dirty_and_dirty _ hb
  have h2 := idx_or_dirty_and_mask _ hb
  have h3 := idx_and_dirty _ hf
  simp [noise_profile_state_consume, consume_sees_dirty, consume_exchange,
    publish_noise_profile_state, write_noise_profile_state, writable_noise_profile_state,
    h1, h2, h3]

/-- C2: from any reachable state, after the producer has written `v1 .. vn` (`n ≥ 1`) into
its writable slot with a `publish_noise_profile_state` after each write and no consume in
between, `noise_profile_state_consume` returns true and its `out_state` slot holds `vn`;
only that one update was pending: the consume after it returns false, delivers the same
slot and changes nothing. -/
theorem C2_last_publish_wins {T : Type} (b : noise_profile_state_swap_buffers T)
    (hb : reachable b) (vs : List T) (hne : vs ≠ []) :
    let r := noise_profile_state_consume (write_and_publish_all b vs)
    r.1 = true ∧ r.2.2.buffers r.2.1 = vs.getLast hne ∧
      (noise_profile_state_consume r.2.2).1 = false ∧
      (noise_profile_state_consume r.2.2).2.1 = r.2.1 ∧
      (noise_profile_state_consume r.2.2).2.2 = r.2.2 := by
  have key : ∀ (ws : List T) (v : T),
      let r := noise_profile_state_consume (write_and_publish_all b (ws ++ [v]))
      r.1 = true ∧ r.2.2.buffers r.2.1 = v ∧
        (noise_profile_state_consume r.2.2).1 = false ∧
        (noise_profile_state_consume r.2.2).2.1 = r.2.1 ∧
        (noise_profile_state_consume r.2.2).2.2 = r.2.2 := by
    intro ws v
    rw [write_and_publish_all_append]
    exact consume_after_write_publish _ v
      (indices_distinct_write_and_publish_all ws b (indices_distinct_of_reachable b hb))
  have k := key vs.dropLast (vs.getLast hne)
  rw [List.dropLast_append_getLast hne] at k
  exact k

/-- C2 at three back-to-back publishes on a freshly initialised buffer: the consume
delivers the third value. -/
theorem C2_last_publish_wins_witness :
    (noise_profile_state_consume
        (write_and_publish_all (init_noise_profile_buffers (zeroed_buffers 0))
          [5, 7, 9])).1 = true ∧
      (noise_profile_state_consume
        (write_and_publish_all (init_noise_profile_buffers (zeroed_buffers 0))
          [5, 7, 9])).2.2.buffers
        (noise_profile_state_consume
          (write_and_publish_all (init_noise_profile_buffers (zeroed_buffers 0))
            [5, 7, 9])).2.1 = 9 := by
  have h := C2_last_publish_wins (init_noise_profile_buffers (zeroed_buffers (0 : Nat)))
    ⟨zeroed_buffers 0, [], rfl⟩ [5, 7, 9] (by simp)
  exact ⟨h.1, h.2.1⟩

/-! ### Concurrent run -/

theorem sees_dirty_publish {T : Type} (b : noise_profile_state_swap_buffers T)
    (h : indices_distinct b) : consume_sees_dirty (publish_noise_profile_state b) = true := by
  have h1 := idx_or_dirty_and_dirty _ h.1
  simp [consume_sees_dirty, publish_noise_profile_state, h1]

theorem sees_dirty_exchange {T : Type} (b : noise_profile_state_swap_buffers T)
    (h : indices_distinct b) : consume_sees_dirty (consume_exchange b) = false := by
  have h1 := idx_and_dirty _ h.2.1
  simp [consume_sees_dirty, consume_exchange, h1]

theorem middle_index_publish {T : Type} (b : noise_profile_state_swap_buffers T)
    (h : indices_distinct b) :
    middle_index (publish_noise_profile_state b) = b.back_buffer_index := by
  simp [middle_index, publish_noise_profile_state, idx_or_dirty_and_mask _ h.1]

theorem interleaved_inv_start {T : Type} (val : Nat → T) :
    interleaved_inv val (interleaved_start val) where
  distinct := indices_distinct_init _
  content := fun _ => rfl
  saw := by intro h; cases h
  dirty := by intro h; exact absurd h (by simp [consume_sees_dirty, interleaved_start, init_noise_profile_buffers, idx_and_dirty 1])
  clean := fun _ => rfl
  front_le := Nat.le_refl _
  wrote := by intro h; cases h
  each := by intro o ho; cases ho
  chain := List.chain'_nil
  head := by intro o ho; cases ho
  older_le := by intro o ho; cases ho
  sorted := List.Pairwise.nil

theorem interleaved_inv_write {T : Type} (val : Nat → T) (s : interleaved T)
    (h : interleaved_inv val s) :
    interleaved_inv val
      { s with
        shared := write_noise_profile_state s.shared (val (s.published + 1))
        stamp := Function.update s.stamp (writable_noise_profile_state s.shared)
          (s.published + 1)
        producer_wrote := true } := by
  obtain ⟨hb, hf, hm, hbf, hbm, hfm, hmid⟩ := h.distinct
  have hfb : s.shared.front_buffer_index ≠ s.shared.back_buffer_index := fun e => hbf e.symm
  have hmb : middle_index s.shared ≠ s.shared.back_buffer_index := fun e => hbm e.symm
  have sf : Function.update s.stamp s.shared.back_buffer_index (s.published + 1)
      s.shared.front_buffer_index = s.stamp s.shared.front_buffer_index :=
    Function.update_noteq hfb _ _
  have sm : Function.update s.stamp s.shared.back_buffer_index (s.published + 1)
      (middle_index s.shared) = s.stamp (middle_index s.shared) :=
    Function.update_noteq hmb _ _
  refine
    { distinct := h.distinct
      content := ?_
      saw := h.saw
      dirty := ?_
      clean := ?_
      front_le := ?_
      wrote := ?_
      each := h.each
      chain := h.chain
      head := ?_
      older_le := ?_
      sorted := h.sorted }
  · intro i
    simp only [write_noise_profile_state, writable_noise_profile_state]
    by_cases e : i = s.shared.back_buffer_index
    · subst e; simp
    · rw [Function.update_noteq e, Function.update_noteq e]; exact h.content i
  · intro hd
    have := h.dirty hd
    simp only [writable_noise_profile_state]
    change Function.update s.stamp s.shared.back_buffer_index (s.published + 1)
      (middle_index s.shared) = s.published ∧ 1 ≤ s.published
    rw [sm]; exact this
  · intro hc
    have := h.clean hc
    change Function.update s.stamp s.shared.back_buffer_index (s.published + 1)
      s.shared.front_buffer_index = s.published
    rw [sf]; exact this
  · change Function.update s.stamp s.shared.back_buffer_index (s.published + 1)
      s.shared.front_buffer_index ≤ s.published
    rw [sf]; exact h.front_le
  · intro _
    change Function.update s.stamp s.shared.back_buffer_index (s.published + 1)
      s.shared.back_buffer_index = s.published + 1
    simp
  · intro o ho
    have := h.head o ho
    change o.slot = s.shared.front_buffer_index ∧
      o.stamp = Function.update s.stamp s.shared.back_buffer_index (s.published + 1)
        s.shared.front_buffer_index
    rw [sf]; exact this
  · intro o ho
    change o.stamp ≤ Function.update s.stamp s.shared.back_buffer_index (s.published + 1)
      s.shared.front_buffer_index
    rw [sf]; exact h.older_le o ho

theorem interleaved_inv_publish {T : Type} (val : Nat → T) (s : interleaved T)
    (h : interleaved_inv val s) (hw : s.producer_wrote = true) :
    interleaved_inv val
      { s with
        shared := publish_noise_profile_state s.shared
        published := s.published + 1
        producer_wrote := false } := by
  refine
    { distinct := indices_distinct_publish _ h.distinct
      content := h.content
      saw := fun _ => sees_dirty_publish _ h.distinct
      dirty := ?_
      clean := ?_
      front_le := Nat.le_succ_of_le h.front_le
      wrote := by intro e; cases e
      each := h.each
      chain := h.chain
      head := h.head
      older_le := h.older_le
      sorted := h.sorted }
  · intro _
    change s.stamp (middle_index (publish_noise_profile_state s.shared)) = s.published + 1 ∧
      1 ≤ s.published + 1
    rw [middle_index_publish _ h.distinct]
    exact ⟨h.wrote hw, Nat.le_add_left 1 _⟩
  · intro hc
    rw [sees_dirty_publish _ h.distinct] at hc
    cases hc

theorem interleaved_inv_observe_clean {T : Type} (val : Nat → T) (s : interleaved T)
    (h : interleaved_inv val s) :
    interleaved_inv val
      { s with
        observed :=
          { returned := false
            held := s.shared.front_buffer_index
            slot := s.shared.front_buffer_index
            value := s.shared.buffers s.shared.front_buffer_index
            stamp := s.stamp s.shared.front_buffer_index
            published := s.published } :: s.observed } := by
  refine
    { distinct := h.distinct
      content := h.content
      saw := h.saw
      dirty := h.dirty
      clean := h.clean
      front_le := h.front_le
      wrote := h.wrote
      each := ?_
      chain := ?_
      head := ?_
      older_le := ?_
      sorted := ?_ }
  · intro o ho
    rcases List.mem_cons.mp ho with e | ho
    · subst e
      exact ⟨h.content _, Or.inl ⟨rfl, rfl⟩⟩
    · exact h.each o ho
  · apply List.Chain'.cons' h.chain
    intro o1 ho1
    have hh := h.head o1 (by simpa using ho1)
    have hv := (h.each o1 (List.mem_of_mem_head? ho1)).1
    refine ⟨hh.1.symm, Nat.le_of_eq hh.2, fun _ => ⟨?_, hh.2.symm⟩⟩
    change s.shared.buffers s.shared.front_buffer_index = o1.value
    rw [hv, hh.2]; exact h.content _
  · intro o ho
    simp only [List.head?_cons, Option.some.injEq] at ho
    subst ho
    exact ⟨rfl, rfl⟩
  · intro o ho
    rcases List.mem_cons.mp ho with e | ho
    · subst e; exact Nat.le_refl _
    · exact h.older_le o ho
  · exact List.Pairwise.cons (fun o ho => h.older_le o ho) h.sorted

theorem interleaved_inv_exchange {T : Type} (val : Nat → T) (s : interleaved T)
    (h : interleaved_inv val s) (hs : s.consumer_saw_dirty = true) :
    interleaved_inv val
      { s with
        shared := consume_exchange s.shared
        consumer_saw_dirty := false
        observed :=
          { returned := true
            held := s.shared.front_buffer_index
            slot := (consume_exchange s.shared).front_buffer_index
            value := (consume_exchange s.shared).buffers
              (consume_exchange s.shared).front_buffer_index
            stamp := s.stamp (consume_exchange s.shared).front_buffer_index
            published := s.published } :: s.observed } := by
  have hd := h.dirty (h.saw hs)
  have hfront : (consume_exchange s.shared).front_buffer_index = middle_index s.shared := rfl
  have hbuf : (consume_exchange s.shared).buffers = s.shared.buffers := rfl
  have hback : (consume_exchange s.shared).back_buffer_index = s.shared.back_buffer_index :=
    rfl
  refine
    { distinct := indices_distinct_exchange _ h.distinct
      content := h.content
      saw := by intro e; cases e
      dirty := ?_
      clean := ?_
      front_le := ?_
      wrote := h.wrote
      each := ?_
      chain := ?_
      head := ?_
      older_le := ?_
      sorted := ?_ }
  · intro hc
    change consume_sees_dirty (consume_exchange s.shared) = true at hc
    rw [sees_dirty_exchange _ h.distinct] at hc
    cases hc
  · intro _
    change s.stamp (consume_exchange s.shared).front_buffer_index = s.published
    rw [hfront]; exact hd.1
  · change s.stamp (consume_exchange s.shared).front_buffer_index ≤ s.published
    rw [hfront]; exact Nat.le_of_eq hd.1
  · intro o ho
    rcases List.mem_cons.mp ho with e | ho
    · subst e
      refine ⟨?_, Or.inr ⟨rfl, ?_, hd.2⟩⟩
      · change (consume_exchange s.shared).buffers
          (consume_exchange s.shared).front_buffer_index =
            val (s.stamp (consume_exchange s.shared).front_buffer_index)
        rw [hbuf]; exact h.content _
      · change s.stamp (consume_exchange s.shared).front_buffer_index = s.published
        rw [hfront]; exact hd.1
    · exact h.each o ho
  · apply List.Chain'.cons' h.chain
    intro o1 ho1
    have hh := h.head o1 (by simpa using ho1)
    refine ⟨hh.1.symm, ?_, fun e => by cases e⟩
    change o1.stamp ≤ s.stamp (consume_exchange s.shared).front_buffer_index
    rw [hfront, hd.1, hh.2]; exact h.front_le
  · intro o ho
    simp only [List.head?_cons, Option.some.injEq] at ho
    subst ho
    exact ⟨rfl, rfl⟩
  · intro o ho
    change o.stamp ≤ s.stamp (consume_exchange s.shared).front_buffer_index
    rw [hfront, hd.1]
    rcases List.mem_cons.mp ho with e | ho
    · subst e
      change s.stamp (consume_exchange s.shared).front_buffer_index ≤ s.published
      rw [hfront]; exact Nat.le_of_eq hd.1
    · exact Nat.le_trans (h.older_le o ho) h.front_le
  · refine List.Pairwise.cons (fun o ho => ?_) h.sorted
    change o.stamp ≤ s.stamp (consume_exchange s.shared).front_buffer_index
    rw [hfront, hd.1]
    exact Nat.le_trans (h.older_le o ho) h.front_le

theorem interleaved_inv_step {T : Type} (val : Nat → T) (s : interleaved T) (t : thread)
    (h : interleaved_inv val s) : interleaved_inv val (interleaved_step val s t) := by
  cases t with
  | producer =>
    simp only [interleaved_step]
    split_ifs with hw
    · exact interleaved_inv_write val s h
    · exact interleaved_inv_publish val s h (by simpa using hw)
  | consumer =>
    simp only [interleaved_step]
    split_ifs with hs hd
    · exact interleaved_inv_observe_clean val s h
    · exact { h with saw := fun _ => by simpa using hd }
    · exact interleaved_inv_exchange val s h (by simpa using hs)

theorem interleaved_inv_run {T : Type} (val : Nat → T) (sched : List thread) :
    ∀ s : interleaved T, interleaved_inv val s →
      interleaved_inv val (sched.foldl (interleaved_step val) s) := by
  induction sched with
  | nil => intro s h; exact h
  | cons t ts ih => intro s h; exact ih _ (interleaved_inv_step val s t h)

/-- C1: starting from `init_noise_profile_buffers` on zeroed slots, under every finite
interleaving of the producer (store the next fresh value `val n` in the writable slot, then
`publish_noise_profile_state`) and the consumer (`noise_profile_state_consume`, its load of
the dirty bit and its exchange being separate steps), every completed consume either
returns false and delivers the slot it already held, or returns true and delivers the slot
holding the most recently published value; a consume that returns false delivers the same
content as the consume before it, the delivered values are never older than one delivered
earlier, and the producer's writable slot is never the consumer's front slot. -/
theorem C1_consumer_sees_previous_or_latest {T : Type} (val : Nat → T)
    (sched : List thread) :
    let s := run_interleaved val sched
    (∀ o ∈ s.observed, o.value = val o.stamp ∧
      ((o.returned = false ∧ o.slot = o.held) ∨
        (o.returned = true ∧ o.stamp = o.published ∧ 1 ≤ o.published))) ∧
    List.Chain' follows s.observed ∧
    List.Pairwise (fun newer older => older.stamp ≤ newer.stamp) s.observed ∧
    writable_noise_profile_state s.shared ≠ s.shared.front_buffer_index := by
  intro s
  have h : interleaved_inv val s := interleaved_inv_run val sched _ (interleaved_inv_start val)
  exact ⟨h.each, h.chain, h.sorted, h.distinct.2.2.2.1⟩

/-! ### Resizing a profile -/

theorem foldl_update_apply {α : Type} (f : Nat → α) (l : List Nat) :
    ∀ (out : Nat → α) (j : Nat),
      (l.foldl (fun acc k => Function.update acc k (f k)) out) j =
        if j ∈ l then f j else out j := by
  induction l with
  | nil => intro out j; simp
  | cons k ks ih =>
    intro out j
    rw [List.foldl_cons, ih]
    by_cases hj : j ∈ ks
    · simp [hj]
    · by_cases e : j = k
      · subst e; simp [hj]
      · simp [hj, e, Function.update_noteq e]

theorem resize_loop_apply {α : Type} (ar : float_arith α) (inp : Nat → α)
    (N M : Nat) (out : Nat → α) (j : Nat) :
    resize_loop ar inp N M out j =
      if 1 ≤ j ∧ j < M then interpolated_bin ar inp N M j else out j := by
  unfold resize_loop
  rw [foldl_update_apply (fun k => interpolated_bin ar inp N M k)]
  have : j ∈ List.range' 1 (M - 1) ↔ 1 ≤ j ∧ j < M := by
    rw [List.mem_range'_1]; omega
  simp only [this]

theorem profile_after_set_resized {α : Type} (ar : float_arith α) (self : NoiseProfile α)
    (inp : Nat → α) (N blocks : Nat) (hne : N ≠ self.noise_profile_size) (j : Nat) :
    (profile_after_set ar self inp N blocks).noise_profile j =
      if 1 ≤ j ∧ j < self.noise_profile_size then
        interpolated_bin ar inp N self.noise_profile_size j
      else Function.update self.noise_profile 0 (inp 0) j := by
  simp only [profile_after_set, set_noise_profile, hne, if_false, Option.getD_some]
  exact resize_loop_apply ar inp N self.noise_profile_size _ j

/-- C9: for a store of size `M ≥ 1` and an incoming profile of size `N ≥ 1`, `N ≠ M`,
`set_noise_profile` returns true and leaves in bin 0 of the store exactly the incoming
bin 0, whatever the float arithmetic does in the interpolation of the other bins. -/
theorem C9_dc_bin_preserved {α : Type} (ar : float_arith α) (self : NoiseProfile α)
    (noise_profile : Nat → α) (noise_profile_size blocks : Nat)
    (_hM : 1 ≤ self.noise_profile_size) (_hN : 1 ≤ noise_profile_size)
    (hne : noise_profile_size ≠ self.noise_profile_size) :
    (set_noise_profile ar (some self) (some noise_profile) noise_profile_size blocks).1 = true ∧
      ∃ p, (set_noise_profile ar (some self) (some noise_profile) noise_profile_size
          blocks).2 = some p ∧ p.noise_profile 0 = noise_profile 0 := by
  refine ⟨rfl, profile_after_set ar self noise_profile noise_profile_size blocks, rfl, ?_⟩
  rw [profile_after_set_resized ar self noise_profile noise_profile_size blocks hne]
  simp

/-- C9 at a store of 5 bins receiving the 3-bin profile 1, 2, 3 in exact arithmetic. -/
theorem C9_dc_bin_preserved_witness :
    (set_noise_profile rat_arith (some ⟨5, 0, fun _ => 0, false⟩)
        (some (fun i => (i : ℚ) + 1)) 3 9).1 = true ∧
      ∃ p, (set_noise_profile rat_arith (some ⟨5, 0, fun _ => 0, false⟩)
          (some (fun i => (i : ℚ) + 1)) 3 9).2 = some p ∧
        p.noise_profile 0 = (fun i : Nat => (i : ℚ) + 1) 0 :=
  C9_dc_bin_preserved rat_arith ⟨5, 0, fun _ => 0, false⟩ (fun i => (i : ℚ) + 1) 3 9
    (by decide) (by decide) (by decide)

/-! ### Monotone resampling over the rationals -/

theorem u32_pred_eq (a : Nat) (h1 : 1 ≤ a) (h2 : a < 2 ^ 32) : u32_pred a = a - 1 := by
  unfold u32_pred; omega

theorem interpolated_bin_rat (inp : Nat → ℚ) (N M k : Nat) (hN : 1 ≤ N) (hN2 : N < 2 ^ 32)
    (hM : 2 ≤ M) (hM2 : M < 2 ^ 32) (hk : k < M) :
    ∃ (a : Nat) (t : ℚ), a ≤ N - 1 ∧ 0 ≤ t ∧ t < 1 ∧
      (a : ℚ) + t = (k : ℚ) * ((N - 1 : Nat) : ℚ) / ((M - 1 : Nat) : ℚ) ∧
      interpolated_bin rat_arith inp N M k =
        (1 - t) * inp a + t * inp (if a + 1 ≥ N then N - 1 else a + 1) := by
  have hM1 : (0 : ℚ) < ((M - 1 : Nat) : ℚ) := by
    have : 0 < M - 1 := by omega
    exact_mod_cast this
  set x : ℚ := (k : ℚ) * ((N - 1 : Nat) : ℚ) / ((M - 1 : Nat) : ℚ) with hx
  have hx0 : 0 ≤ x := by positivity
  have hxN : x ≤ ((N - 1 : Nat) : ℚ) := by
    rw [hx, div_le_iff₀ hM1]
    have hk' : (k : ℚ) ≤ ((M - 1 : Nat) : ℚ) := by
      have : k ≤ M - 1 := by omega
      exact_mod_cast this
    have : (0 : ℚ) ≤ ((N - 1 : Nat) : ℚ) := by positivity
    nlinarith
  have ha : ⌊x⌋₊ ≤ N - 1 := Nat.floor_le_of_le hxN
  refine ⟨⌊x⌋₊, x - ⌊x⌋₊, ha, ?_, ?_, by ring, ?_⟩
  · have := Nat.floor_le hx0; linarith
  · have := Nat.lt_floor_add_one x; linarith
  · simp only [interpolated_bin, rat_arith, u32_pred_eq N hN hN2,
      u32_pred_eq M (by omega) hM2]
    rw [← hx]
    have e : (⌊x⌋₊ + 1) % 2 ^ 32 = ⌊x⌋₊ + 1 := Nat.mod_eq_of_lt (by omega)
    rw [e]

theorem interpolation_ge_low (inp : Nat → ℚ) (N : Nat) (hN : 1 ≤ N)
    (hmono : ∀ i j, i ≤ j → j < N → inp i ≤ inp j) (a : Nat) (t : ℚ) (ha : a ≤ N - 1)
    (ht0 : 0 ≤ t) :
    inp a ≤ (1 - t) * inp a + t * inp (if a + 1 ≥ N then N - 1 else a + 1) := by
  have h : inp a ≤ inp (if a + 1 ≥ N then N - 1 else a + 1) := by
    apply hmono
    · split_ifs <;> omega
    · split_ifs <;> omega
  nlinarith

theorem interpolation_le_high (inp : Nat → ℚ) (N : Nat) (hN : 1 ≤ N)
    (hmono : ∀ i j, i ≤ j → j < N → inp i ≤ inp j) (a : Nat) (t : ℚ) (ha : a ≤ N - 1)
    (ht1 : t < 1) :
    (1 - t) * inp a + t * inp (if a + 1 ≥ N then N - 1 else a + 1) ≤
      inp (if a + 1 ≥ N then N - 1 else a + 1) := by
  have h : inp a ≤ inp (if a + 1 ≥ N then N - 1 else a + 1) := by
    apply hmono
    · split_ifs <;> omega
    · split_ifs <;> omega
  nlinarith

theorem interpolation_mono (inp : Nat → ℚ) (N : Nat) (hN : 1 ≤ N)
    (hmono : ∀ i j, i ≤ j → j < N → inp i ≤ inp j) (a b : Nat) (s t : ℚ)
    (ha : a ≤ N - 1) (hb : b ≤ N - 1) (hs0 : 0 ≤ s) (hs1 : s < 1) (ht0 : 0 ≤ t) (ht1 : t < 1)
    (hle : (a : ℚ) + s ≤ (b : ℚ) + t) :
    (1 - s) * inp a + s * inp (if a + 1 ≥ N then N - 1 else a + 1) ≤
      (1 - t) * inp b + t * inp (if b + 1 ≥ N then N - 1 else b + 1) := by
  have hab : a ≤ b := by
    by_contra hc
    have : b + 1 ≤ a := by omega
    have : ((b + 1 : Nat) : ℚ) ≤ (a : ℚ) := by exact_mod_cast this
    push_cast at this
    linarith
  rcases Nat.eq_or_lt_of_le hab with e | hlt
  · subst e
    have h : inp a ≤ inp (if a + 1 ≥ N then N - 1 else a + 1) := by
      apply hmono
      · split_ifs <;> omega
      · split_ifs <;> omega
    have hst : s ≤ t := by linarith
    nlinarith
  · calc (1 - s) * inp a + s * inp (if a + 1 ≥ N then N - 1 else a + 1)
        ≤ inp (if a + 1 ≥ N then N - 1 else a + 1) :=
          interpolation_le_high inp N hN hmono a s ha hs1
      _ ≤ inp b := by
          apply hmono
          · split_ifs <;> omega
          · omega
      _ ≤ (1 - t) * inp b + t * inp (if b + 1 ≥ N then N - 1 else b + 1) :=
          interpolation_ge_low inp N hN hmono b t hb ht0

/-- C10: with the interpolation arithmetic exact (over the rationals), for a store of size
`M ≥ 1` and an incoming profile of size `N ≥ 1`, `N ≠ M` (both `uint32_t`), if the incoming
profile is non-decreasing over its `N` bins (as every increasing profile is), the profile
`set_noise_profile` leaves in the store is non-decreasing over its `M` bins. -/
theorem C10_resampling_monotone (self : NoiseProfile ℚ) (noise_profile : Nat → ℚ)
    (noise_profile_size blocks : Nat)
    (hM : 1 ≤ self.noise_profile_size) (hM2 : self.noise_profile_size < 2 ^ 32)
    (hN : 1 ≤ noise_profile_size) (hN2 : noise_profile_size < 2 ^ 32)
    (hne : noise_profile_size ≠ self.noise_profile_size)
    (hmono : ∀ i j, i ≤ j → j < noise_profile_size → noise_profile i ≤ noise_profile j) :
    ∃ p, (set_noise_profile rat_arith (some self) (some noise_profile) noise_profile_size
        blocks).2 = some p ∧
      ∀ i j, i ≤ j → j < self.noise_profile_size → p.noise_profile i ≤ p.noise_profile j := by
  refine ⟨profile_after_set rat_arith self noise_profile noise_profile_size blocks, rfl, ?_⟩
  intro i j hij hj
  rw [profile_after_set_resized rat_arith self noise_profile noise_profile_size blocks hne,
    profile_after_set_resized rat_arith self noise_profile noise_profile_size blocks hne]
  have hi : i < self.noise_profile_size := by omega
  by_cases hj1 : 1 ≤ j
  · have hM' : 2 ≤ self.noise_profile_size := by omega
    obtain ⟨b, t, hb, ht0, ht1, hbt, ebt⟩ := interpolated_bin_rat noise_profile
      noise_profile_size self.noise_profile_size j hN hN2 hM' hM2 hj
    have hbN : b < noise_profile_size := by omega
    simp only [hj1, hj, and_self, if_true]
    rw [ebt]
    by_cases hi1 : 1 ≤ i
    · obtain ⟨a, s, ha, hs0, hs1, has, eas⟩ := interpolated_bin_rat noise_profile
        noise_profile_size self.noise_profile_size i hN hN2 hM' hM2 hi
      simp only [hi1, hi, and_self, if_true]
      rw [eas]
      apply interpolation_mono noise_profile noise_profile_size hN hmono a b s t ha hb hs0 hs1
        ht0 ht1
      rw [has, hbt]
      have hM1 : (0 : ℚ) < ((self.noise_profile_size - 1 : Nat) : ℚ) := by
        have : 0 < self.noise_profile_size - 1 := by omega
        exact_mod_cast this
      apply div_le_div_of_nonneg_right _ hM1.le
      apply mul_le_mul_of_nonneg_right _ (by positivity)
      exact_mod_cast hij
    · have hi0 : i = 0 := by omega
      subst hi0
      simp only [Nat.not_succ_le_zero, false_and, if_false, Function.update_same]
      calc noise_profile 0 ≤ noise_profile b := hmono 0 b (Nat.zero_le _) hbN
        _ ≤ _ := interpolation_ge_low noise_profile noise_profile_size hN hmono b t hb ht0
  · have hj0 : j = 0 := by omega
    have hi0 : i = 0 := by omega
    subst hj0; subst hi0
    exact le_refl _

/-- C10 at a store of 5 bins receiving the increasing 3-bin profile 1, 2, 3. -/
theorem C10_resampling_monotone_witness :
    ∃ p, (set_noise_profile rat_arith (some ⟨5, 0, fun _ => 0, false⟩)
        (some (fun i => (i : ℚ) + 1)) 3 9).2 = some p ∧
      ∀ i j, i ≤ j → j < 5 → p.noise_profile i ≤ p.noise_profile j :=
  C10_resampling_monotone ⟨5, 0, fun _ => 0, false⟩ (fun i => (i : ℚ) + 1) 3 9
    (by decide) (by decide) (by decide) (by decide) (by decide)
    (fun i j h _ => by
      have : (i : ℚ) ≤ (j : ℚ) := by exact_mod_cast h
      show (i : ℚ) + 1 ≤ (j : ℚ) + 1
      linarith)

/-! ## Persistence -/

/-! ### Bytes -/

theorem le_encode_length (w v : Nat) : (le_encode w v).length = w := by
  induction w generalizing v with
  | zero => rfl
  | succ w ih => simp [le_encode, ih]

theorem le_decode_encode (w v : Nat) : le_decode (le_encode w v) = v % 256 ^ w := by
  induction w generalizing v with
  | zero => simp [le_encode, le_decode, Nat.mod_one]
  | succ w ih =>
    simp only [le_encode, le_decode, ih, Nat.mod_mod]
    rw [pow_succ, Nat.mul_comm (256 ^ w) 256, Nat.mod_mul]

theorem le_decode_encode_u32 (v : Nat) (h : v < 2 ^ 32) : le_decode (le_encode 4 v) = v := by
  rw [le_decode_encode]; exact Nat.mod_eq_of_lt (by norm_num at h ⊢; exact h)

theorem le_decode_encode_f64 (v : Nat) (h : v < 2 ^ 64) : le_decode (le_encode 8 v) = v := by
  rw [le_decode_encode]; exact Nat.mod_eq_of_lt (by norm_num at h ⊢; exact h)

theorem overwrite_full (old received : List Nat) (h : old.length = received.length) :
    overwrite old received = received := by
  simp [overwrite, List.drop_eq_nil_of_le (Nat.le_of_eq h)]

/-! ### Reading -/

theorem readable_mk_none (d : List Nat) (c : Nat) :
    (clap_istream.mk d c none).readable = d.length := rfl

theorem advance_zero (s : clap_istream) : s.advance 0 = s := by
  cases s with
  | mk d c f => cases f <;> simp [clap_istream.advance]

theorem advance_advance (s : clap_istream) (a b : Nat) :
    (s.advance a).advance b = s.advance (a + b) := by
  cases s with
  | mk d c f =>
    cases f with
    | none => simp [clap_istream.advance, Nat.add_comm]
    | some k => simp [clap_istream.advance, Nat.add_comm, Nat.sub_sub]

theorem readable_advance (s : clap_istream) (n : Nat) :
    (s.advance n).readable = s.readable - n := by
  cases s with
  | mk d c f =>
    cases f with
    | none => simp [clap_istream.advance, clap_istream.readable]
    | some k => simp [clap_istream.advance, clap_istream.readable]; omega

theorem data_advance (s : clap_istream) (n : Nat) : (s.advance n).data = s.data.drop n := rfl

theorem read_from_stream_eq (size : Nat) : ∀ s : clap_istream,
    read_from_stream s size =
      if size ≤ s.readable then (true, s.data.take size, s.advance size)
      else (false, s.data.take s.readable, s.advance s.readable) := by
  induction size using Nat.strong_induction_on with
  | _ size ih =>
    intro s
    rw [read_from_stream]
    by_cases h0 : size = 0
    · subst h0; simp [advance_zero]
    · have key : ∀ n : Nat, 1 ≤ n → n ≤ size → n ≤ s.readable →
          (if size - n ≤ (s.advance n).readable then
              ((true, (s.advance n).data.take (size - n), (s.advance n).advance (size - n)) :
                Bool × List Nat × clap_istream)
            else (false, (s.advance n).data.take (s.advance n).readable,
              (s.advance n).advance (s.advance n).readable)).1 =
            decide (size ≤ s.readable) ∧
          s.data.take n ++ (if size - n ≤ (s.advance n).readable then
              ((true, (s.advance n).data.take (size - n), (s.advance n).advance (size - n)) :
                Bool × List Nat × clap_istream)
            else (false, (s.advance n).data.take (s.advance n).readable,
              (s.advance n).advance (s.advance n).readable)).2.1 =
            s.data.take (min size s.readable) ∧
          (if size - n ≤ (s.advance n).readable then
              ((true, (s.advance n).data.take (size - n), (s.advance n).advance (size - n)) :
                Bool × List Nat × clap_istream)
            else (false, (s.advance n).data.take (s.advance n).readable,
              (s.advance n).advance (s.advance n).readable)).2.2 =
            s.advance (min size s.readable) := by
        intro n h1 h2 h3
        rw [readable_advance, data_advance]
        by_cases hs : size ≤ s.readable
        · have e1 : size - n ≤ s.readable - n := by omega
          have e2 : n + (size - n) = size := by omega
          have e3 : min size s.readable = size := by omega
          simp only [e1, if_true, hs, decide_True, advance_advance, e2, e3, true_and]
          rw [← List.take_add, e2]
          exact ⟨rfl, trivial⟩
        · have e1 : ¬ size - n ≤ s.readable - n := by omega
          have e2 : n + (s.readable - n) = s.readable := by omega
          have e3 : min size s.readable = s.readable := by omega
          simp only [e1, if_false, hs, decide_False, advance_advance, e2, e3, true_and]
          rw [← List.take_add, e2]
          exact ⟨rfl, trivial⟩
      have fin : ∀ r : Bool × List Nat × clap_istream,
          r.1 = decide (size ≤ s.readable) → r.2.1 = s.data.take (min size s.readable) →
          r.2.2 = s.advance (min size s.readable) →
          r = if size ≤ s.readable then (true, s.data.take size, s.advance size)
            else (false, s.data.take s.readable, s.advance s.readable) := by
        intro r h1 h2 h3
        obtain ⟨r1, r2, r3⟩ := r
        simp only at h1 h2 h3
        subst h1 h2 h3
        by_cases hs : size ≤ s.readable
        · simp [hs]
        · have : min size s.readable = s.readable := by omega
          simp [hs, this]
      rw [if_neg h0]
      by_cases hf : s.fail_after = some 0
      · have hr : s.readable = 0 := by simp [clap_istream.readable, hf]
        have hread : s.read size = (-1, [], s) := by simp [clap_istream.read, hf]
        have hs : ¬ size ≤ s.readable := by omega
        simp [hread, hr, h0, advance_zero]
      · by_cases hd : s.data = []
        · have hr : s.readable = 0 := by
            unfold clap_istream.readable; cases s.fail_after <;> simp [hd]
          have hread : s.read size = (0, [], s.advance 0) := by
            simp [clap_istream.read, hf, hd, clap_istream.advance]
          simp [hread, hr, h0, advance_zero]
        · have hlen : 0 < s.data.length := List.length_pos.mpr hd
          obtain ⟨n, hn1, hn2, hn3, hread⟩ : ∃ n : Nat, 1 ≤ n ∧ n ≤ size ∧ n ≤ s.readable ∧
              s.read size = ((n : Int), s.data.take n, s.advance n) := by
            unfold clap_istream.read clap_istream.readable clap_istream.advance
            rw [if_neg hf]
            cases hk : s.fail_after with
            | none =>
              dsimp only
              exact ⟨_, by omega, by omega, by omega, rfl⟩
            | some k =>
              have : k ≠ 0 := by intro e; apply hf; rw [hk, e]
              dsimp only
              exact ⟨_, by omega, by omega, by omega, rfl⟩
          have c1 : ¬ ((n : Int) = 0) := by omega
          have c2 : ¬ ((n : Int) < 0) := by omega
          simp only [hread, c1, c2, if_false, Int.toNat_ofNat]
          rw [ih (size - n) (by omega) (s.advance n)]
          obtain ⟨k1, k2, k3⟩ := key n hn1 hn2 hn3
          exact fin _ k1 k2 k3

theorem code_decode_eq (s : clap_istream) (buffer : List Nat) (size : Nat) :
    code (state_coder.DECODE s) buffer size =
      if size ≤ s.readable then
        some (true, overwrite buffer (s.data.take size), state_coder.DECODE (s.advance size))
      else
        some (false, overwrite buffer (s.data.take s.readable),
          state_coder.DECODE (s.advance s.readable)) := by
  unfold code
  by_cases h0 : size = 0
  · subst h0; simp [overwrite, advance_zero]
  · rw [if_neg h0]
    dsimp only
    rw [read_from_stream_eq]
    by_cases hs : size ≤ s.readable
    · simp only [hs, if_true]
    · simp only [hs, if_false]

theorem code_decode_ok (s : clap_istream) (buffer X rest : List Nat) (size : Nat)
    (hd : s.data = X ++ rest) (hX : X.length = size) (hb : buffer.length = size)
    (hr : size ≤ s.readable) :
    code (state_coder.DECODE s) buffer size =
      some (true, X, state_coder.DECODE (s.advance size)) := by
  rw [code_decode_eq, if_pos hr, hd, ← hX, List.take_left, overwrite_full]
  rw [hb, hX]

/-! ### Writing -/

theorem write_to_stream_accepting (size : Nat) : ∀ (s : clap_ostream) (buffer : List Nat),
    s.room = none → size ≤ buffer.length →
      write_to_stream s buffer size = some (true, s.accept (buffer.take size)) := by
  induction size using Nat.strong_induction_on with
  | _ size ih =>
    intro s buffer hroom hlen
    rw [write_to_stream]
    by_cases h0 : size = 0
    · subst h0; simp [clap_ostream.accept]
    · rw [if_neg h0]
      have hw : s.write buffer size =
          (((min size (s.chunk + 1) : Nat) : Int), s.accept (buffer.take (min size (s.chunk + 1)))) := by
        simp [clap_ostream.write, hroom, clap_ostream.accept]
      have c1 : ¬ (((min size (s.chunk + 1) : Nat) : Int) < 0) := by omega
      have c2 : ¬ (((min size (s.chunk + 1) : Nat) : Int) = 0) := by omega
      simp only [hw, c1, c2, if_false, Int.toNat_ofNat]
      rw [ih (size - min size (s.chunk + 1)) (by omega)
        (s.accept (buffer.take (min size (s.chunk + 1))))
        (buffer.drop (min size (s.chunk + 1))) hroom (by rw [List.length_drop]; omega)]
      have e : min size (s.chunk + 1) + (size - min size (s.chunk + 1)) = size := by omega
      simp only [clap_ostream.accept, List.append_assoc, ← List.take_add, e]

theorem code_encode_ok (s : clap_ostream) (buffer : List Nat) (size : Nat)
    (hroom : s.room = none) (hb : buffer.length = size) :
    code (state_coder.ENCODE s) buffer size =
      some (true, buffer, state_coder.ENCODE (s.accept buffer)) := by
  unfold code
  by_cases h0 : size = 0
  · subst h0
    have : buffer = [] := List.length_eq_zero.mp hb
    subst this
    simp [clap_ostream.accept]
  · rw [if_neg h0]
    dsimp only
    rw [write_to_stream_accepting size s buffer hroom (Nat.le_of_eq hb.symm)]
    simp [← hb]

theorem accept_accept (s : clap_ostream) (a b : List Nat) :
    (s.accept a).accept b = s.accept (a ++ b) := by
  simp [clap_ostream.accept]

theorem data_advance_append (s : clap_istream) (X rest : List Nat) (n : Nat)
    (h : s.data = X ++ rest) (hn : X.length = n) : (s.advance n).data = rest := by
  rw [data_advance, h, ← hn, List.drop_left]

theorem code_decode_short (s : clap_istream) (buffer X Q : List Nat) (size : Nat)
    (h : s.short_of (X ++ Q)) (hX : X.length = size) (hb : buffer.length = size) :
    (∃ b s', code (state_coder.DECODE s) buffer size = some (false, b, state_coder.DECODE s')) ∨
      (code (state_coder.DECODE s) buffer size =
          some (true, X, state_coder.DECODE (s.advance size)) ∧
        (s.advance size).short_of Q) := by
  obtain ⟨h1, h2⟩ := h
  rw [code_decode_eq]
  by_cases hs : size ≤ s.readable
  · right
    rw [if_pos hs]
    have e1 : s.data.take size = X := by
      have : (s.data.take s.readable).take size = ((X ++ Q).take s.readable).take size := by
        rw [h2]
      rw [List.take_take, List.take_take, Nat.min_eq_left hs, ← hX, List.take_left] at this
      rw [← hX]; exact this
    refine ⟨by rw [e1, overwrite_full _ _ (by rw [hb, hX])], ?_, ?_⟩
    · rw [readable_advance]
      rw [List.length_append] at h1
      omega
    · rw [readable_advance, data_advance]
      have : (s.data.take s.readable).drop size = ((X ++ Q).take s.readable).drop size := by
        rw [h2]
      rw [List.drop_take, List.drop_take, ← hX, List.drop_left] at this
      rw [← hX]; exact this
  · left
    rw [if_neg hs]
    exact ⟨_, _, rfl⟩

/-! ### The parameter loop -/

theorem set_value_frame (cv : c_conversions) (plug : clap_noiserf) (id v : Nat) :
    (set_value cv plug id v).channel_count = plug.channel_count ∧
      (set_value cv plug id v).pending_noise_profile_change =
        plug.pending_noise_profile_change ∧
      (set_value cv plug id v).current_noise_profile = plug.current_noise_profile := by
  unfold set_value
  refine ⟨?_, ?_, ?_⟩
  · simp only [apply_ite clap_noiserf.channel_count, ite_self]
  · simp only [apply_ite clap_noiserf.pending_noise_profile_change, ite_self]
  · simp only [apply_ite clap_noiserf.current_noise_profile, ite_self]


theorem param_id_lt (i : Nat) : (param_get_info i).2.id < 2 ^ 32 := by
  unfold param_get_info
  split <;> decide

theorem saved_pairs_succ (cv : c_conversions) (plug : clap_noiserf) (i n : Nat) :
    saved_pairs cv plug i (n + 1) =
      ((param_get_info i).2.id, (param_get_value cv plug (param_get_info i).2.id).2) ::
        saved_pairs cv plug (i + 1) n := by
  simp [saved_pairs, List.range'_succ]

theorem pairs_bytes_cons (p : Nat × Nat) (ps : List (Nat × Nat)) :
    pairs_bytes (p :: ps) = le_encode 4 p.1 ++ (le_encode 8 p.2 ++ pairs_bytes ps) := by
  simp [pairs_bytes]

theorem pairs_bytes_length (ps : List (Nat × Nat)) : (pairs_bytes ps).length = 12 * ps.length := by
  induction ps with
  | nil => rfl
  | cons p ps ih =>
    rw [pairs_bytes_cons]
    simp only [List.length_append, le_encode_length, ih, List.length_cons]
    omega

theorem code_params_encode (cv : c_conversions) (plug : clap_noiserf) (n : Nat) :
    ∀ (i : Nat) (s : clap_ostream), s.room = none →
      code_params cv n i plug (state_coder.ENCODE s) =
        some (true, plug, state_coder.ENCODE (s.accept (pairs_bytes (saved_pairs cv plug i n)))) := by
  induction n with
  | zero =>
    intro i s _
    simp [code_params, saved_pairs, pairs_bytes, clap_ostream.accept]
  | succ n ih =>
    intro i s hroom
    rw [code_params]
    simp only
    rw [code_encode_ok s _ 4 hroom (le_encode_length 4 _)]
    simp only [le_decode_encode_u32 _ (param_id_lt i)]
    rw [code_encode_ok _ _ 8 (show (s.accept _).room = none from hroom) (le_encode_length 8 _)]
    simp only
    rw [ih (i + 1) _ (show ((s.accept _).accept _).room = none from hroom)]
    rw [saved_pairs_succ, pairs_bytes_cons, accept_accept, accept_accept]

theorem code_params_decode (cv : c_conversions) (ps : List (Nat × Nat)) :
    ∀ (i : Nat) (plug : clap_noiserf) (s : clap_istream) (rest : List Nat),
      s.data = pairs_bytes ps ++ rest → 12 * ps.length ≤ s.readable →
      (∀ p ∈ ps, p.1 < 2 ^ 32 ∧ p.2 < 2 ^ 64) →
      code_params cv ps.length i plug (state_coder.DECODE s) =
        some (true, set_values cv plug ps, state_coder.DECODE (s.advance (12 * ps.length))) := by
  induction ps with
  | nil =>
    intro i plug s rest _ _ _
    simp [code_params, set_values, advance_zero]
  | cons p ps ih =>
    intro i plug s rest hd hr hp
    have hp1 := hp p (List.mem_cons_self _ _)
    rw [pairs_bytes_cons, List.append_assoc] at hd
    rw [List.length_cons] at hr ⊢
    rw [code_params]
    simp only
    rw [code_decode_ok s _ _ _ 4 hd (le_encode_length 4 _) (le_encode_length 4 _) (by omega)]
    simp only [le_decode_encode_u32 _ hp1.1]
    have hd2 := data_advance_append s _ _ 4 hd (le_encode_length 4 _)
    rw [List.append_assoc] at hd2
    rw [code_decode_ok (s.advance 4) _ _ _ 8 hd2 (le_encode_length 8 _) (le_encode_length 8 _)
      (by rw [readable_advance]; omega)]
    simp only [le_decode_encode_f64 _ hp1.2]
    have hd3 := data_advance_append (s.advance 4) _ _ 8 hd2 (le_encode_length 8 _)
    rw [ih (i + 1) _ ((s.advance 4).advance 8) rest hd3
      (by rw [readable_advance, readable_advance]; omega)
      (fun q hq => hp q (List.mem_cons_of_mem _ hq))]
    rw [advance_advance, advance_advance]
    have : 4 + (8 + 12 * ps.length) = 12 * (ps.length + 1) := by omega
    rw [this]
    rfl

theorem code_params_short (cv : c_conversions) (ps : List (Nat × Nat)) :
    ∀ (i : Nat) (plug : clap_noiserf) (s : clap_istream) (Q : List Nat),
      s.short_of (pairs_bytes ps ++ Q) →
      (∃ q s', code_params cv ps.length i plug (state_coder.DECODE s) =
          some (false, q, state_coder.DECODE s')) ∨
        ((∃ q, q.channel_count = plug.channel_count ∧
            code_params cv ps.length i plug (state_coder.DECODE s) =
              some (true, q, state_coder.DECODE (s.advance (12 * ps.length)))) ∧
          (s.advance (12 * ps.length)).short_of Q) := by
  induction ps with
  | nil =>
    intro i plug s Q h
    right
    simp only [List.length_nil, Nat.mul_zero, advance_zero]
    exact ⟨⟨plug, rfl, rfl⟩, h⟩
  | cons p ps ih =>
    intro i plug s Q h
    rw [pairs_bytes_cons, List.append_assoc] at h
    rw [List.length_cons, code_params]
    simp only
    rcases code_decode_short s (le_encode 4 0) _ _ 4 h (le_encode_length 4 _)
      (le_encode_length 4 _) with ⟨b, c, e⟩ | ⟨e, h2⟩
    · left; rw [e]; exact ⟨_, _, rfl⟩
    · rw [e]
      simp only
      rw [List.append_assoc] at h2
      rcases code_decode_short (s.advance 4) (le_encode 8 double_0) _ _ 8 h2
        (le_encode_length 8 _) (le_encode_length 8 _) with ⟨b, c, e2⟩ | ⟨e2, h3⟩
      · left; rw [e2]; exact ⟨_, _, rfl⟩
      · rw [e2]
        simp only
        have e3 : 12 * (ps.length + 1) = 4 + 8 + 12 * ps.length := by omega
        rw [e3, ← advance_advance, ← advance_advance]
        rcases ih (i + 1) (set_value cv plug (le_decode (le_encode 4 p.1))
            (le_decode (le_encode 8 p.2))) _ Q h3 with hf | ⟨⟨q, hq, e4⟩, h4⟩
        · left; exact hf
        · right
          exact ⟨⟨q, hq.trans (set_value_frame cv plug _ _).1, e4⟩, h4⟩

/-! ### The channel loop -/

theorem floats_bytes_succ (a : Nat → Nat) (n : Nat) :
    floats_bytes a (n + 1) = floats_bytes a n ++ le_encode 4 (a n) := by
  simp [floats_bytes, List.range_succ]

theorem floats_bytes_length (a : Nat → Nat) (n : Nat) : (floats_bytes a n).length = 4 * n := by
  induction n with
  | zero => rfl
  | succ n ih => rw [floats_bytes_succ, List.length_append, ih, le_encode_length]; omega

theorem floats_bytes_chunk (a : Nat → Nat) (n : Nat) :
    ∀ i, i < n → ((floats_bytes a n).drop (4 * i)).take 4 = le_encode 4 (a i) := by
  induction n with
  | zero => intro i hi; omega
  | succ n ih =>
    intro i hi
    rw [floats_bytes_succ]
    rcases Nat.lt_succ_iff_lt_or_eq.mp hi with h | h
    · rw [List.drop_append_of_le_length (by rw [floats_bytes_length]; omega),
        List.take_append_of_le_length (by rw [List.length_drop, floats_bytes_length]; omega)]
      exact ih i h
    · subst h
      have : 4 * i = (floats_bytes a i).length := (floats_bytes_length a i).symm
      rw [this, List.drop_left]
      exact List.take_of_length_le (by rw [le_encode_length])

theorem floats_stored_bytes (old a : Nat → Nat) (n : Nat) (ha : ∀ i, a i < 2 ^ 32) :
    floats_stored old n (floats_bytes a n) = memcpy_floats old a n := by
  funext i
  unfold floats_stored memcpy_floats
  by_cases hi : i < n
  · rw [if_pos hi, if_pos hi, floats_bytes_chunk a n i hi, le_decode_encode_u32 _ (ha i)]
  · rw [if_neg hi, if_neg hi]

theorem channels_bytes_succ (ch : Nat → Nat → Nat) (size channel n : Nat) :
    channels_bytes ch size channel (n + 1) =
      floats_bytes (ch channel) size ++ channels_bytes ch size (channel + 1) n := by
  simp [channels_bytes, List.range'_succ]

theorem channels_bytes_length (ch : Nat → Nat → Nat) (size n : Nat) :
    ∀ channel, (channels_bytes ch size channel n).length = 4 * size * n := by
  induction n with
  | zero => intro channel; rfl
  | succ n ih =>
    intro channel
    rw [channels_bytes_succ, List.length_append, floats_bytes_length, ih, Nat.mul_succ]
    omega

theorem deref_store (plug : clap_noiserf) (p : state_ptr) (st : noise_profile_state) :
    deref (store plug p st) p = st := by
  cases p <;> simp [deref, store]

theorem store_store (plug : clap_noiserf) (p : state_ptr) (a b : noise_profile_state) :
    store (store plug p a) p b = store plug p b := by
  cases p <;> simp [store]

theorem store_channel_count (plug : clap_noiserf) (p : state_ptr) (a : noise_profile_state) :
    (store plug p a).channel_count = plug.channel_count := by
  cases p <;> rfl

theorem code_channels_encode (n : Nat) :
    ∀ (channel : Nat) (state : state_ptr) (plug : clap_noiserf) (s : clap_ostream),
      s.room = none →
      code_channels n channel state plug (state_coder.ENCODE s) =
        some (true, plug, state_coder.ENCODE
          (s.accept (channels_bytes (deref plug state).channels (deref plug state).size
            channel n))) := by
  induction n with
  | zero =>
    intro channel state plug s _
    simp [code_channels, channels_bytes, clap_ostream.accept]
  | succ n ih =>
    intro channel state plug s hroom
    rw [code_channels]
    simp only
    rw [code_encode_ok s _ _ hroom (floats_bytes_length _ _)]
    simp only [Bool.not_true, Bool.false_eq_true, if_false]
    rw [ih (channel + 1) state plug _ (show (s.accept _).room = none from hroom),
      channels_bytes_succ, accept_accept]

theorem channels_replaced_step (dst src : Nat → Nat → Nat) (size channel n : Nat) :
    channels_replaced
        (Function.update dst channel (memcpy_floats (dst channel) (src channel) size))
        src size (channel + 1) n =
      channels_replaced dst src size channel (n + 1) := by
  funext c
  unfold channels_replaced
  by_cases h1 : c = channel
  · subst h1
    have : ¬ (c + 1 ≤ c ∧ c < c + 1 + n) := by omega
    rw [if_neg this, if_pos (by omega), Function.update_same]
  · rw [Function.update_noteq h1]
    by_cases h2 : channel + 1 ≤ c ∧ c < channel + 1 + n
    · rw [if_pos h2, if_pos (by omega)]
    · rw [if_neg h2, if_neg (by omega)]

theorem code_channels_decode (ch : Nat → Nat → Nat) (hch : ∀ c i, ch c i < 2 ^ 32)
    (state : state_ptr) (n : Nat) :
    ∀ (channel : Nat) (plug : clap_noiserf) (s : clap_istream) (rest : List Nat),
      s.data = channels_bytes ch (deref plug state).size channel n ++ rest →
      4 * (deref plug state).size * n ≤ s.readable →
      code_channels n channel state plug (state_coder.DECODE s) =
        some (true,
          store plug state
            { deref plug state with
              channels := channels_replaced (deref plug state).channels ch
                (deref plug state).size channel n },
          state_coder.DECODE (s.advance (4 * (deref plug state).size * n))) := by
  induction n with
  | zero =>
    intro channel plug s rest _ _
    have e : channels_replaced (deref plug state).channels ch (deref plug state).size
        channel 0 = (deref plug state).channels := by
      funext c
      unfold channels_replaced
      rw [if_neg (by omega)]
    have e2 : store plug state (deref plug state) = plug := by
      cases state <;> simp [store, deref]
    simp only [code_channels, e, Nat.mul_zero, advance_zero]
    rw [e2]
  | succ n ih =>
    intro channel plug s rest hd hr
    rw [channels_bytes_succ, List.append_assoc] at hd
    rw [code_channels]
    simp only
    rw [code_decode_ok s _ _ _ _ hd (floats_bytes_length _ _) (floats_bytes_length _ _)
      (by rw [Nat.mul_succ] at hr; omega)]
    simp only [Bool.not_true, Bool.false_eq_true, if_false,
      floats_stored_bytes _ _ _ (hch channel)]
    have hd2 := data_advance_append s _ _ _ hd (floats_bytes_length _ _)
    rw [ih (channel + 1) _ (s.advance (4 * (deref plug state).size)) rest
      (by rw [deref_store]; exact hd2)
      (by rw [deref_store, readable_advance]; dsimp only; rw [Nat.mul_succ] at hr; omega)]
    rw [deref_store, store_store, advance_advance]
    simp only [channels_replaced_step]
    have : 4 * (deref plug state).size + 4 * (deref plug state).size * n =
        4 * (deref plug state).size * (n + 1) := by rw [Nat.mul_succ]; omega
    rw [this]

theorem code_channels_short (state : state_ptr) (n : Nat) :
    ∀ (channel : Nat) (plug : clap_noiserf) (s : clap_istream) (X Q : List Nat),
      s.short_of (X ++ Q) → X.length = 4 * (deref plug state).size * n →
      (∃ q s', code_channels n channel state plug (state_coder.DECODE s) =
          some (false, q, state_coder.DECODE s')) ∨
        ((∃ q, code_channels n channel state plug (state_coder.DECODE s) =
            some (true, q, state_coder.DECODE (s.advance X.length))) ∧
          (s.advance X.length).short_of Q) := by
  induction n with
  | zero =>
    intro channel plug s X Q h hX
    have : X = [] := List.length_eq_zero.mp (by rw [hX]; omega)
    subst this
    right
    simp only [List.length_nil, advance_zero]
    exact ⟨⟨plug, rfl⟩, h⟩
  | succ n ih =>
    intro channel plug s X Q h hX
    have hsplit : X = X.take (4 * (deref plug state).size) ++
        X.drop (4 * (deref plug state).size) := (List.take_append_drop _ _).symm
    have hlen1 : (X.take (4 * (deref plug state).size)).length = 4 * (deref plug state).size := by
      rw [List.length_take, hX, Nat.mul_succ]; omega
    have hlen2 : (X.drop (4 * (deref plug state).size)).length =
        4 * (deref plug state).size * n := by
      rw [List.length_drop, hX, Nat.mul_succ]; omega
    rw [hsplit, List.append_assoc] at h
    rw [code_channels]
    simp only
    rcases code_decode_short s (floats_bytes ((deref plug state).channels channel)
        (deref plug state).size) _ _ _ h hlen1 (floats_bytes_length _ _) with
      ⟨b, c, e⟩ | ⟨e, h2⟩
    · left; rw [e]; exact ⟨_, _, rfl⟩
    · rw [e]
      simp only [Bool.not_true, Bool.false_eq_true, if_false]
      have hX' : X.length = 4 * (deref plug state).size +
          (X.drop (4 * (deref plug state).size)).length := by
        rw [hlen2, hX, Nat.mul_succ]; omega
      rw [hX', ← advance_advance]
      exact ih (channel + 1) _ _ _ Q h2 (by rw [deref_store]; exact hlen2)

/-! ### `code_state` -/

theorem payload_length (version : Nat) (ps : List (Nat × Nat)) (ba size : Nat)
    (ch : Nat → Nat → Nat) (cc : Nat) :
    (payload version ps ba size ch cc).length = 16 + 12 * ps.length + 4 * size * cc := by
  simp only [payload, List.length_append, le_encode_length, pairs_bytes_length,
    channels_bytes_length]
  omega

theorem saved_pairs_length (cv : c_conversions) (plug : clap_noiserf) (i n : Nat) :
    (saved_pairs cv plug i n).length = n := by
  simp [saved_pairs]

theorem current_noise_profile_channel_count (plug : clap_noiserf) (b : Bool) :
    (current_noise_profile plug b).2.channel_count = plug.channel_count := by
  unfold current_noise_profile
  dsimp only
  split_ifs <;> rfl

theorem state_save_eq (cv : c_conversions) (plug : clap_noiserf) (s : clap_ostream)
    (hroom : s.room = none) :
    state_save cv plug s =
      some (true, (current_noise_profile plug false).2,
        s.accept (payload 1 (saved_pairs cv plug 0 PARAMS_COUNT)
          (deref (current_noise_profile plug false).2
            (current_noise_profile plug false).1).blocks_averaged
          (deref (current_noise_profile plug false).2
            (current_noise_profile plug false).1).size
          (deref (current_noise_profile plug false).2
            (current_noise_profile plug false).1).channels
          plug.channel_count)) := by
  unfold state_save code_state
  simp only
  rw [code_encode_ok s _ 4 hroom (le_encode_length 4 _)]
  simp only
  rw [code_encode_ok _ _ 4 (show (s.accept _).room = none from hroom) (le_encode_length 4 _)]
  simp only
  have e11 : le_decode (le_encode 4 PARAMS_COUNT) = PARAMS_COUNT := by decide
  rw [e11, code_params_encode cv plug PARAMS_COUNT 0 _
    (show ((s.accept _).accept _).room = none from hroom)]
  simp only
  rw [code_encode_ok _ _ 4 (show (((s.accept _).accept _).accept _).room = none from hroom)
    (le_encode_length 4 _)]
  simp only [Bool.not_true, Bool.false_eq_true, if_false]
  rw [code_encode_ok _ _ 4
    (show ((((s.accept _).accept _).accept _).accept _).room = none from hroom)
    (le_encode_length 4 _)]
  simp only [Bool.not_true, Bool.false_eq_true, if_false]
  rw [code_channels_encode _ 0 _ _ _
    (show (((((s.accept _).accept _).accept _).accept _).accept _).room = none from hroom)]
  simp only [accept_accept, current_noise_profile_channel_count, payload, saved_pairs_length,
    List.append_assoc]

theorem set_values_frame (cv : c_conversions) (ps : List (Nat × Nat)) :
    ∀ plug : clap_noiserf,
      (set_values cv plug ps).channel_count = plug.channel_count ∧
        (set_values cv plug ps).pending_noise_profile_change =
          plug.pending_noise_profile_change ∧
        (set_values cv plug ps).current_noise_profile = plug.current_noise_profile := by
  induction ps with
  | nil => intro plug; exact ⟨rfl, rfl, rfl⟩
  | cons p ps ih =>
    intro plug
    have h1 := ih (set_value cv plug p.1 p.2)
    have h2 := set_value_frame cv plug p.1 p.2
    simp only [set_values, List.foldl_cons] at h1 ⊢
    exact ⟨h1.1.trans h2.1, h1.2.1.trans h2.2.1, h1.2.2.trans h2.2.2⟩

theorem set_all_params_to_default_eq (cv : c_conversions) (plug : clap_noiserf) :
    set_all_params_to_default cv plug =
      set_values cv plug
        ((List.range PARAMS_COUNT).map
          (fun i => ((param_get_info i).2.id, (param_get_info i).2.default_value))) := by
  simp [set_all_params_to_default, set_values, List.foldl_map]

theorem set_all_params_to_default_frame (cv : c_conversions) (plug : clap_noiserf) :
    (set_all_params_to_default cv plug).channel_count = plug.channel_count ∧
      (set_all_params_to_default cv plug).pending_noise_profile_change =
        plug.pending_noise_profile_change ∧
      (set_all_params_to_default cv plug).current_noise_profile =
        plug.current_noise_profile := by
  rw [set_all_params_to_default_eq]
  exact set_values_frame cv _ plug

theorem state_load_ok (cv : c_conversions) (plug : clap_noiserf) (s : clap_istream)
    (rest : List Nat) (version : Nat) (ps : List (Nat × Nat)) (ba size : Nat)
    (ch : Nat → Nat → Nat)
    (hd : s.data = payload version ps ba size ch plug.channel_count ++ rest)
    (hr : (payload version ps ba size ch plug.channel_count).length ≤ s.readable)
    (hn : ps.length < 2 ^ 32) (hp : ∀ p ∈ ps, p.1 < 2 ^ 32 ∧ p.2 < 2 ^ 64)
    (hba : ba < 2 ^ 32) (hsize : size < 2 ^ 32) (hch : ∀ c i, ch c i < 2 ^ 32) :
    state_load cv plug s =
      (true, loaded cv plug ps ba size ch,
        s.advance (payload version ps ba size ch plug.channel_count).length) := by
  rw [payload_length] at hr ⊢
  simp only [payload, List.append_assoc] at hd
  unfold state_load code_state
  simp only
  -- version
  rw [code_decode_ok s _ _ _ 4 hd (le_encode_length 4 _) (le_encode_length 4 _) (by omega)]
  simp only
  have hd1 := data_advance_append s _ _ 4 hd (le_encode_length 4 _)
  -- parameter count
  rw [code_decode_ok _ _ _ _ 4 hd1 (le_encode_length 4 _) (le_encode_length 4 _)
    (by rw [readable_advance]; omega)]
  simp only [le_decode_encode_u32 _ hn]
  have hd2 := data_advance_append _ _ _ 4 hd1 (le_encode_length 4 _)
  -- parameters
  rw [code_params_decode cv ps 0 _ _ _ hd2 (by rw [readable_advance, readable_advance]; omega)
    hp]
  simp only
  have hd3 := data_advance_append _ _ _ (12 * ps.length) hd2 (pairs_bytes_length ps)
  -- blocks_averaged
  rw [code_decode_ok _ _ _ _ 4 hd3 (le_encode_length 4 _) (le_encode_length 4 _)
    (by rw [readable_advance, readable_advance, readable_advance]; omega)]
  simp only [Bool.not_true, Bool.false_eq_true, if_false, le_decode_encode_u32 _ hba]
  have hd4 := data_advance_append _ _ _ 4 hd3 (le_encode_length 4 _)
  -- size
  rw [code_decode_ok _ _ _ _ 4 hd4 (le_encode_length 4 _) (le_encode_length 4 _)
    (by rw [readable_advance, readable_advance, readable_advance, readable_advance]; omega)]
  simp only [Bool.not_true, Bool.false_eq_true, if_false, le_decode_encode_u32 _ hsize,
    deref_store, store_store]
  have hd5 := data_advance_append _ _ _ 4 hd4 (le_encode_length 4 _)
  -- channels
  have hcc : (set_values cv
      (if ps.length > PARAMS_COUNT then set_all_params_to_default cv plug else plug)
      ps).channel_count = plug.channel_count := by
    rw [(set_values_frame cv ps _).1]
    split_ifs
    · exact (set_all_params_to_default_frame cv plug).1
    · rfl
  rw [store_channel_count, hcc]
  rw [code_channels_decode ch hch _ plug.channel_count 0 _ _ rest
    (by rw [deref_store]; exact hd5)
    (by
      rw [deref_store]
      simp only [readable_advance]
      omega)]
  simp only [deref_store, store_store, advance_advance]
  refine Prod.ext rfl (Prod.ext ?_ ?_)
  · simp only [loaded, store, deref, write_noise_profile_state, hcc]
  · simp only
    congr 1
    omega

theorem not_short_of_nil (s : clap_istream) : ¬ s.short_of [] := by
  intro h
  exact Nat.not_lt_zero _ h.1

theorem state_load_short (cv : c_conversions) (plug : clap_noiserf) (s : clap_istream)
    (version : Nat) (ps : List (Nat × Nat)) (ba size : Nat) (ch : Nat → Nat → Nat)
    (hn : ps.length < 2 ^ 32) (hsize : size < 2 ^ 32)
    (h : s.short_of (payload version ps ba size ch plug.channel_count)) :
    (state_load cv plug s).1 = false := by
  simp only [payload] at h
  unfold state_load code_state
  simp only
  rcases code_decode_short s (le_encode 4 1) _ _ 4 h (le_encode_length 4 _)
    (le_encode_length 4 _) with ⟨b, s', e⟩ | ⟨e, h1⟩
  · rw [e]
  rw [e]
  simp only
  rcases code_decode_short _ (le_encode 4 PARAMS_COUNT) _ _ 4 h1 (le_encode_length 4 _)
    (le_encode_length 4 _) with ⟨b, s', e⟩ | ⟨e, h2⟩
  · rw [e]
  rw [e]
  simp only [le_decode_encode_u32 _ hn]
  rcases code_params_short cv ps 0
      (if ps.length > PARAMS_COUNT then set_all_params_to_default cv plug else plug) _ _ h2 with
    ⟨q, s', e⟩ | ⟨⟨q, e⟩, h3⟩
  · rw [e]
  obtain ⟨hq, e⟩ := e
  have hq : q.channel_count = plug.channel_count := by
    rw [hq]
    split_ifs
    · exact (set_all_params_to_default_frame cv plug).1
    · rfl
  rw [e]
  simp only
  rcases code_decode_short _
      (le_encode 4 (deref q (state_ptr.pending
        (writable_noise_profile_state q.pending_noise_profile_change))).blocks_averaged)
      _ _ 4 h3 (le_encode_length 4 _) (le_encode_length 4 _) with ⟨b, s', e⟩ | ⟨e, h4⟩
  · rw [e]; rfl
  rw [e]
  simp only [Bool.not_true, Bool.false_eq_true, if_false]
  rcases code_decode_short _
      (le_encode 4 (deref (store q (state_ptr.pending
        (writable_noise_profile_state q.pending_noise_profile_change))
        { deref q (state_ptr.pending
            (writable_noise_profile_state q.pending_noise_profile_change)) with
          blocks_averaged := le_decode (le_encode 4 ba) })
        (state_ptr.pending
          (writable_noise_profile_state q.pending_noise_profile_change))).size)
      _ _ 4 h4 (le_encode_length 4 _) (le_encode_length 4 _) with ⟨b, s', e⟩ | ⟨e, h5⟩
  · rw [e]; rfl
  rw [e]
  simp only [Bool.not_true, Bool.false_eq_true, if_false, le_decode_encode_u32 _ hsize,
    deref_store, store_store, store_channel_count, hq]
  rw [← List.append_nil (channels_bytes ch size 0 plug.channel_count)] at h5
  rcases code_channels_short
      (state_ptr.pending (writable_noise_profile_state q.pending_noise_profile_change))
      plug.channel_count 0
      (store q (state_ptr.pending (writable_noise_profile_state q.pending_noise_profile_change))
        { channels := (deref q (state_ptr.pending
            (writable_noise_profile_state q.pending_noise_profile_change))).channels
          blocks_averaged := le_decode (le_encode 4 ba)
          size := size })
      _ _ [] h5
      (by rw [deref_store, channels_bytes_length]) with ⟨b, s', e⟩ | ⟨_, h6⟩
  · rw [e]
  · exact absurd h6 (not_short_of_nil _)

/-! ### Round trip -/

theorem saved_profile_valid (plug : clap_noiserf) (h : plug.valid) :
    (saved_profile plug).valid := by
  obtain ⟨_, _, hp, hc⟩ := h
  unfold saved_profile current_noise_profile
  simp only [Bool.false_eq_true, if_false]
  split_ifs
  · exact hp _
  · unfold noise_profile_state_consume
    split_ifs
    · exact hc _
    · exact hc _

theorem double_of_bool_lt (b : Bool) : double_of_bool b < 2 ^ 64 := by
  cases b <;> decide

theorem double_ge_half_of_bool (b : Bool) : double_ge_half (double_of_bool b) = b := by
  cases b <;> decide

theorem param_get_value_lt (cv : c_conversions) (hcv : cv.lawful) (plug : clap_noiserf)
    (id : Nat) : (param_get_value cv plug id).2 < 2 ^ 64 := by
  unfold param_get_value
  by_cases h0 : id = pid_AMOUNT
  · rw [if_pos h0]; exact hcv.to_double_lt _
  rw [if_neg h0]
  by_cases h1 : id = pid_OFFSET
  · rw [if_pos h1]; exact hcv.to_double_lt _
  rw [if_neg h1]
  by_cases h2 : id = pid_SMOOTHING
  · rw [if_pos h2]; exact hcv.to_double_lt _
  rw [if_neg h2]
  by_cases h3 : id = pid_WHITENING
  · rw [if_pos h3]; exact hcv.to_double_lt _
  rw [if_neg h3]
  by_cases h4 : id = pid_TRANSIENT_PROTECTION
  · rw [if_pos h4]; exact double_of_bool_lt _
  rw [if_neg h4]
  by_cases h5 : id = pid_LEARN_NOISE
  · rw [if_pos h5]; exact hcv.round_lt _
  rw [if_neg h5]
  by_cases h6 : id = pid_RESIDUAL_LISTEN
  · rw [if_pos h6]; exact double_of_bool_lt _
  rw [if_neg h6]
  by_cases h7 : id = pid_RESET_PROFILE
  · rw [if_pos h7]; exact double_of_bool_lt _
  rw [if_neg h7]
  by_cases h8 : id = pid_ENABLE
  · rw [if_pos h8]; exact double_of_bool_lt _
  rw [if_neg h8]
  by_cases h9 : id = pid_NOISE_SCALING_TYPE
  · rw [if_pos h9]; exact hcv.round_lt _
  rw [if_neg h9]
  by_cases h10 : id = pid_POST_FILTER_THRESHOLD
  · rw [if_pos h10]; exact hcv.to_double_lt _
  rw [if_neg h10]
  decide

theorem saved_pairs_bounds (cv : c_conversions) (hcv : cv.lawful) (plug : clap_noiserf)
    (i n : Nat) : ∀ p ∈ saved_pairs cv plug i n, p.1 < 2 ^ 32 ∧ p.2 < 2 ^ 64 := by
  intro p hp
  simp only [saved_pairs, List.mem_map] at hp
  obtain ⟨j, _, rfl⟩ := hp
  exact ⟨param_id_lt j, param_get_value_lt cv hcv plug _⟩
/-! ### Parameters -/

theorem param_ids_eq : param_ids =
    [pid_AMOUNT, pid_OFFSET, pid_SMOOTHING, pid_WHITENING, pid_TRANSIENT_PROTECTION,
      pid_LEARN_NOISE, pid_RESIDUAL_LISTEN, pid_RESET_PROFILE, pid_ENABLE,
      pid_NOISE_SCALING_TYPE, pid_POST_FILTER_THRESHOLD] := by
  decide

theorem set_value_unknown (cv : c_conversions) (q : clap_noiserf) (id v : Nat)
    (h : id ∉ param_ids) : set_value cv q id v = q := by
  simp only [param_ids_eq, List.mem_cons, List.mem_singleton, List.not_mem_nil, or_false,
    not_or] at h
  obtain ⟨h0, h1, h2, h3, h4, h5, h6, h7, h8, h9, h10⟩ := h
  unfold set_value
  simp only [if_neg h0, if_neg h1, if_neg h2, if_neg h3, if_neg h4, if_neg h5, if_neg h6,
    if_neg h7, if_neg h8, if_neg h9, if_neg h10]

theorem get_set_same (cv : c_conversions) (q q0 : clap_noiserf) (id v : Nat)
    (hk : id ∈ param_ids) :
    param_get_value cv (set_value cv q id v) id =
      param_get_value cv (set_value cv q0 id v) id := by
  simp only [param_ids_eq, List.mem_cons, List.mem_singleton, List.not_mem_nil, or_false]
    at hk
  rcases hk with rfl | rfl | rfl | rfl | rfl | rfl | rfl | rfl | rfl | rfl | rfl <;> rfl

theorem get_set_other (cv : c_conversions) (q : clap_noiserf) (id id' v : Nat)
    (h : id ≠ id') :
    param_get_value cv (set_value cv q id' v) id = param_get_value cv q id := by
  by_cases hk : id' ∈ param_ids
  swap
  · rw [set_value_unknown cv q id' v hk]
  simp only [param_ids_eq, List.mem_cons, List.mem_singleton, List.not_mem_nil, or_false]
    at hk
  rcases hk with rfl | rfl | rfl | rfl | rfl | rfl | rfl | rfl | rfl | rfl | rfl
  · unfold param_get_value
    simp only [if_neg (show ¬ id = pid_AMOUNT from h)]
    rfl
  · unfold param_get_value
    simp only [if_neg (show ¬ id = pid_OFFSET from h)]
    rfl
  · unfold param_get_value
    simp only [if_neg (show ¬ id = pid_SMOOTHING from h)]
    rfl
  · unfold param_get_value
    simp only [if_neg (show ¬ id = pid_WHITENING from h)]
    rfl
  · unfold param_get_value
    simp only [if_neg (show ¬ id = pid_TRANSIENT_PROTECTION from h)]
    rfl
  · unfold param_get_value
    simp only [if_neg (show ¬ id = pid_LEARN_NOISE from h)]
    rfl
  · unfold param_get_value
    simp only [if_neg (show ¬ id = pid_RESIDUAL_LISTEN from h)]
    rfl
  · unfold param_get_value
    simp only [if_neg (show ¬ id = pid_RESET_PROFILE from h)]
    rfl
  · unfold param_get_value
    simp only [if_neg (show ¬ id = pid_ENABLE from h)]
    rfl
  · unfold param_get_value
    simp only [if_neg (show ¬ id = pid_NOISE_SCALING_TYPE from h)]
    rfl
  · unfold param_get_value
    simp only [if_neg (show ¬ id = pid_POST_FILTER_THRESHOLD from h)]
    rfl

theorem get_set_get (cv : c_conversions) (hcv : cv.lawful) (q plug : clap_noiserf)
    (hplug : plug.valid) (id : Nat) (hk : id ∈ param_ids) :
    param_get_value cv (set_value cv q id (param_get_value cv plug id).2) id =
      param_get_value cv plug id := by
  simp only [param_ids_eq, List.mem_cons, List.mem_singleton, List.not_mem_nil, or_false]
    at hk
  rcases hk with rfl | rfl | rfl | rfl | rfl | rfl | rfl | rfl | rfl | rfl | rfl
  · show (true, cv.to_double (cv.to_float (cv.to_double plug.amount))) = (true, _)
    rw [hcv.narrow_widen]
  · show (true, cv.to_double (cv.to_float (cv.to_double plug.offset))) = (true, _)
    rw [hcv.narrow_widen]
  · show (true, cv.to_double (cv.to_float (cv.to_double plug.smoothing))) = (true, _)
    rw [hcv.narrow_widen]
  · show (true, cv.to_double (cv.to_float (cv.to_double plug.whitening))) = (true, _)
    rw [hcv.narrow_widen]
  · show (true, double_of_bool (double_ge_half (double_of_bool plug.transient_protection))) =
      (true, _)
    rw [double_ge_half_of_bool]
  · show (true, cv.round (cv.of_uint32 (cv.to_uint32 (cv.round (cv.of_uint32
      plug.learn_noise))))) = (true, _)
    rw [hcv.uint32_back _ hplug.1]
  · show (true, double_of_bool (double_ge_half (double_of_bool plug.residual_listen))) =
      (true, _)
    rw [double_ge_half_of_bool]
  · show (true, double_of_bool (double_ge_half (double_of_bool plug.reset_profile))) =
      (true, _)
    rw [double_ge_half_of_bool]
  · show (true, double_of_bool (double_ge_half (double_of_bool plug.enable))) = (true, _)
    rw [double_ge_half_of_bool]
  · show (true, cv.round (cv.of_uint32 (cv.to_uint32 (cv.round (cv.of_uint32
      plug.noise_scaling_type))))) = (true, _)
    rw [hcv.uint32_back _ hplug.2.1]
  · show (true, cv.to_double (cv.to_float (cv.to_double plug.post_filter_threshold))) =
      (true, _)
    rw [hcv.narrow_widen]

theorem set_values_cons (cv : c_conversions) (q : clap_noiserf) (p : Nat × Nat)
    (ps : List (Nat × Nat)) :
    set_values cv q (p :: ps) = set_values cv (set_value cv q p.1 p.2) ps := rfl

theorem get_set_values_not_mem (cv : c_conversions) (id : Nat) (ps : List (Nat × Nat)) :
    ∀ q : clap_noiserf, (∀ p ∈ ps, p.1 ≠ id) →
      param_get_value cv (set_values cv q ps) id = param_get_value cv q id := by
  induction ps with
  | nil => intro q _; rfl
  | cons p ps ih =>
    intro q h
    rw [set_values_cons, ih _ (fun p' hp' => h p' (List.mem_cons_of_mem _ hp'))]
    exact get_set_other cv q id p.1 p.2 (fun e => h p (List.mem_cons_self _ _) e.symm)

theorem get_set_values_of_mem (cv : c_conversions) (id v : Nat) (hk : id ∈ param_ids)
    (ps : List (Nat × Nat)) :
    ∀ q : clap_noiserf, (id, v) ∈ ps → (∀ w, (id, w) ∈ ps → w = v) →
      param_get_value cv (set_values cv q ps) id =
        param_get_value cv (set_value cv q id v) id := by
  induction ps with
  | nil => intro q h; cases h
  | cons p ps ih =>
    intro q hmem huniq
    rw [set_values_cons]
    by_cases hlater : ∃ p' ∈ ps, p'.1 = id
    · obtain ⟨⟨id', w⟩, hp', rfl⟩ := hlater
      have hw : w = v := huniq w (List.mem_cons_of_mem _ hp')
      subst hw
      rw [ih _ hp' (fun w' hw' => huniq w' (List.mem_cons_of_mem _ hw'))]
      exact get_set_same cv _ _ _ _ hk
    · have hp : p = (id, v) := by
        rcases List.mem_cons.mp hmem with e | e
        · exact e.symm
        · exact absurd ⟨(id, v), e, rfl⟩ hlater
      subst hp
      exact get_set_values_not_mem cv id ps _
        (fun p' hp' e => hlater ⟨p', hp', e⟩)

theorem set_values_filter_known (cv : c_conversions) (ps : List (Nat × Nat)) :
    ∀ q : clap_noiserf,
      set_values cv q ps = set_values cv q (ps.filter (fun p => decide (p.1 ∈ param_ids))) := by
  induction ps with
  | nil => intro q; rfl
  | cons p ps ih =>
    intro q
    by_cases hk : p.1 ∈ param_ids
    · rw [List.filter_cons_of_pos (by simpa using hk), set_values_cons, set_values_cons, ih]
    · rw [List.filter_cons_of_neg (by simpa using hk), set_values_cons,
        set_value_unknown cv q p.1 p.2 hk, ih]

theorem param_get_value_loaded (cv : c_conversions) (plug : clap_noiserf)
    (ps : List (Nat × Nat)) (ba size : Nat) (ch : Nat → Nat → Nat) (id : Nat) :
    param_get_value cv (loaded cv plug ps ba size ch) id =
      param_get_value cv
        (set_values cv
          (if ps.length > PARAMS_COUNT then set_all_params_to_default cv plug else plug) ps)
        id := rfl

theorem mem_param_ids (i : Nat) (h : i < PARAMS_COUNT) : (param_get_info i).2.id ∈ param_ids :=
  List.mem_map.mpr ⟨i, List.mem_range.mpr h, rfl⟩

theorem init_frame (cv : c_conversions) (cc : Nat) :
    (init cv (create cc)).channel_count = cc ∧
      (init cv (create cc)).pending_noise_profile_change =
        init_noise_profile_buffers (zeroed_buffers zero_noise_profile_state) ∧
      (init cv (create cc)).current_noise_profile =
        init_noise_profile_buffers (zeroed_buffers zero_noise_profile_state) := by
  unfold init
  rw [(set_all_params_to_default_frame cv _).1, (set_all_params_to_default_frame cv _).2.1,
    (set_all_params_to_default_frame cv _).2.2]
  exact ⟨rfl, rfl, rfl⟩

theorem loaded_fresh_pending (cv : c_conversions) (cc : Nat) (ps : List (Nat × Nat))
    (ba size : Nat) (ch : Nat → Nat → Nat) :
    (loaded cv (init cv (create cc)) ps ba size ch).pending_noise_profile_change =
      { buffers := Function.update (fun _ => zero_noise_profile_state) 0
          { channels := channels_replaced (fun _ _ => 0) ch size 0 cc
            blocks_averaged := ba
            size := size }
        middle_buffer_state := 2 ^ 31
        back_buffer_index := 1
        front_buffer_index := 2 } := by
  have h1 := set_values_frame cv ps
    (if ps.length > PARAMS_COUNT then set_all_params_to_default cv (init cv (create cc))
      else init cv (create cc))
  have h2 : (if ps.length > PARAMS_COUNT then set_all_params_to_default cv (init cv (create cc))
        else init cv (create cc)).channel_count = cc ∧
      (if ps.length > PARAMS_COUNT then set_all_params_to_default cv (init cv (create cc))
        else init cv (create cc)).pending_noise_profile_change =
        init_noise_profile_buffers (zeroed_buffers zero_noise_profile_state) := by
    split_ifs
    · rw [(set_all_params_to_default_frame cv _).1, (set_all_params_to_default_frame cv _).2.1]
      exact ⟨(init_frame cv cc).1, (init_frame cv cc).2.1⟩
    · exact ⟨(init_frame cv cc).1, (init_frame cv cc).2.1⟩
  simp only [loaded, h1.1, h1.2.1, h2.1, h2.2]
  have e1 : (0 : Nat) ||| TRIPLE_BUFFER_DIRTY_BIT = 2 ^ 31 := by decide
  have e2 : (1 : Nat) &&& TRIPLE_BUFFER_MASK = 1 := by decide
  simp only [publish_noise_profile_state, write_noise_profile_state,
    writable_noise_profile_state, init_noise_profile_buffers, zeroed_buffers, e1, e2]
  rfl

theorem loaded_fresh_seen (cv : c_conversions) (cc : Nat) (ps : List (Nat × Nat))
    (ba size : Nat) (ch : Nat → Nat → Nat) (consume_pending : Bool) :
    deref (current_noise_profile (loaded cv (init cv (create cc)) ps ba size ch)
        consume_pending).2
      (current_noise_profile (loaded cv (init cv (create cc)) ps ba size ch)
        consume_pending).1 =
      { channels := channels_replaced (fun _ _ => 0) ch size 0 cc
        blocks_averaged := ba
        size := size } := by
  have hL := loaded_fresh_pending cv cc ps ba size ch
  cases consume_pending with
  | false =>
    have e1 : ((2 : Nat) ^ 31 &&& TRIPLE_BUFFER_DIRTY_BIT != 0) = true := by decide
    have e2 : (2 : Nat) ^ 31 &&& TRIPLE_BUFFER_MASK = 0 := by decide
    unfold current_noise_profile
    simp only [Bool.false_eq_true, if_false, hL, e1, e2, if_true, deref, Function.update_same]
  | true =>
    have e1 : ((2 : Nat) ^ 31 &&& TRIPLE_BUFFER_DIRTY_BIT != 0) = true := by decide
    have e2 : (2 : Nat) ^ 31 &&& TRIPLE_BUFFER_MASK = 0 := by decide
    unfold current_noise_profile
    simp only [if_true, hL, noise_profile_state_consume, consume_sees_dirty, consume_exchange,
      e1, e2, Bool.not_true, Bool.false_eq_true, if_false, deref, Function.update_same]

theorem state_load_saved (cv : c_conversions) (hcv : cv.lawful) (plug : clap_noiserf)
    (hplug : plug.valid) (loader : clap_noiserf)
    (hcc : loader.channel_count = plug.channel_count) (in_chunk : Nat) (rest : List Nat) :
    state_load cv loader
        ⟨payload 1 (saved_pairs cv plug 0 PARAMS_COUNT) (saved_profile plug).blocks_averaged
          (saved_profile plug).size (saved_profile plug).channels plug.channel_count ++ rest,
          in_chunk, none⟩ =
      (true,
        loaded cv loader (saved_pairs cv plug 0 PARAMS_COUNT)
          (saved_profile plug).blocks_averaged (saved_profile plug).size
          (saved_profile plug).channels,
        ⟨rest, in_chunk, none⟩) := by
  obtain ⟨hba, hsize, hch⟩ := saved_profile_valid plug hplug
  have h := state_load_ok cv loader
    ⟨payload 1 (saved_pairs cv plug 0 PARAMS_COUNT) (saved_profile plug).blocks_averaged
      (saved_profile plug).size (saved_profile plug).channels plug.channel_count ++ rest,
      in_chunk, none⟩ rest 1 (saved_pairs cv plug 0 PARAMS_COUNT)
    (saved_profile plug).blocks_averaged (saved_profile plug).size
    (saved_profile plug).channels (by rw [hcc])
    (by rw [hcc]; simp [clap_istream.readable])
    (by rw [saved_pairs_length]; decide) (saved_pairs_bounds cv hcv plug 0 PARAMS_COUNT) hba
    (Nat.lt_of_le_of_lt hsize (by decide)) hch
  rw [h, hcc]
  simp [clap_istream.advance]

/-- C4: for every valid plugin state, `state_save` on a stream that accepts all bytes
succeeds, and `state_load` of the bytes it wrote into a freshly initialised plugin of the
same channel count returns true, makes `param_get_value` return for each of the 11
parameters the value it returns on the saved plugin, and leaves as the profile that
`current_noise_profile` yields (with either value of `consume_pending`) the saved
`blocks_averaged`, the saved `size` and the saved first `size` values of every channel. The
conversions between `double`, `float` and `uint32_t` are assumed lawful. -/
theorem C4_persistence_round_trip (cv : c_conversions) (hcv : cv.lawful) (plug : clap_noiserf)
    (hplug : plug.valid) (out_chunk in_chunk : Nat) (full_is_error : Bool) :
    ∃ plug' out,
      state_save cv plug ⟨[], out_chunk, none, full_is_error⟩ = some (true, plug', out) ∧
      let r := state_load cv (init cv (create plug.channel_count)) ⟨out.written, in_chunk, none⟩
      r.1 = true ∧
      (∀ i, i < PARAMS_COUNT →
        param_get_value cv r.2.1 (param_get_info i).2.id =
          param_get_value cv plug (param_get_info i).2.id) ∧
      ∀ consume_pending,
        let seen := deref (current_noise_profile r.2.1 consume_pending).2
          (current_noise_profile r.2.1 consume_pending).1
        seen.blocks_averaged = (saved_profile plug).blocks_averaged ∧
        seen.size = (saved_profile plug).size ∧
        ∀ c, c < plug.channel_count → ∀ i, i < (saved_profile plug).size →
          seen.channels c i = (saved_profile plug).channels c i := by
  refine ⟨_, _, state_save_eq cv plug _ rfl, ?_⟩
  have hl := state_load_saved cv hcv plug hplug (init cv (create plug.channel_count))
    (init_frame cv plug.channel_count).1 in_chunk []
  simp only [List.append_nil] at hl
  intro r
  have hr : r = (true,
      loaded cv (init cv (create plug.channel_count)) (saved_pairs cv plug 0 PARAMS_COUNT)
        (saved_profile plug).blocks_averaged (saved_profile plug).size
        (saved_profile plug).channels,
      ⟨[], in_chunk, none⟩) := hl
  clear_value r
  subst hr
  refine ⟨rfl, ?_, ?_⟩
  · intro i hi
    simp only
    rw [param_get_value_loaded,
      get_set_values_of_mem cv (param_get_info i).2.id
        (param_get_value cv plug (param_get_info i).2.id).2 (mem_param_ids i hi)
        (saved_pairs cv plug 0 PARAMS_COUNT) _
        (List.mem_map.mpr ⟨i, by rw [List.mem_range'_1]; omega, rfl⟩)
        (by
          intro w hw
          simp only [saved_pairs, List.mem_map] at hw
          obtain ⟨j, _, hj⟩ := hw
          injection hj with hj1 hj2
          rw [← hj2, hj1])]
    exact get_set_get cv hcv _ plug hplug _ (mem_param_ids i hi)
  · intro consume_pending
    simp only
    rw [loaded_fresh_seen]
    refine ⟨rfl, rfl, ?_⟩
    intro c hc i hi
    simp only [channels_replaced]
    rw [if_pos ⟨Nat.zero_le _, by omega⟩]
    exact if_pos hi

theorem sample_conversions_lawful : sample_conversions.lawful where
  to_double_lt := by
    intro f
    show f % 2 ^ 32 * 2 ^ 32 < 2 ^ 64
    omega
  round_lt := by
    intro d
    show d % 2 ^ 64 < 2 ^ 64
    omega
  narrow_widen := by
    intro f
    show (f % 2 ^ 32 * 2 ^ 32 / 2 ^ 32 % 2 ^ 32) % 2 ^ 32 * 2 ^ 32 = f % 2 ^ 32 * 2 ^ 32
    omega
  uint32_back := by
    intro u hu
    show u % 2 ^ 32 % 2 ^ 64 % 2 ^ 32 = u
    omega

theorem zero_noise_profile_state_valid : zero_noise_profile_state.valid :=
  ⟨by decide, by decide, fun _ _ => by show (0 : Nat) < 2 ^ 32; decide⟩

theorem sample_plugin_valid : sample_plugin.valid := by
  have hp : sample_plugin.pending_noise_profile_change =
      init_noise_profile_buffers (zeroed_buffers zero_noise_profile_state) := by
    unfold sample_plugin
    rw [(set_value_frame _ _ _ _).2.1]
    exact (init_frame _ 2).2.1
  have hc : sample_plugin.current_noise_profile =
      init_noise_profile_buffers (zeroed_buffers zero_noise_profile_state) := by
    unfold sample_plugin
    rw [(set_value_frame _ _ _ _).2.2]
    exact (init_frame _ 2).2.2
  refine ⟨by decide, by decide, ?_, ?_⟩
  · intro i; rw [hp]; exact zero_noise_profile_state_valid
  · intro i; rw [hc]; exact zero_noise_profile_state_valid

/-- C4 for the sample plugin: the save succeeds and the load of its bytes returns true. -/
theorem C4_persistence_round_trip_witness :
    ∃ plug' out,
      state_save sample_conversions sample_plugin ⟨[], 0, none, false⟩ =
        some (true, plug', out) ∧
      (state_load sample_conversions
        (init sample_conversions (create sample_plugin.channel_count))
        ⟨out.written, 2, none⟩).1 = true := by
  obtain ⟨plug', out, h1, h2, _⟩ := C4_persistence_round_trip sample_conversions
    sample_conversions_lawful sample_plugin sample_plugin_valid 0 2 false
  exact ⟨plug', out, h1, h2⟩

/-! ### Payloads with more parameters than the plugin has -/

/-- C7: when the stream delivers a well-formed payload whose parameter count is larger than
`PARAMS_COUNT`, `state_load` returns true; the parameter values are those obtained from the
defaults by `set_value` of the pairs with known ids alone, so pairs with unknown ids change
no parameter; a known parameter whose id occurs in the payload with one value `v` reads as
after `set_value` of `v`, which is `v` itself when `v` is a value that `param_get_value`
returns on some valid plugin (what `state_save` persists) and the conversions are lawful;
and `blocks_averaged`, `size` and the first `size` floats of every
channel, taken from the bytes after the last pair, are in the slot that was writable and
is now published, the stream standing right after the payload. -/
theorem C7_larger_parameter_count (cv : c_conversions) (plug : clap_noiserf)
    (s : clap_istream) (rest : List Nat) (version : Nat) (ps : List (Nat × Nat))
    (ba size : Nat) (ch : Nat → Nat → Nat)
    (hd : s.data = payload version ps ba size ch plug.channel_count ++ rest)
    (hr : (payload version ps ba size ch plug.channel_count).length ≤ s.readable)
    (hcount : PARAMS_COUNT < ps.length) (hn : ps.length < 2 ^ 32)
    (hp : ∀ p ∈ ps, p.1 < 2 ^ 32 ∧ p.2 < 2 ^ 64) (hba : ba < 2 ^ 32)
    (hsize : size ≤ NOISE_PROFILE_MAX_SIZE) (hch : ∀ c i, ch c i < 2 ^ 32) :
    let r := state_load cv plug s
    r.1 = true ∧
    (∀ id, param_get_value cv r.2.1 id =
      param_get_value cv
        (set_values cv (set_all_params_to_default cv plug)
          (ps.filter (fun p => decide (p.1 ∈ param_ids)))) id) ∧
    (∀ id v, id ∈ param_ids → (id, v) ∈ ps → (∀ w, (id, w) ∈ ps → w = v) →
      param_get_value cv r.2.1 id = param_get_value cv (set_value cv plug id v) id) ∧
    (cv.lawful → ∀ id (saver : clap_noiserf), id ∈ param_ids → saver.valid →
      (id, (param_get_value cv saver id).2) ∈ ps →
      (∀ w, (id, w) ∈ ps → w = (param_get_value cv saver id).2) →
      param_get_value cv r.2.1 id = param_get_value cv saver id) ∧
    (r.2.1.pending_noise_profile_change.buffers
        (writable_noise_profile_state plug.pending_noise_profile_change)).blocks_averaged = ba ∧
    (r.2.1.pending_noise_profile_change.buffers
        (writable_noise_profile_state plug.pending_noise_profile_change)).size = size ∧
    (∀ c, c < plug.channel_count → ∀ i, i < size →
      (r.2.1.pending_noise_profile_change.buffers
        (writable_noise_profile_state plug.pending_noise_profile_change)).channels c i =
          ch c i) ∧
    r.2.1.pending_noise_profile_change.middle_buffer_state =
      writable_noise_profile_state plug.pending_noise_profile_change |||
        TRIPLE_BUFFER_DIRTY_BIT ∧
    r.2.2 = s.advance (payload version ps ba size ch plug.channel_count).length := by
  intro r
  have hr' : r = (true, loaded cv plug ps ba size ch,
      s.advance (payload version ps ba size ch plug.channel_count).length) :=
    state_load_ok cv plug s rest version ps ba size ch hd hr hn hp hba
      (Nat.lt_of_le_of_lt hsize (by decide)) hch
  clear_value r
  subst hr'
  have hgt : ps.length > PARAMS_COUNT := hcount
  have hf := set_values_frame cv ps (set_all_params_to_default cv plug)
  have hf2 := set_all_params_to_default_frame cv plug
  refine ⟨rfl, ?_, ?_, ?_, ?_, ?_, ?_, ?_, rfl⟩
  · intro id
    simp only
    rw [param_get_value_loaded, if_pos hgt, ← set_values_filter_known]
  · intro id v hk hmem huniq
    simp only
    rw [param_get_value_loaded, if_pos hgt, get_set_values_of_mem cv id v hk ps _ hmem huniq]
    exact get_set_same cv _ _ _ _ hk
  · intro hcv id saver hk hsaver hmem huniq
    simp only
    rw [param_get_value_loaded, if_pos hgt,
      get_set_values_of_mem cv id _ hk ps _ hmem huniq]
    exact get_set_get cv hcv _ saver hsaver id hk
  · simp only [loaded, if_pos hgt, hf.2.1, hf2.2.1, publish_noise_profile_state,
      write_noise_profile_state, Function.update_same]
  · simp only [loaded, if_pos hgt, hf.2.1, hf2.2.1, publish_noise_profile_state,
      write_noise_profile_state, Function.update_same]
  · intro c hc i hi
    simp only [loaded, if_pos hgt, hf.2.1, hf2.2.1, hf.1, hf2.1, publish_noise_profile_state,
      write_noise_profile_state, Function.update_same, channels_replaced]
    rw [if_pos ⟨Nat.zero_le _, by omega⟩]
    exact if_pos hi
  · simp only [loaded, if_pos hgt, hf.2.1, hf2.2.1, publish_noise_profile_state,
      write_noise_profile_state, writable_noise_profile_state]

/-- C7 for the sample plugin and a payload of twelve pairs, the last with the unknown
id 7: the load returns true and the amount reads as after `set_value` of the payload's
2.0. -/
theorem C7_larger_parameter_count_witness :
    (state_load sample_conversions sample_plugin
        ⟨payload 1 sample_pairs 3 0 (fun _ _ => 0) sample_plugin.channel_count ++ [], 0,
          none⟩).1 = true ∧
      param_get_value sample_conversions
          (state_load sample_conversions sample_plugin
            ⟨payload 1 sample_pairs 3 0 (fun _ _ => 0) sample_plugin.channel_count ++ [], 0,
              none⟩).2.1 pid_AMOUNT =
        param_get_value sample_conversions
          (set_value sample_conversions sample_plugin pid_AMOUNT double_2) pid_AMOUNT := by
  have h := C7_larger_parameter_count sample_conversions sample_plugin
    ⟨payload 1 sample_pairs 3 0 (fun _ _ => 0) sample_plugin.channel_count ++ [], 0, none⟩
    [] 1 sample_pairs 3 0 (fun _ _ => 0) rfl (by simp [clap_istream.readable])
    (by decide) (by decide) (by decide) (by decide) (by decide)
    (fun _ _ => by show (0 : Nat) < 2 ^ 32; decide)
  refine ⟨h.1, h.2.2.1 pid_AMOUNT double_2 (by decide) (by decide) ?_⟩
  intro w hw
  simp only [sample_pairs, List.mem_cons, Prod.mk.injEq, List.mem_singleton,
    List.not_mem_nil, or_false] at hw
  rcases hw with h | h | h | h | h | h | h | h | h | h | h | h
  · exact h.2
  all_goals exact absurd h.1 (by decide)

/-! ### Truncated and failing streams -/

theorem short_of_truncated (P : List Nat) (k chunk : Nat) (hk : k < P.length) :
    (clap_istream.mk (P.take k) chunk none).short_of P := by
  have hlen : (P.take k).length = k := by rw [List.length_take]; omega
  refine ⟨?_, ?_⟩
  · simp only [clap_istream.readable, hlen]; exact hk
  · simp only [clap_istream.readable, hlen, List.take_take, Nat.min_self]

theorem short_of_failing (P more : List Nat) (k chunk : Nat) (hk : k < P.length) :
    (clap_istream.mk (P ++ more) chunk (some k)).short_of P := by
  have hmin : min k (P ++ more).length = k := by rw [List.length_append]; omega
  refine ⟨?_, ?_⟩
  · simp only [clap_istream.readable, hmin]; exact hk
  · simp only [clap_istream.readable, hmin]
    exact List.take_append_of_le_length (Nat.le_of_lt hk)

/-- C8: for every valid plugin state, `state_save` on a stream that accepts all bytes
succeeds with some payload; `state_load` (into any plugin of the same channel count)
returns false on every stream that delivers a strict prefix of that payload and then
reports the end of the stream, and on every stream that holds the payload but reports a
read error after fewer bytes than the payload has, whatever the size of the chunks the
stream delivers. -/
theorem C8_truncated_or_failing_stream (cv : c_conversions) (plug : clap_noiserf)
    (hplug : plug.valid) (out_chunk : Nat) (full_is_error : Bool) :
    ∃ plug' out,
      state_save cv plug ⟨[], out_chunk, none, full_is_error⟩ = some (true, plug', out) ∧
      (∀ (loader : clap_noiserf) (k chunk : Nat),
        loader.channel_count = plug.channel_count → k < out.written.length →
          (state_load cv loader ⟨out.written.take k, chunk, none⟩).1 = false) ∧
      (∀ (loader : clap_noiserf) (k chunk : Nat) (more : List Nat),
        loader.channel_count = plug.channel_count → k < out.written.length →
          (state_load cv loader ⟨out.written ++ more, chunk, some k⟩).1 = false) := by
  refine ⟨_, _, state_save_eq cv plug _ rfl, ?_, ?_⟩
  · intro loader k chunk hcc hk
    simp only [clap_ostream.accept, List.nil_append] at hk ⊢
    apply state_load_short cv loader _ 1 (saved_pairs cv plug 0 PARAMS_COUNT)
      (saved_profile plug).blocks_averaged (saved_profile plug).size
      (saved_profile plug).channels (by rw [saved_pairs_length]; decide)
      (Nat.lt_of_le_of_lt (saved_profile_valid plug hplug).2.1 (by decide))
    rw [hcc]
    exact short_of_truncated _ k chunk hk
  · intro loader k chunk more hcc hk
    simp only [clap_ostream.accept, List.nil_append] at hk ⊢
    apply state_load_short cv loader _ 1 (saved_pairs cv plug 0 PARAMS_COUNT)
      (saved_profile plug).blocks_averaged (saved_profile plug).size
      (saved_profile plug).channels (by rw [saved_pairs_length]; decide)
      (Nat.lt_of_le_of_lt (saved_profile_valid plug hplug).2.1 (by decide))
    rw [hcc]
    exact short_of_failing _ more k chunk hk

theorem saved_payload_length (cv : c_conversions) (plug plug' : clap_noiserf)
    (chunk : Nat) (e : Bool) (out : clap_ostream)
    (h : state_save cv plug ⟨[], chunk, none, e⟩ = some (true, plug', out)) :
    148 ≤ out.written.length := by
  rw [state_save_eq cv plug _ rfl] at h
  injection h with h
  injection h with _ h
  injection h with _ h
  rw [← h]
  simp only [clap_ostream.accept, List.nil_append, payload_length, saved_pairs_length,
    PARAMS_COUNT]
  omega

/-- C8 for the sample plugin: the load fails on the first 100 bytes of the saved payload
and on the payload with a read error after 20 bytes. -/
theorem C8_truncated_or_failing_stream_witness :
    ∃ plug' out,
      state_save sample_conversions sample_plugin ⟨[], 0, none, false⟩ =
        some (true, plug', out) ∧
      (state_load sample_conversions sample_plugin ⟨out.written.take 100, 3, none⟩).1 =
        false ∧
      (state_load sample_conversions sample_plugin ⟨out.written ++ [], 3, some 20⟩).1 =
        false := by
  obtain ⟨plug', out, h1, h2, h3⟩ := C8_truncated_or_failing_stream sample_conversions
    sample_plugin sample_plugin_valid 0 false
  have hlen := saved_payload_length _ _ _ _ _ _ h1
  exact ⟨plug', out, h1, h2 sample_plugin 100 3 rfl (by omega),
    h3 sample_plugin 20 3 [] rfl (by omega)⟩

theorem consume_loaded_fresh (cv : c_conversions) (cc : Nat) (ps : List (Nat × Nat))
    (ba size : Nat) (ch : Nat → Nat → Nat) :
    noise_profile_state_consume
        (loaded cv (init cv (create cc)) ps ba size ch).pending_noise_profile_change =
      (true, 0,
        { buffers := Function.update (fun _ => zero_noise_profile_state) 0
            { channels := channels_replaced (fun _ _ => 0) ch size 0 cc
              blocks_averaged := ba
              size := size }
          middle_buffer_state := 2
          back_buffer_index := 1
          front_buffer_index := 0 }) := by
  have e1 : ((2 : Nat) ^ 31 &&& TRIPLE_BUFFER_DIRTY_BIT != 0) = true := by decide
  have e2 : (2 : Nat) ^ 31 &&& TRIPLE_BUFFER_MASK = 0 := by decide
  simp only [loaded_fresh_pending, noise_profile_state_consume, consume_sees_dirty,
    consume_exchange, e1, e2, Bool.not_true, Bool.false_eq_true, if_false]

/-! ### What `state_load` does not check -/

/-- C5, the code at a payload whose `size` field is 9001: `state_load` on a mono plugin
fresh from `init` returns true; the slot it publishes, which the next
`noise_profile_state_consume` delivers, has `size` 9001, above `NOISE_PROFILE_MAX_SIZE`, and
index 9000 of channel 0 was stored to. -/
theorem C5_state_load_accepts_size_9001 (cv : c_conversions) :
    let r := state_load cv (init cv (create 1))
      ⟨payload 1 [] 0 9001 (fun _ _ => 1065353216) 1 ++ [], 0, none⟩
    let delivered := noise_profile_state_consume r.2.1.pending_noise_profile_change
    r.1 = true ∧ delivered.1 = true ∧
      (delivered.2.2.buffers delivered.2.1).size = 9001 ∧
      NOISE_PROFILE_MAX_SIZE < (delivered.2.2.buffers delivered.2.1).size ∧
      (delivered.2.2.buffers delivered.2.1).channels 0 9000 = 1065353216 ∧
      (((init cv (create 1)).pending_noise_profile_change.buffers
        (writable_noise_profile_state
          (init cv (create 1)).pending_noise_profile_change)).channels 0 9000 = 0) := by
  intro r
  have hcc : (init cv (create 1)).channel_count = 1 := (init_frame cv 1).1
  have hr : r = (true, loaded cv (init cv (create 1)) [] 0 9001 (fun _ _ => 1065353216),
      (clap_istream.mk (payload 1 [] 0 9001 (fun _ _ => 1065353216) 1 ++ []) 0 none).advance
        (payload 1 [] 0 9001 (fun _ _ => 1065353216) 1).length) := by
    have h := state_load_ok cv (init cv (create 1))
      ⟨payload 1 [] 0 9001 (fun _ _ => 1065353216) 1 ++ [], 0, none⟩ [] 1 [] 0 9001
      (fun _ _ => 1065353216) (by rw [hcc])
      (by rw [hcc, readable_mk_none, List.append_nil])
      (by decide) (by intro p hp; cases hp) (by decide) (by decide)
      (fun _ _ => by show (1065353216 : Nat) < 2 ^ 32; decide)
    rw [hcc] at h
    exact h
  have h1 : r.1 = true := by rw [hr]
  have h2 : r.2.1 = loaded cv (init cv (create 1)) [] 0 9001 (fun _ _ => 1065353216) := by
    rw [hr]
  clear hr
  clear_value r
  rw [h1, h2, consume_loaded_fresh, (init_frame cv 1).2.1]
  dsimp only
  rw [Function.update_same]
  refine ⟨rfl, rfl, rfl, by decide, ?_, rfl⟩
  show channels_replaced (fun _ _ => 0) (fun _ _ => 1065353216) 9001 0 1 0 9000 = 1065353216
  decide

/-- C6, the code at a payload with one parameter: on a plugin whose enable parameter was
set to 0.0, `state_load` of a well-formed payload that holds only the transient-protection
parameter returns true and leaves the enable parameter at 0.0, while the default that
`param_get_info` documents for it is 1.0. -/
theorem C6_state_load_keeps_missing_parameter (cv : c_conversions) :
    let plug := set_value cv (init cv (create 1)) pid_ENABLE double_0
    let r := state_load cv plug
      ⟨payload 1 [(pid_TRANSIENT_PROTECTION, double_1)] 0 0 (fun _ _ => 0) 1 ++ [], 0, none⟩
    r.1 = true ∧ param_get_value cv r.2.1 pid_ENABLE = (true, double_0) ∧
      (param_get_info 8).2.id = pid_ENABLE ∧ (param_get_info 8).2.default_value = double_1 ∧
      double_0 ≠ double_1 := by
  intro plug r
  have hcc : plug.channel_count = 1 :=
    ((set_value_frame cv _ _ _).1).trans (init_frame cv 1).1
  have hr : r = (true,
      loaded cv plug [(pid_TRANSIENT_PROTECTION, double_1)] 0 0 (fun _ _ => 0),
      (clap_istream.mk
        (payload 1 [(pid_TRANSIENT_PROTECTION, double_1)] 0 0 (fun _ _ => 0) 1 ++ []) 0
          none).advance
        (payload 1 [(pid_TRANSIENT_PROTECTION, double_1)] 0 0 (fun _ _ => 0) 1).length) := by
    have h := state_load_ok cv plug
      ⟨payload 1 [(pid_TRANSIENT_PROTECTION, double_1)] 0 0 (fun _ _ => 0) 1 ++ [], 0, none⟩
      [] 1 [(pid_TRANSIENT_PROTECTION, double_1)] 0 0 (fun _ _ => 0) (by rw [hcc])
      (by rw [hcc]; simp [clap_istream.readable]) (by decide) (by decide) (by decide)
      (by decide) (fun _ _ => by show (0 : Nat) < 2 ^ 32; decide)
    rw [hcc] at h
    exact h
  clear_value r
  subst hr
  refine ⟨rfl, ?_, rfl, rfl, by decide⟩
  simp only
  rw [param_get_value_loaded]
  rfl

/-! ### `state_load` always returns -/

theorem code_decode_some (s : clap_istream) (buffer : List Nat) (size : Nat) :
    ∃ ok b s', code (state_coder.DECODE s) buffer size = some (ok, b, state_coder.DECODE s') := by
  rw [code_decode_eq]
  split_ifs
  · exact ⟨_, _, _, rfl⟩
  · exact ⟨_, _, _, rfl⟩

theorem code_params_decode_some (cv : c_conversions) (n : Nat) :
    ∀ (i : Nat) (plug : clap_noiserf) (s : clap_istream),
      ∃ ok q s', code_params cv n i plug (state_coder.DECODE s) =
        some (ok, q, state_coder.DECODE s') := by
  induction n with
  | zero => intro i plug s; exact ⟨_, _, _, rfl⟩
  | succ n ih =>
    intro i plug s
    rw [code_params]
    simp only
    obtain ⟨ok1, b1, s1, e1⟩ := code_decode_some s (le_encode 4 0) 4
    rw [e1]
    cases ok1 with
    | false => exact ⟨_, _, _, rfl⟩
    | true =>
      simp only
      obtain ⟨ok2, b2, s2, e2⟩ := code_decode_some s1 (le_encode 8 double_0) 8
      rw [e2]
      cases ok2 with
      | false => exact ⟨_, _, _, rfl⟩
      | true => exact ih _ _ _

theorem code_channels_decode_some (state : state_ptr) (n : Nat) :
    ∀ (channel : Nat) (plug : clap_noiserf) (s : clap_istream),
      ∃ ok q s', code_channels n channel state plug (state_coder.DECODE s) =
        some (ok, q, state_coder.DECODE s') := by
  induction n with
  | zero => intro channel plug s; exact ⟨_, _, _, rfl⟩
  | succ n ih =>
    intro channel plug s
    rw [code_channels]
    simp only
    obtain ⟨ok1, b1, s1, e1⟩ := code_decode_some s
      (floats_bytes ((deref plug state).channels channel) (deref plug state).size)
      (4 * (deref plug state).size)
    rw [e1]
    cases ok1 with
    | false => exact ⟨_, _, _, rfl⟩
    | true => exact ih _ _ _

theorem code_state_decode_some (cv : c_conversions) (plug : clap_noiserf) (s : clap_istream) :
    ∃ ok q s', code_state cv plug (state_coder.DECODE s) =
      some (ok, q, state_coder.DECODE s') := by
  unfold code_state
  simp only
  obtain ⟨ok1, b1, s1, e1⟩ := code_decode_some s (le_encode 4 1) 4
  rw [e1]
  cases ok1 with
  | false => exact ⟨_, _, _, rfl⟩
  | true =>
    simp only
    obtain ⟨ok2, b2, s2, e2⟩ := code_decode_some s1 (le_encode 4 PARAMS_COUNT) 4
    rw [e2]
    cases ok2 with
    | false => exact ⟨_, _, _, rfl⟩
    | true =>
      simp only
      obtain ⟨ok3, q3, s3, e3⟩ := code_params_decode_some cv (le_decode b2) 0
        (if le_decode b2 > PARAMS_COUNT then set_all_params_to_default cv plug else plug) s2
      rw [e3]
      cases ok3 with
      | false => exact ⟨_, _, _, rfl⟩
      | true =>
        simp only
        obtain ⟨ok4, b4, s4, e4⟩ := code_decode_some s3
          (le_encode 4 (deref q3 (state_ptr.pending
            (writable_noise_profile_state q3.pending_noise_profile_change))).blocks_averaged) 4
        rw [e4]
        cases ok4 with
        | false => exact ⟨_, _, _, rfl⟩
        | true =>
          simp only [Bool.not_true, Bool.false_eq_true, if_false]
          obtain ⟨ok5, b5, s5, e5⟩ := code_decode_some s4
            (le_encode 4 (deref (store q3 (state_ptr.pending
                (writable_noise_profile_state q3.pending_noise_profile_change))
              { deref q3 (state_ptr.pending
                  (writable_noise_profile_state q3.pending_noise_profile_change)) with
                blocks_averaged := le_decode b4 })
              (state_ptr.pending
                (writable_noise_profile_state q3.pending_noise_profile_change))).size) 4
          rw [e5]
          cases ok5 with
          | false => exact ⟨_, _, _, rfl⟩
          | true =>
            simp only [Bool.not_true, Bool.false_eq_true, if_false]
            obtain ⟨ok6, q6, s6, e6⟩ := code_channels_decode_some
              (state_ptr.pending (writable_noise_profile_state q3.pending_noise_profile_change))
              (store (store q3 (state_ptr.pending
                  (writable_noise_profile_state q3.pending_noise_profile_change))
                { deref q3 (state_ptr.pending
                    (writable_noise_profile_state q3.pending_noise_profile_change)) with
                  blocks_averaged := le_decode b4 })
                (state_ptr.pending
                  (writable_noise_profile_state q3.pending_noise_profile_change))
                { deref (store q3 (state_ptr.pending
                      (writable_noise_profile_state q3.pending_noise_profile_change))
                    { deref q3 (state_ptr.pending
                        (writable_noise_profile_state q3.pending_noise_profile_change)) with
                      blocks_averaged := le_decode b4 })
                    (state_ptr.pending
                      (writable_noise_profile_state q3.pending_noise_profile_change)) with
                  size := le_decode b5 }).channel_count 0 _ s5
            rw [e6]
            cases ok6 with
            | false => exact ⟨_, _, _, rfl⟩
            | true => exact ⟨_, _, _, rfl⟩

theorem state_load_returns (cv : c_conversions) (plug : clap_noiserf) (s : clap_istream) :
    ∃ ok q s', code_state cv plug (state_coder.DECODE s) =
        some (ok, q, state_coder.DECODE s') ∧
      state_load cv plug s = (ok, q, s') := by
  obtain ⟨ok, q, s', e⟩ := code_state_decode_some cv plug s
  exact ⟨ok, q, s', e, by unfold state_load; rw [e]⟩

/-! ## Noise profile store -/

/-! ### Direct copy, reset and the block counter -/

theorem set_noise_profile_same_size {α : Type} (ar : float_arith α) (self : NoiseProfile α)
    (noise_profile : Nat → α) (blocks : Nat) :
    set_noise_profile ar (some self) (some noise_profile) self.noise_profile_size blocks =
      (true, some
        { self with
          noise_profile :=
            memcpy_floats self.noise_profile noise_profile self.noise_profile_size
          noise_profile_blocks_averaged := blocks
          noise_spectrum_available := true }) := by
  simp [set_noise_profile]

theorem set_noise_profile_false_iff {α : Type} (ar : float_arith α)
    (s : Option (NoiseProfile α)) (inp : Option (Nat → α)) (size b : Nat) :
    (set_noise_profile ar s inp size b).1 = false ↔ (s = none ∨ inp = none) := by
  cases s <;> cases inp <;> simp [set_noise_profile]

theorem set_noise_profile_false_keeps {α : Type} (ar : float_arith α)
    (s : Option (NoiseProfile α)) (inp : Option (Nat → α)) (size b : Nat)
    (h : (set_noise_profile ar s inp size b).1 = false) :
    (set_noise_profile ar s inp size b).2 = s := by
  cases s <;> cases inp <;> simp_all [set_noise_profile]

/-- C11: when the incoming size equals the size of the store, `set_noise_profile` returns true
and leaves a store of the same size whose bins below the size are the incoming bins, whose
block count is the supplied one and which is available; on any arguments the call returns
false exactly when the store or the incoming buffer is null, and then the store is
unchanged. -/
theorem C11_equal_size_copies_directly {α : Type} (ar : float_arith α) (self : NoiseProfile α)
    (noise_profile : Nat → α) (blocks : Nat) :
    (∃ p : NoiseProfile α,
      set_noise_profile ar (some self) (some noise_profile) self.noise_profile_size blocks =
        (true, some p) ∧
      (∀ k, k < self.noise_profile_size → get_noise_profile p k = noise_profile k) ∧
      get_noise_profile_blocks_averaged p = blocks ∧
      is_noise_estimation_available p = true ∧
      get_noise_profile_size p = self.noise_profile_size) ∧
    ∀ (s : Option (NoiseProfile α)) (inp : Option (Nat → α)) (size b : Nat),
      ((set_noise_profile ar s inp size b).1 = false ↔ (s = none ∨ inp = none)) ∧
      ((s = none ∨ inp = none) → (set_noise_profile ar s inp size b).2 = s) := by
  refine ⟨⟨_, set_noise_profile_same_size ar self noise_profile blocks, ?_, rfl, rfl, rfl⟩, ?_⟩
  · intro k hk
    simp [get_noise_profile, memcpy_floats, hk]
  · intro s inp size b
    refine ⟨set_noise_profile_false_iff ar s inp size b, fun h => ?_⟩
    exact set_noise_profile_false_keeps ar s inp size b
      ((set_noise_profile_false_iff ar s inp size b).2 h)

theorem reset_noise_profile_some {α : Type} (ar : float_arith α) (self : NoiseProfile α) :
    reset_noise_profile ar (some self) =
      (true, some
        { self with
          noise_profile :=
            initialize_spectrum_with_value self.noise_profile self.noise_profile_size ar.zero
          noise_profile_blocks_averaged := 0
          noise_spectrum_available := false }) := rfl

/-- C12: on a non-null store `reset_noise_profile` returns true and leaves a store of the
same size in which every bin is `0.0f`, the block count is 0 and no profile is available. -/
theorem C12_reset_zeroes_store {α : Type} (ar : float_arith α) (self : NoiseProfile α) :
    ∃ p : NoiseProfile α,
      reset_noise_profile ar (some self) = (true, some p) ∧
      (∀ k, k < get_noise_profile_size p → get_noise_profile p k = ar.zero) ∧
      get_noise_profile_blocks_averaged p = 0 ∧
      is_noise_estimation_available p = false ∧
      get_noise_profile_size p = get_noise_profile_size self := by
  refine ⟨_, reset_noise_profile_some ar self, ?_, rfl, rfl, rfl⟩
  intro k hk
  have hk' : k < self.noise_profile_size := hk
  simp [get_noise_profile, initialize_spectrum_with_value, hk']

theorem reset_noise_profile_empty {α : Type} (ar : float_arith α) (self : NoiseProfile α)
    (h : self.empty ar) : reset_noise_profile ar (some self) = (true, some self) := by
  obtain ⟨hb, ha, hz⟩ := h
  rw [reset_noise_profile_some]
  cases self with
  | mk size blocks data avail =>
    simp only at hb ha hz
    subst hb
    subst ha
    have hd : initialize_spectrum_with_value data size ar.zero = data := by
      funext k
      by_cases hk : k < size
      · simp [initialize_spectrum_with_value, hk, hz k hk]
      · simp [initialize_spectrum_with_value, hk]
    simp only [hd]

theorem initialize_empty {α : Type} (ar : float_arith α) (size : Nat) :
    ( noise_profile_initialize ar size).empty ar :=
  ⟨rfl, rfl, fun _ _ => rfl⟩

/-- C13, the code at a store of 5 bins: the store made by `noise_profile_initialize` is
empty and the reset leaves it as it is, yet `get_noise_profile_size` then returns 5, not 0. -/
theorem C13_reset_store_keeps_size :
    ( noise_profile_initialize rat_arith 5).empty rat_arith ∧
    reset_noise_profile rat_arith (some ( noise_profile_initialize rat_arith 5)) =
      (true, some ( noise_profile_initialize rat_arith 5)) ∧
    get_noise_profile_size ( noise_profile_initialize rat_arith 5) = 5 ∧
    get_noise_profile_size ( noise_profile_initialize rat_arith 5) ≠ 0 :=
  ⟨initialize_empty _ _, reset_noise_profile_empty _ _ (initialize_empty _ _), rfl,
    by decide⟩

/-- C13 with the size the store keeps: the reset of a store that is already empty (no block
averaged, no profile available, every bin `0.0f`) returns true and leaves the store as it
was; the store is then observable as not available, with 0 blocks averaged and with the size it was given at
initialisation. Moreover the store after any reset is empty, so a second reset in a row
changes nothing. -/
theorem C13_reset_idempotent {α : Type} (ar : float_arith α) (self : NoiseProfile α)
    (h : self.empty ar) :
    reset_noise_profile ar (some self) = (true, some self) ∧
    is_noise_estimation_available self = false ∧
    get_noise_profile_blocks_averaged self = 0 ∧
    (∀ size, get_noise_profile_size ( noise_profile_initialize ar size) = size) ∧
    ∀ other : NoiseProfile α, ∃ p : NoiseProfile α,
      reset_noise_profile ar (some other) = (true, some p) ∧ p.empty ar ∧
      get_noise_profile_size p = get_noise_profile_size other ∧
      reset_noise_profile ar (some p) = (true, some p) := by
  refine ⟨reset_noise_profile_empty ar self h, h.2.1, h.1, fun _ => rfl, fun other => ?_⟩
  have he : NoiseProfile.empty ar
      { other with
        noise_profile :=
          initialize_spectrum_with_value other.noise_profile other.noise_profile_size ar.zero
        noise_profile_blocks_averaged := 0
        noise_spectrum_available := false } := by
    refine ⟨rfl, rfl, fun k hk => ?_⟩
    have hk' : k < other.noise_profile_size := hk
    simp [initialize_spectrum_with_value, hk']
  exact ⟨_, reset_noise_profile_some ar other, he, rfl, reset_noise_profile_empty ar _ he⟩

/-- C13 at the store `noise_profile_initialize` makes for 5 bins. -/
theorem C13_reset_idempotent_witness :
    reset_noise_profile rat_arith (some ( noise_profile_initialize rat_arith 5)) =
      (true, some ( noise_profile_initialize rat_arith 5)) :=
  (C13_reset_idempotent rat_arith ( noise_profile_initialize rat_arith 5)
    (initialize_empty rat_arith 5)).1

theorem increment_blocks_averaged_some {α : Type} (MIN : Nat) (self : NoiseProfile α) :
    increment_blocks_averaged MIN (some self) =
      (true, some
        { self with
          noise_profile_blocks_averaged := (self.noise_profile_blocks_averaged + 1) % 2 ^ 32
          noise_spectrum_available :=
            if (self.noise_profile_blocks_averaged + 1) % 2 ^ 32 > MIN ∧
                self.noise_spectrum_available = false then true
            else self.noise_spectrum_available }) := by
  simp only [increment_blocks_averaged]
  split_ifs <;> rfl

theorem increment_times_from_zero {α : Type} (MIN : Nat) (start : NoiseProfile α)
    (hb : start.noise_profile_blocks_averaged = 0)
    (ha : start.noise_spectrum_available = false) (n : Nat) (hn : n < 2 ^ 32) :
    ∃ p : NoiseProfile α,
      increment_blocks_averaged_times MIN n (some start) = some p ∧
      p.noise_profile_blocks_averaged = n ∧
      (p.noise_spectrum_available = true ↔ n > MIN) ∧
      p.noise_profile_size = start.noise_profile_size ∧
      p.noise_profile = start.noise_profile := by
  induction n with
  | zero => exact ⟨start, rfl, hb, by simp [ha], rfl, rfl⟩
  | succ n ih =>
    obtain ⟨p, hp, hpb, hpa, hps, hpd⟩ := ih (by omega)
    have hstep : increment_blocks_averaged_times MIN (n + 1) (some start) =
        (increment_blocks_averaged MIN (some p)).2 := by
      unfold increment_blocks_averaged_times at hp ⊢
      rw [Function.iterate_succ_apply', hp]
    rw [hstep, increment_blocks_averaged_some]
    refine ⟨_, rfl, ?_, ?_, hps, hpd⟩
    · show (p.noise_profile_blocks_averaged + 1) % 2 ^ 32 = n + 1
      rw [hpb]
      exact Nat.mod_eq_of_lt hn
    · show (if (p.noise_profile_blocks_averaged + 1) % 2 ^ 32 > MIN ∧
          p.noise_spectrum_available = false then true
          else p.noise_spectrum_available) = true ↔ n + 1 > MIN
      rw [hpb, Nat.mod_eq_of_lt hn]
      by_cases hm : n + 1 > MIN
      · cases hav : p.noise_spectrum_available <;> simp [hm]
      · have : ¬ n > MIN := by omega
        have hf : p.noise_spectrum_available = false := by
          cases hav : p.noise_spectrum_available
          · rfl
          · exact absurd (hpa.1 hav) this
        simp [hm, hf]

/-- C14: from a store fresh from `noise_profile_initialize`, or from the store a reset
leaves, `n < 2^32` calls of `increment_blocks_averaged` in a row leave a store with
`blocks_averaged = n` that is available exactly when `n > MIN_NUMBER_OF_WINDOWS_NOISE_AVERAGED`
(whatever the value of that constant); and one call on an available store leaves it
available. -/
theorem C14_blocks_averaged_counts {α : Type} (ar : float_arith α)
    (MIN_NUMBER_OF_WINDOWS_NOISE_AVERAGED size n : Nat) (self : NoiseProfile α)
    (hn : n < 2 ^ 32) :
    (∀ start : NoiseProfile α,
      (start = noise_profile_initialize ar size ∨
        (reset_noise_profile ar (some self)).2 = some start) →
      ∃ p : NoiseProfile α,
        increment_blocks_averaged_times MIN_NUMBER_OF_WINDOWS_NOISE_AVERAGED n (some start) =
          some p ∧
        get_noise_profile_blocks_averaged p = n ∧
        (is_noise_estimation_available p = true ↔ n > MIN_NUMBER_OF_WINDOWS_NOISE_AVERAGED)) ∧
    ∀ p : NoiseProfile α, is_noise_estimation_available p = true →
      ∃ q : NoiseProfile α,
        increment_blocks_averaged MIN_NUMBER_OF_WINDOWS_NOISE_AVERAGED (some p) =
          (true, some q) ∧
        is_noise_estimation_available q = true := by
  constructor
  · intro start hstart
    have h0 : start.noise_profile_blocks_averaged = 0 ∧
        start.noise_spectrum_available = false := by
      rcases hstart with h | h
      · subst h
        exact ⟨rfl, rfl⟩
      · rw [reset_noise_profile_some] at h
        have h' := Option.some.inj h
        subst h'
        exact ⟨rfl, rfl⟩
    obtain ⟨p, hp, hpb, hpa, _, _⟩ :=
      increment_times_from_zero MIN_NUMBER_OF_WINDOWS_NOISE_AVERAGED start h0.1 h0.2 n hn
    exact ⟨p, hp, hpb, hpa⟩
  · intro p hp
    refine ⟨_, increment_blocks_averaged_some _ p, ?_⟩
    have hp' : p.noise_spectrum_available = true := hp
    simp [is_noise_estimation_available, hp']

/-- C14 at 7 increments of a fresh 3-bin store, the constant being 5. -/
theorem C14_blocks_averaged_counts_witness :
    ∃ p : NoiseProfile ℚ,
      increment_blocks_averaged_times 5 7 (some ( noise_profile_initialize rat_arith 3)) =
        some p ∧
      get_noise_profile_blocks_averaged p = 7 ∧
      (is_noise_estimation_available p = true ↔ 7 > 5) :=
  (C14_blocks_averaged_counts rat_arith 5 3 7 ( noise_profile_initialize rat_arith 3)
    (by decide)).1 ( noise_profile_initialize rat_arith 3) (Or.inl rfl)

/-- C15, the code at the largest count: on a store whose `blocks_averaged` is `2^32 - 1` the call
of `increment_blocks_averaged` leaves `blocks_averaged` at 0, below what it was. -/
theorem C15_increment_wraps_at_max :
    (increment_blocks_averaged 5 (some (⟨4, 2 ^ 32 - 1, fun _ => 0, true⟩ : NoiseProfile ℚ))).1 =
      true ∧
    ((increment_blocks_averaged 5
        (some (⟨4, 2 ^ 32 - 1, fun _ => 0, true⟩ : NoiseProfile ℚ))).2.map
      get_noise_profile_blocks_averaged) = some 0 ∧
    (0 : Nat) < 2 ^ 32 - 1 := by
  refine ⟨rfl, ?_, by decide⟩
  rw [increment_blocks_averaged_some]
  rfl

/-- C15 as the code counts: `increment_blocks_averaged` adds one to `blocks_averaged` on
`uint32_t`: the count after the call is the count before plus one modulo `2^32`, which is one more when the
count was below `2^32 - 1` and 0 when it was `2^32 - 1`. -/
theorem C15_increment_modulo {α : Type} (MIN_NUMBER_OF_WINDOWS_NOISE_AVERAGED : Nat)
    (self : NoiseProfile α) :
    ∃ p : NoiseProfile α,
      increment_blocks_averaged MIN_NUMBER_OF_WINDOWS_NOISE_AVERAGED (some self) =
        (true, some p) ∧
      get_noise_profile_blocks_averaged p =
        (get_noise_profile_blocks_averaged self + 1) % 2 ^ 32 ∧
      (get_noise_profile_blocks_averaged self < 2 ^ 32 - 1 →
        get_noise_profile_blocks_averaged p = get_noise_profile_blocks_averaged self + 1) ∧
      (get_noise_profile_blocks_averaged self = 2 ^ 32 - 1 →
        get_noise_profile_blocks_averaged p = 0) := by
  refine ⟨_, increment_blocks_averaged_some _ self, rfl, ?_, ?_⟩
  · intro h
    show (self.noise_profile_blocks_averaged + 1) % 2 ^ 32 = _
    have h' : self.noise_profile_blocks_averaged < 2 ^ 32 - 1 := h
    exact Nat.mod_eq_of_lt (by omega)
  · intro h
    show (self.noise_profile_blocks_averaged + 1) % 2 ^ 32 = 0
    have h' : self.noise_profile_blocks_averaged = 2 ^ 32 - 1 := h
    rw [h']
    decide

/-! ## FFT framing -/

theorem next_power_two_from_spec (value : Nat) :
    ∀ (fuel j : Nat), (∀ i, i < j → 2 ^ i < value) → value ≤ 2 ^ (j + fuel) →
      ∃ k, next_power_two_from value fuel (2 ^ j) = 2 ^ k ∧ value ≤ 2 ^ k ∧
        ∀ i, i < k → 2 ^ i < value := by
  intro fuel
  induction fuel with
  | zero =>
    intro j hlow hup
    exact ⟨j, rfl, by simpa using hup, hlow⟩
  | succ fuel ih =>
    intro j hlow hup
    by_cases h : value ≤ 2 ^ j
    · exact ⟨j, by simp [next_power_two_from, h], h, hlow⟩
    · have hstep : next_power_two_from value (fuel + 1) (2 ^ j) =
          next_power_two_from value fuel (2 ^ (j + 1)) := by
        simp only [next_power_two_from, if_neg h]
        congr 1
        rw [pow_succ]
        omega
      rw [hstep]
      refine ih (j + 1) ?_ ?_
      · intro i hi
        rcases Nat.lt_succ_iff_lt_or_eq.1 hi with h1 | h1
        · exact hlow i h1
        · subst h1
          omega
      · have : j + 1 + fuel = j + (fuel + 1) := by omega
        rw [this]
        exact hup

theorem get_next_power_two_spec (value : Nat) :
    ∃ k, get_next_power_two (value : Int) = ((2 ^ k : Nat) : Int) ∧ value ≤ 2 ^ k ∧
      ∀ i, i < k → 2 ^ i < value := by
  obtain ⟨k, hk, hle, hmin⟩ := next_power_two_from_spec value value 0 (by intro i hi; omega)
    (by simpa using (Nat.lt_two_pow value).le)
  refine ⟨k, ?_, hle, hmin⟩
  unfold get_next_power_two
  rw [Int.toNat_ofNat]
  have h1 : (1 : Nat) = 2 ^ 0 := rfl
  rw [h1, hk]

theorem two_pow_le_of_lt (value k m : Nat) (hmin : ∀ i, i < k → 2 ^ i < value)
    (hm : value ≤ 2 ^ m) : 2 ^ k ≤ 2 ^ m := by
  apply Nat.pow_le_pow_right (by decide)
  by_contra hlt
  have := hmin m (by omega)
  omega

theorem fft_size_eq {α : Type} (ar : float_arith α) (frame_size padding_type
    zeropadding_amount : Nat) :
    ( fft_transform_initialize ar frame_size padding_type zeropadding_amount).fft_size =
      if uint32_of_int (get_next_power_two (int_of_uint32 frame_size)) < 32 then 32
      else uint32_of_int (get_next_power_two (int_of_uint32 frame_size)) := rfl

theorem frame_size_eq {α : Type} (ar : float_arith α) (frame_size padding_type
    zeropadding_amount : Nat) :
    ( fft_transform_initialize ar frame_size padding_type zeropadding_amount).frame_size =
      frame_size := rfl

theorem copy_position_eq {α : Type} (ar : float_arith α) (frame_size padding_type
    zeropadding_amount : Nat) :
    ( fft_transform_initialize ar frame_size padding_type zeropadding_amount).copy_position =
      (( fft_transform_initialize ar frame_size padding_type zeropadding_amount).fft_size / 2 +
        2 ^ 32 - frame_size / 2) % 2 ^ 32 := rfl

theorem fft_size_spec {α : Type} (ar : float_arith α) (frame_size padding_type
    zeropadding_amount : Nat) (h : frame_size < 2 ^ 31) :
    ∃ k, 5 ≤ k ∧ k ≤ 31 ∧
      ( fft_transform_initialize ar frame_size padding_type zeropadding_amount).fft_size =
        2 ^ k ∧
      frame_size ≤ 2 ^ k ∧ ∀ m, frame_size ≤ 2 ^ m → 32 ≤ 2 ^ m → 2 ^ k ≤ 2 ^ m := by
  obtain ⟨k, hk, hle, hmin⟩ := get_next_power_two_spec frame_size
  have hk31 : k ≤ 31 := by
    by_contra hc
    have := hmin 31 (by omega)
    omega
  have hlt : 2 ^ k < 2 ^ 32 := Nat.pow_lt_pow_right (by decide) (by omega)
  have hu : uint32_of_int (get_next_power_two (int_of_uint32 frame_size)) = 2 ^ k := by
    unfold int_of_uint32
    rw [if_pos h, hk]
    unfold uint32_of_int
    have h2 : ((2 ^ 32 : Nat) : Int) = 2 ^ 32 := by norm_num
    rw [← h2, ← Int.natCast_mod, Int.toNat_ofNat]
    exact Nat.mod_eq_of_lt hlt
  rw [fft_size_eq, hu]
  by_cases h32 : 2 ^ k < 32
  · rw [if_pos h32]
    refine ⟨5, le_refl _, by decide, rfl, by omega, fun m _ hm => hm⟩
  · rw [if_neg h32]
    have h5 : 5 ≤ k := by
      by_contra hc
      have : 2 ^ k < 2 ^ 5 := Nat.pow_lt_pow_right (by decide) (by omega)
      exact h32 this
    exact ⟨k, h5, hk31, rfl, hle, fun m hm _ => two_pow_le_of_lt frame_size k m hmin hm⟩

/-- C16, the code at a frame size above `2^31`: for `frame_size = 2^31 + 1` the `fft_size`
chosen by `fft_transform_initialize` is 32, below the frame size; and no power of two that fits
`uint32_t` is at least `2^31 + 1`. -/
theorem C16_fft_size_below_huge_frame :
    ( fft_transform_initialize rat_arith (2 ^ 31 + 1) 0 0).fft_size = 32 ∧
    ¬ (2 ^ 31 + 1 ≤ ( fft_transform_initialize rat_arith (2 ^ 31 + 1) 0 0).fft_size) ∧
    ∀ k, 2 ^ k < 2 ^ 32 → ¬ (2 ^ 31 + 1 ≤ 2 ^ k) := by
  refine ⟨by decide, by decide, ?_⟩
  intro k hk hge
  have hk32 : k < 32 := (Nat.pow_lt_pow_iff_right (by decide)).1 hk
  have : 2 ^ k ≤ 2 ^ 31 := Nat.pow_le_pow_right (by decide) (by omega)
  omega

/-- C16 for the frame sizes the cast keeps: for every `frame_size` below `2^31` (the values
`(int)frame_size` keeps), the `fft_size` chosen by `fft_transform_initialize` is a power of
two, is at least `frame_size` and at least 32, and is not above any power of two that meets both bounds. -/
theorem C16_fft_size_least_power_of_two {α : Type} (ar : float_arith α)
    (frame_size padding_type zeropadding_amount : Nat) (h : frame_size < 2 ^ 31) :
    (∃ k, get_fft_size
      ( fft_transform_initialize ar frame_size padding_type zeropadding_amount) = 2 ^ k) ∧
    frame_size ≤ get_fft_size
      ( fft_transform_initialize ar frame_size padding_type zeropadding_amount) ∧
    32 ≤ get_fft_size
      ( fft_transform_initialize ar frame_size padding_type zeropadding_amount) ∧
    ∀ m, frame_size ≤ 2 ^ m → 32 ≤ 2 ^ m →
      get_fft_size
        ( fft_transform_initialize ar frame_size padding_type zeropadding_amount) ≤ 2 ^ m := by
  obtain ⟨k, h5, _, hk, hle, hmin⟩ :=
    fft_size_spec ar frame_size padding_type zeropadding_amount h
  unfold get_fft_size
  rw [hk]
  refine ⟨⟨k, rfl⟩, hle, ?_, hmin⟩
  calc 32 = 2 ^ 5 := rfl
    _ ≤ 2 ^ k := Nat.pow_le_pow_right (by decide) h5

/-- C16 at `frame_size = 33`. -/
theorem C16_fft_size_least_power_of_two_witness :
    (∃ k, get_fft_size ( fft_transform_initialize rat_arith 33 0 0) = 2 ^ k) ∧
    33 ≤ get_fft_size ( fft_transform_initialize rat_arith 33 0 0) ∧
    32 ≤ get_fft_size ( fft_transform_initialize rat_arith 33 0 0) ∧
    ∀ m, 33 ≤ 2 ^ m → 32 ≤ 2 ^ m →
      get_fft_size ( fft_transform_initialize rat_arith 33 0 0) ≤ 2 ^ m :=
  C16_fft_size_least_power_of_two rat_arith 33 0 0 (by decide)

/-- C17, the code at an odd frame size: for `frame_size = 33` the `fft_size` is 64 and the
`copy_position` is 16, while `(fft_size - frame_size) / 2` is 15. -/
theorem C17_copy_position_odd_frame :
    ( fft_transform_initialize rat_arith 33 0 0).fft_size = 64 ∧
    ( fft_transform_initialize rat_arith 33 0 0).copy_position = 16 ∧
    (( fft_transform_initialize rat_arith 33 0 0).fft_size - 33) / 2 = 15 ∧
    ( fft_transform_initialize rat_arith 33 0 0).copy_position ≠
      (( fft_transform_initialize rat_arith 33 0 0).fft_size - 33) / 2 := by
  refine ⟨by decide, by decide, by decide, by decide⟩

theorem copy_position_spec {α : Type} (ar : float_arith α) (frame_size padding_type
    zeropadding_amount : Nat) (h : frame_size < 2 ^ 31) :
    ∃ half,
      ( fft_transform_initialize ar frame_size padding_type zeropadding_amount).fft_size =
        2 * half ∧ 16 ≤ half ∧ half ≤ 2 ^ 30 ∧ frame_size ≤ 2 * half ∧
      ( fft_transform_initialize ar frame_size padding_type zeropadding_amount).copy_position =
        half - frame_size / 2 := by
  obtain ⟨k, h5, h31, hk, hle, _⟩ :=
    fft_size_spec ar frame_size padding_type zeropadding_amount h
  have hsplit : 2 ^ k = 2 * 2 ^ (k - 1) := by
    have : k = (k - 1) + 1 := by omega
    conv_lhs => rw [this, pow_succ]
    omega
  have h16 : 16 ≤ 2 ^ (k - 1) := by
    calc 16 = 2 ^ 4 := rfl
      _ ≤ 2 ^ (k - 1) := Nat.pow_le_pow_right (by decide) (by omega)
  have h30 : 2 ^ (k - 1) ≤ 2 ^ 30 := Nat.pow_le_pow_right (by decide) (by omega)
  refine ⟨2 ^ (k - 1), by rw [hk, hsplit], h16, h30, by omega, ?_⟩
  rw [copy_position_eq, hk, hsplit]
  have h230 : (2 : Nat) ^ 30 = 1073741824 := by norm_num
  have h232 : (2 : Nat) ^ 32 = 4294967296 := by norm_num
  rw [h230] at h30
  rw [h232]
  omega

/-- C17 as the code halves: for every `frame_size` below `2^31` the `copy_position` set by
`fft_transform_initialize` is `fft_size / 2 - frame_size / 2`. That is
`(fft_size - frame_size) / 2` when `frame_size` is even and one more when `frame_size` is
odd, so the zero-padding before the samples is the zero-padding after them or one more, and
the frame ends inside the buffer. -/
theorem C17_copy_position_centered {α : Type} (ar : float_arith α)
    (frame_size padding_type zeropadding_amount : Nat) (h : frame_size < 2 ^ 31) :
    ( fft_transform_initialize ar frame_size padding_type zeropadding_amount).copy_position =
      get_fft_size ( fft_transform_initialize ar frame_size padding_type zeropadding_amount) / 2
        - frame_size / 2 ∧
    (frame_size % 2 = 0 →
      ( fft_transform_initialize ar frame_size padding_type zeropadding_amount).copy_position =
        (get_fft_size ( fft_transform_initialize ar frame_size padding_type zeropadding_amount)
          - frame_size) / 2) ∧
    (frame_size % 2 = 1 →
      ( fft_transform_initialize ar frame_size padding_type zeropadding_amount).copy_position =
        (get_fft_size ( fft_transform_initialize ar frame_size padding_type zeropadding_amount)
          - frame_size) / 2 + 1) ∧
    ( fft_transform_initialize ar frame_size padding_type zeropadding_amount).copy_position
        + frame_size ≤
      get_fft_size ( fft_transform_initialize ar frame_size padding_type zeropadding_amount) ∧
    get_fft_size ( fft_transform_initialize ar frame_size padding_type zeropadding_amount)
        - frame_size
        - ( fft_transform_initialize ar frame_size padding_type zeropadding_amount).copy_position
      ≤ ( fft_transform_initialize ar frame_size padding_type zeropadding_amount).copy_position ∧
    ( fft_transform_initialize ar frame_size padding_type zeropadding_amount).copy_position ≤
      get_fft_size ( fft_transform_initialize ar frame_size padding_type zeropadding_amount)
        - frame_size
        - ( fft_transform_initialize ar frame_size padding_type zeropadding_amount).copy_position
        + 1 := by
  obtain ⟨half, hf, _, _, hle, hc⟩ :=
    copy_position_spec ar frame_size padding_type zeropadding_amount h
  unfold get_fft_size
  rw [hf, hc]
  refine ⟨by omega, fun _ => by omega, fun _ => by omega, by omega, by omega, by omega⟩

/-- C17 at `frame_size = 33`. -/
theorem C17_copy_position_centered_witness :
    ( fft_transform_initialize rat_arith 33 0 0).copy_position =
      get_fft_size ( fft_transform_initialize rat_arith 33 0 0) / 2 - 33 / 2 :=
  (C17_copy_position_centered rat_arith 33 0 0 (by decide)).1

theorem fft_transform_initialize_in_bounds {α : Type} (ar : float_arith α)
    (frame_size padding_type zeropadding_amount : Nat) (h : frame_size < 2 ^ 31) :
    ( fft_transform_initialize ar frame_size padding_type zeropadding_amount).in_bounds := by
  obtain ⟨half, hf, _, h30, hle, hc⟩ :=
    copy_position_spec ar frame_size padding_type zeropadding_amount h
  unfold FftTransform.in_bounds
  rw [hf, hc, frame_size_eq]
  have h230 : (2 : Nat) ^ 30 = 1073741824 := by norm_num
  have h232 : (2 : Nat) ^ 32 = 4294967296 := by norm_num
  rw [h230] at h30
  rw [h232]
  omega

theorem fft_transform_initialize_bins_in_bounds {α : Type} (ar : float_arith α)
    (fft_size : Nat) (h : fft_size < 2 ^ 32) :
    (fft_transform_initialize_bins ar fft_size).in_bounds :=
  ⟨by show 0 + fft_size ≤ fft_size; omega, h⟩

theorem process_event_channel_count (cv : c_conversions) (plug : clap_noiserf)
    (hdr : clap_event) : (process_event cv plug hdr).channel_count = plug.channel_count := by
  unfold process_event
  split_ifs
  · exact (set_value_frame cv plug hdr.param_id hdr.value).1
  · rfl
  · rfl

theorem set_value_reset_profile (cv : c_conversions) (plug : clap_noiserf) (id v : Nat)
    (h : id ≠ pid_RESET_PROFILE) : (set_value cv plug id v).reset_profile = plug.reset_profile := by
  unfold set_value
  simp only [apply_ite clap_noiserf.reset_profile, if_neg h, ite_self]

theorem process_event_reset_profile (cv : c_conversions) (plug : clap_noiserf)
    (hdr : clap_event) (h : ¬ hdr.sets_reset_profile) :
    (process_event cv plug hdr).reset_profile = plug.reset_profile := by
  unfold process_event
  split_ifs with h1 h2
  · exact set_value_reset_profile cv plug _ _ (fun h3 => h ⟨h1, h2, h3⟩)
  · rfl
  · rfl

theorem handle_events_done (cv : c_conversions) (in_events : List clap_event)
    (frame_count i fuel : Nat) (plug : clap_noiserf) (ev_index next_ev_frame : Nat)
    (h : ¬ (ev_index < in_events.length ∧ next_ev_frame = i)) :
    handle_events cv in_events frame_count i fuel plug ev_index next_ev_frame =
      (plug, ev_index, next_ev_frame) := by
  cases fuel with
  | zero => rfl
  | succ fuel => simp only [handle_events, dif_neg h]

theorem handle_events_frame (cv : c_conversions) (in_events : List clap_event)
    (frame_count i : Nat) :
    ∀ (fuel : Nat) (plug : clap_noiserf) (ev_index next_ev_frame : Nat),
      (handle_events cv in_events frame_count i fuel plug ev_index next_ev_frame).1.channel_count
        = plug.channel_count := by
  intro fuel
  induction fuel with
  | zero => intro plug ev_index next_ev_frame; rfl
  | succ fuel ih =>
    intro plug ev_index next_ev_frame
    simp only [handle_events]
    split_ifs
    · rfl
    · exact process_event_channel_count cv plug _
    · rw [ih]
      exact process_event_channel_count cv plug _
    · rfl

theorem handle_events_reset_profile (cv : c_conversions) (in_events : List clap_event)
    (frame_count i : Nat) (hev : ∀ e, e ∈ in_events → ¬ e.sets_reset_profile) :
    ∀ (fuel : Nat) (plug : clap_noiserf) (ev_index next_ev_frame : Nat),
      (handle_events cv in_events frame_count i fuel plug ev_index next_ev_frame).1.reset_profile
        = plug.reset_profile := by
  intro fuel
  induction fuel with
  | zero => intro plug ev_index next_ev_frame; rfl
  | succ fuel ih =>
    intro plug ev_index next_ev_frame
    simp only [handle_events]
    split_ifs with h
    · rfl
    · exact process_event_reset_profile cv plug _ (hev _ (List.get_mem _ _ _))
    · rw [ih]
      exact process_event_reset_profile cv plug _ (hev _ (List.get_mem _ _ _))
    · rfl

/-- What the event loop leaves in `ev_index` and `next_ev_frame` when it is entered: either
the events are used up and `next_ev_frame` is the frame count, or `next_ev_frame` is the time
of the next event, which is not the current frame; in the second case an event has been
handled unless the first event met was not due at the current frame. So the loop has left
by its own test or by a `break`, never for lack of `fuel`. -/
theorem handle_events_spec (cv : c_conversions) (in_events : List clap_event)
    (frame_count i : Nat) :
    ∀ (fuel : Nat) (plug : clap_noiserf) (ev_index : Nat),
      fuel = in_events.length - ev_index → ev_index < in_events.length →
      ((handle_events cv in_events frame_count i fuel plug ev_index i).2.1 = in_events.length ∧
        (handle_events cv in_events frame_count i fuel plug ev_index i).2.2 = frame_count) ∨
      ∃ h : (handle_events cv in_events frame_count i fuel plug ev_index i).2.1 <
          in_events.length,
        (handle_events cv in_events frame_count i fuel plug ev_index i).2.2 =
          (in_events.get
            ⟨(handle_events cv in_events frame_count i fuel plug ev_index i).2.1, h⟩).time ∧
        (in_events.get
          ⟨(handle_events cv in_events frame_count i fuel plug ev_index i).2.1, h⟩).time ≠ i ∧
        (ev_index < (handle_events cv in_events frame_count i fuel plug ev_index i).2.1 ∨
          ((handle_events cv in_events frame_count i fuel plug ev_index i).2.1 = ev_index ∧
            ∀ h2 : ev_index < in_events.length,
              (in_events.get ⟨ev_index, h2⟩).time ≠ i)) := by
  intro fuel
  induction fuel with
  | zero =>
    intro plug ev_index hf hk
    omega
  | succ fuel ih =>
    intro plug ev_index hf hk
    have hc : ev_index < in_events.length ∧ i = i := ⟨hk, rfl⟩
    by_cases ht : (in_events.get ⟨ev_index, hk⟩).time ≠ i
    · have hr : handle_events cv in_events frame_count i (fuel + 1) plug ev_index i =
          (plug, ev_index, (in_events.get ⟨ev_index, hk⟩).time) := by
        rw [handle_events, dif_pos hc]
        simp only [if_pos ht]
      rw [hr]
      exact Or.inr ⟨hk, rfl, ht, Or.inr ⟨rfl, fun _ => ht⟩⟩
    · by_cases hend : ev_index + 1 = in_events.length
      · have hr : handle_events cv in_events frame_count i (fuel + 1) plug ev_index i =
            (process_event cv plug (in_events.get ⟨ev_index, hk⟩), ev_index + 1,
              frame_count) := by
          rw [handle_events, dif_pos hc]
          simp only [if_neg ht, if_pos hend]
        rw [hr]
        exact Or.inl ⟨hend, rfl⟩
      · have hr : handle_events cv in_events frame_count i (fuel + 1) plug ev_index i =
            handle_events cv in_events frame_count i fuel
              (process_event cv plug (in_events.get ⟨ev_index, hk⟩)) (ev_index + 1) i := by
          rw [handle_events, dif_pos hc]
          simp only [if_neg ht, if_neg hend]
        rw [hr]
        rcases ih (process_event cv plug (in_events.get ⟨ev_index, hk⟩)) (ev_index + 1)
          (by omega) (by omega) with h1 | ⟨h, h1, hne, h2⟩
        · exact Or.inl h1
        · refine Or.inr ⟨h, h1, hne, Or.inl ?_⟩
          rcases h2 with h2 | ⟨h2, _⟩ <;> omega

/-! ### One sub-block -/

theorem process_channel_plug {S L : Type} (lib : specbleach L) (xf : signal_crossfade S)
    (block_size i : Nat) (audio_inputs : Nat → Nat → Nat)
    (acc : clap_noiserf_instance S L × (Nat → Nat → Nat)) (channel : Nat) :
    (process_channel lib xf block_size i audio_inputs acc channel).1.plug = acc.1.plug := by
  unfold process_channel
  cases acc.1.lib_instance channel <;> cases h : acc.1.soft_bypass <;> simp [h]

theorem process_channels_plug {S L : Type} (lib : specbleach L) (xf : signal_crossfade S)
    (block_size i : Nat) (audio_inputs : Nat → Nat → Nat) (l : List Nat) :
    ∀ acc : clap_noiserf_instance S L × (Nat → Nat → Nat),
      (l.foldl (process_channel lib xf block_size i audio_inputs) acc).1.plug = acc.1.plug := by
  induction l with
  | nil => intro acc; rfl
  | cons c l ih =>
    intro acc
    rw [List.foldl_cons, ih, process_channel_plug]

theorem process_channel_counts {S L : Type} (lib : specbleach L) (xf : signal_crossfade S)
    (block_size i : Nat) (audio_inputs : Nat → Nat → Nat)
    (acc : clap_noiserf_instance S (L × Nat) × (Nat → Nat → Nat)) (channel : Nat) :
    reset_counts
        (process_channel (counting_resets lib) xf block_size i audio_inputs acc channel).1 =
      reset_counts acc.1 := by
  funext c
  unfold process_channel reset_counts
  cases hx : acc.1.lib_instance channel <;> cases hs : acc.1.soft_bypass
  · simp [hx, hs]
  · simp [hx, hs]
  · simp only [hs]
    by_cases e : c = channel
    · subst e
      simp [hx, counting_resets]
    · simp [Function.update_noteq e]
  · simp only [hs]
    by_cases e : c = channel
    · subst e
      simp [hx, counting_resets]
    · simp [Function.update_noteq e]

theorem process_channels_counts {S L : Type} (lib : specbleach L) (xf : signal_crossfade S)
    (block_size i : Nat) (audio_inputs : Nat → Nat → Nat) (l : List Nat) :
    ∀ acc : clap_noiserf_instance S (L × Nat) × (Nat → Nat → Nat),
      reset_counts
          (l.foldl (process_channel (counting_resets lib) xf block_size i audio_inputs) acc).1 =
        reset_counts acc.1 := by
  induction l with
  | nil => intro acc; rfl
  | cons c l ih =>
    intro acc
    rw [List.foldl_cons, ih, process_channel_counts]

theorem sub_block_control {S L : Type} (cv : c_conversions) (lib : specbleach L)
    (xf : signal_crossfade S) (process : clap_process) (st : process_locals S L)
    (h : at_loop_head process st) :
    at_loop_head process (process_sub_block cv lib xf process st) ∧
    ((process_sub_block cv lib xf process st).i < process.frames_count →
      turns_left process.in_events (process_sub_block cv lib xf process st).i
          (process_sub_block cv lib xf process st).ev_index <
        turns_left process.in_events st.i st.ev_index) := by
  obtain ⟨h1, h2, h3⟩ := h
  have ei : (process_sub_block cv lib xf process st).i =
      (handle_events cv process.in_events process.frames_count st.i
        (process.in_events.length - st.ev_index) st.self.plug st.ev_index
        st.next_ev_frame).2.2 := rfl
  have ek : (process_sub_block cv lib xf process st).ev_index =
      (handle_events cv process.in_events process.frames_count st.i
        (process.in_events.length - st.ev_index) st.self.plug st.ev_index
        st.next_ev_frame).2.1 := rfl
  have en : (process_sub_block cv lib xf process st).next_ev_frame =
      (handle_events cv process.in_events process.frames_count st.i
        (process.in_events.length - st.ev_index) st.self.plug st.ev_index
        st.next_ev_frame).2.2 := rfl
  unfold at_loop_head
  rw [ei, ek, en]
  by_cases hk : st.ev_index < process.in_events.length
  · rw [h2 hk]
    rcases handle_events_spec cv process.in_events process.frames_count st.i
      (process.in_events.length - st.ev_index) st.self.plug st.ev_index rfl hk with
      ⟨e1, e2⟩ | ⟨hlt, e1, _, e2⟩
    · rw [e1, e2]
      exact ⟨⟨le_refl _, fun hc => absurd hc (lt_irrefl _), fun _ => rfl⟩,
        fun hc => absurd hc (lt_irrefl _)⟩
    · refine ⟨⟨hlt.le, fun _ => rfl, fun hc => absurd hlt (by omega)⟩, fun _ => ?_⟩
      unfold turns_left
      rw [dif_pos hlt, dif_pos hk, if_pos e1.symm]
      rcases e2 with e2 | ⟨e2, e3⟩
      · omega
      · rw [if_neg (e3 hk)]
        omega
  · have hd := handle_events_done cv process.in_events process.frames_count st.i
      (process.in_events.length - st.ev_index) st.self.plug st.ev_index st.next_ev_frame
      (fun hc => hk hc.1)
    rw [hd]
    dsimp only
    rw [h3 (by omega)]
    exact ⟨⟨h1, fun hc => absurd hc hk, fun _ => rfl⟩, fun hc => absurd hc (lt_irrefl _)⟩

theorem turns_left_pos (in_events : List clap_event) (i ev_index : Nat) :
    1 ≤ turns_left in_events i ev_index := by
  unfold turns_left
  split_ifs <;> omega

/-- The sub-block loop of `process` ends: from the head of the loop, as many turns as
`turns_left` counts are enough. -/
theorem process_loop_ends {S L : Type} (cv : c_conversions) (lib : specbleach L)
    (xf : signal_crossfade S) (process : clap_process) :
    ∀ (fuel : Nat) (st : process_locals S L), at_loop_head process st →
      (st.i < process.frames_count → turns_left process.in_events st.i st.ev_index ≤ fuel) →
      ∃ st', process_loop cv lib xf process fuel st = some st' := by
  intro fuel
  induction fuel with
  | zero =>
    intro st _ hm
    by_cases hi : st.i < process.frames_count
    · have := hm hi
      have := turns_left_pos process.in_events st.i st.ev_index
      omega
    · exact ⟨st, by simp only [process_loop, if_neg hi]⟩
  | succ fuel ih =>
    intro st hh hm
    by_cases hi : st.i < process.frames_count
    · obtain ⟨c1, c2⟩ := sub_block_control cv lib xf process st hh
      obtain ⟨st', hst⟩ := ih (process_sub_block cv lib xf process st) c1
        (fun hlt => by have := c2 hlt; have := hm hi; omega)
      exact ⟨st', by simp only [process_loop, if_pos hi, hst]⟩
    · exact ⟨st, by simp only [process_loop, if_neg hi]⟩

theorem at_loop_head_start {S L : Type} (lib : specbleach L)
    (self : clap_noiserf_instance S L) (process : clap_process) :
    at_loop_head process (process_start lib self process) ∧
    turns_left process.in_events (process_start lib self process).i
      (process_start lib self process).ev_index ≤ 2 * process.in_events.length + 1 := by
  refine ⟨⟨Nat.zero_le _, fun hk => ?_, fun hk => ?_⟩, ?_⟩
  · have hk' : 0 < process.in_events.length := hk
    simp [process_start, hk']
  · have hk' : process.in_events.length ≤ 0 := hk
    have : ¬ process.in_events.length > 0 := by omega
    simp [process_start, this]
  · show turns_left process.in_events 0 0 ≤ _
    unfold turns_left
    split_ifs <;> omega

theorem process_eq {S L : Type} (cv : c_conversions) (lib : specbleach L)
    (xf : signal_crossfade S) (self : clap_noiserf_instance S L) (p : clap_process) :
    process cv lib xf self p =
      (process_loop cv lib xf p (2 * p.in_events.length + 1) (process_start lib self p)).map
        (fun st =>
          (CLAP_PROCESS_CONTINUE, store_noise_profile lib st.self st.noise_profile_changed,
            st.audio_outputs)) := by
  unfold process process_start
  dsimp only
  cases process_loop cv lib xf p (2 * p.in_events.length + 1) _ <;> rfl

/-- The function `process` returns on every input. -/
theorem process_returns {S L : Type} (cv : c_conversions) (lib : specbleach L)
    (xf : signal_crossfade S) (self : clap_noiserf_instance S L) (p : clap_process) :
    ∃ st, process_loop cv lib xf p (2 * p.in_events.length + 1) (process_start lib self p) =
        some st ∧
      process cv lib xf self p =
        some (CLAP_PROCESS_CONTINUE, store_noise_profile lib st.self st.noise_profile_changed,
          st.audio_outputs) := by
  obtain ⟨h1, h2⟩ := at_loop_head_start lib self p
  obtain ⟨st, hst⟩ := process_loop_ends cv lib xf p _ _ h1 (fun _ => h2)
  exact ⟨st, hst, by rw [process_eq, hst]; rfl⟩

/-! ### The pending noise profile -/

theorem consume_pending_flag {S L : Type} (lib : specbleach L)
    (self : clap_noiserf_instance S L) :
    (consume_pending_noise_profile lib self).1 =
      consume_sees_dirty self.plug.pending_noise_profile_change := by
  unfold consume_pending_noise_profile noise_profile_state_consume
  cases h : consume_sees_dirty self.plug.pending_noise_profile_change <;> simp [h]

theorem consume_pending_frame {S L : Type} (lib : specbleach L)
    (self : clap_noiserf_instance S L) :
    (consume_pending_noise_profile lib self).2.plug.channel_count = self.plug.channel_count ∧
    (consume_pending_noise_profile lib self).2.plug.reset_profile = self.plug.reset_profile ∧
    (consume_pending_noise_profile lib self).2.soft_bypass = self.soft_bypass := by
  unfold consume_pending_noise_profile
  dsimp only
  split_ifs <;> exact ⟨rfl, rfl, rfl⟩

theorem consume_pending_instances {S L : Type} (lib : specbleach L)
    (self : clap_noiserf_instance S L) (channel : Nat) :
    (consume_pending_noise_profile lib self).2.lib_instance channel =
      if consume_sees_dirty self.plug.pending_noise_profile_change = true ∧
          channel < self.plug.channel_count then
        (self.lib_instance channel).map (fun x =>
          if (self.plug.pending_noise_profile_change.buffers
              (middle_index self.plug.pending_noise_profile_change)).size = 0 then
            (lib.specbleach_reset_noise_profile x).2
          else
            (lib.specbleach_load_noise_profile x
              ((self.plug.pending_noise_profile_change.buffers
                (middle_index self.plug.pending_noise_profile_change)).channels channel)
              (self.plug.pending_noise_profile_change.buffers
                (middle_index self.plug.pending_noise_profile_change)).size
              (self.plug.pending_noise_profile_change.buffers
                (middle_index self.plug.pending_noise_profile_change)).blocks_averaged).2)
      else self.lib_instance channel := by
  unfold consume_pending_noise_profile noise_profile_state_consume
  cases h : consume_sees_dirty self.plug.pending_noise_profile_change
  · simp
  · by_cases hc : channel < self.plug.channel_count
    · simp [for_each_channel, hc, consume_exchange, middle_index]
    · simp [for_each_channel, hc]

/-- C19: the block that opens `process` returns `noise_profile_changed` true exactly when
`pending_noise_profile_change` holds a pending update (its dirty bit is set). If one is
pending, then for every channel below `channel_count` the instance of that channel is the one
left by `specbleach_reset_noise_profile` when the size of the update is 0, and otherwise by
`specbleach_load_noise_profile` on the data of that channel, the size and the
`blocks_averaged` of the update; the other handles, and every handle when nothing is
pending, are as they were. The sub-block loop of `process` starts from the plugin this block
leaves. -/
theorem C19_pending_profile_installed {S L : Type} (cv : c_conversions) (lib : specbleach L)
    (xf : signal_crossfade S) (self : clap_noiserf_instance S L) (p : clap_process) :
    (consume_pending_noise_profile lib self).1 =
      consume_sees_dirty self.plug.pending_noise_profile_change ∧
    (∀ channel,
      (consume_pending_noise_profile lib self).2.lib_instance channel =
        if consume_sees_dirty self.plug.pending_noise_profile_change = true ∧
            channel < self.plug.channel_count then
          (self.lib_instance channel).map (fun x =>
            if (self.plug.pending_noise_profile_change.buffers
                (middle_index self.plug.pending_noise_profile_change)).size = 0 then
              (lib.specbleach_reset_noise_profile x).2
            else
              (lib.specbleach_load_noise_profile x
                ((self.plug.pending_noise_profile_change.buffers
                  (middle_index self.plug.pending_noise_profile_change)).channels channel)
                (self.plug.pending_noise_profile_change.buffers
                  (middle_index self.plug.pending_noise_profile_change)).size
                (self.plug.pending_noise_profile_change.buffers
                  (middle_index self.plug.pending_noise_profile_change)).blocks_averaged).2)
        else self.lib_instance channel) ∧
    process cv lib xf self p =
      (process_loop cv lib xf p (2 * p.in_events.length + 1)
        { self := (consume_pending_noise_profile lib self).2
          audio_outputs := p.audio_outputs
          i := 0
          ev_index := 0
          next_ev_frame := if p.in_events.length > 0 then 0 else p.frames_count
          noise_profile_changed := (consume_pending_noise_profile lib self).1 }).map
        (fun st =>
          (CLAP_PROCESS_CONTINUE, store_noise_profile lib st.self st.noise_profile_changed,
            st.audio_outputs)) :=
  ⟨consume_pending_flag lib self, consume_pending_instances lib self,
    process_eq cv lib xf self p⟩

/-! ### The reset-profile trigger -/

theorem consume_pending_counts {S L : Type} (lib : specbleach L)
    (self : clap_noiserf_instance S (L × Nat)) (channel : Nat)
    (hc : channel < self.plug.channel_count) :
    reset_counts (consume_pending_noise_profile (counting_resets lib) self).2 channel =
      (reset_counts self channel).map (fun n => n + pending_resets self) := by
  unfold reset_counts
  rw [consume_pending_instances]
  unfold pending_resets noise_profile_state_consume
  cases hx : self.lib_instance channel
  · simp
  · cases h : consume_sees_dirty self.plug.pending_noise_profile_change
    · simp
    · by_cases hs : (self.plug.pending_noise_profile_change.buffers
          (middle_index self.plug.pending_noise_profile_change)).size = 0
      · unfold middle_index at hs
        simp [hc, hs, consume_exchange, middle_index, counting_resets]
      · unfold middle_index at hs
        simp [hc, hs, consume_exchange, middle_index, counting_resets]

theorem sub_block_counts {S L : Type} (cv : c_conversions) (lib : specbleach L)
    (xf : signal_crossfade S) (p : clap_process) (st : process_locals S (L × Nat))
    (hev : ∀ e, e ∈ p.in_events → ¬ e.sets_reset_profile) :
    (process_sub_block cv (counting_resets lib) xf p st).self.plug.channel_count =
      st.self.plug.channel_count ∧
    (process_sub_block cv (counting_resets lib) xf p st).self.plug.reset_profile = false ∧
    ∀ channel,
      reset_counts (process_sub_block cv (counting_resets lib) xf p st).self channel =
        if st.self.plug.reset_profile = true ∧ channel < st.self.plug.channel_count then
          (reset_counts st.self channel).map (fun n => n + 1)
        else reset_counts st.self channel := by
  have hcc := handle_events_frame cv p.in_events p.frames_count st.i
    (p.in_events.length - st.ev_index) st.self.plug st.ev_index st.next_ev_frame
  have hrp := handle_events_reset_profile cv p.in_events p.frames_count st.i hev
    (p.in_events.length - st.ev_index) st.self.plug st.ev_index st.next_ev_frame
  unfold process_sub_block
  dsimp only
  rw [process_channels_plug, process_channels_counts]
  dsimp only
  refine ⟨?_, ?_, ?_⟩
  · split_ifs <;> exact hcc
  · split_ifs with h
    · rfl
    · simpa using h
  · intro channel
    rw [hrp, hcc]
    unfold reset_counts
    dsimp only
    cases hx : st.self.lib_instance channel <;>
      by_cases hr : st.self.plug.reset_profile = true <;>
      by_cases hc : channel < st.self.plug.channel_count <;>
      simp [for_each_channel, hx, hr, hc, counting_resets]

theorem process_loop_counts {S L : Type} (cv : c_conversions) (lib : specbleach L)
    (xf : signal_crossfade S) (p : clap_process)
    (hev : ∀ e, e ∈ p.in_events → ¬ e.sets_reset_profile) :
    ∀ (fuel : Nat) (st st' : process_locals S (L × Nat)),
      process_loop cv (counting_resets lib) xf p fuel st = some st' →
      st'.self.plug.channel_count = st.self.plug.channel_count ∧
      st'.self.plug.reset_profile =
        (if st.i < p.frames_count then false else st.self.plug.reset_profile) ∧
      ∀ channel, reset_counts st'.self channel =
        if (st.self.plug.reset_profile = true ∧ st.i < p.frames_count) ∧
            channel < st.self.plug.channel_count then
          (reset_counts st.self channel).map (fun n => n + 1)
        else reset_counts st.self channel := by
  intro fuel
  induction fuel with
  | zero =>
    intro st st' h
    by_cases hi : st.i < p.frames_count
    · simp [process_loop, hi] at h
    · simp only [process_loop, if_neg hi, Option.some.injEq] at h
      subst h
      simp [hi]
  | succ fuel ih =>
    intro st st' h
    by_cases hi : st.i < p.frames_count
    · simp only [process_loop, if_pos hi] at h
      obtain ⟨a1, a2, a3⟩ := ih _ _ h
      obtain ⟨b1, b2, b3⟩ := sub_block_counts cv lib xf p st hev
      refine ⟨a1.trans b1, ?_, fun channel => ?_⟩
      · rw [a2, b2, if_pos hi]
        simp
      · rw [a3, b2, b3]
        simp [hi]
    · simp only [process_loop, if_neg hi, Option.some.injEq] at h
      subst h
      simp [hi]

theorem store_noise_profile_frame {S L : Type} (lib : specbleach L)
    (self : clap_noiserf_instance S L) (changed : Bool) :
    (store_noise_profile lib self changed).lib_instance = self.lib_instance ∧
    (store_noise_profile lib self changed).soft_bypass = self.soft_bypass ∧
    (store_noise_profile lib self changed).plug.reset_profile = self.plug.reset_profile ∧
    (store_noise_profile lib self changed).plug.channel_count = self.plug.channel_count := by
  unfold store_noise_profile
  split
  · exact ⟨rfl, rfl, rfl, rfl⟩
  · dsimp only
    split_ifs <;> exact ⟨rfl, rfl, rfl, rfl⟩

/-- The calls of `specbleach_reset_noise_profile` that one call of `process` makes when no
event sets the reset-profile parameter: those of the pending update, and one more per channel
when the trigger is set and there is a frame to process. -/
theorem process_resets {S L : Type} (cv : c_conversions) (lib : specbleach L)
    (xf : signal_crossfade S) (self : clap_noiserf_instance S (L × Nat)) (p : clap_process)
    (hev : ∀ e, e ∈ p.in_events → ¬ e.sets_reset_profile) :
    ∃ (after : clap_noiserf_instance S (L × Nat)) (out : Nat → Nat → Nat),
      process cv (counting_resets lib) xf self p = some (CLAP_PROCESS_CONTINUE, after, out) ∧
      after.plug.channel_count = self.plug.channel_count ∧
      after.plug.reset_profile =
        (if 0 < p.frames_count then false else self.plug.reset_profile) ∧
      ∀ channel, channel < self.plug.channel_count →
        reset_counts after channel =
          (reset_counts self channel).map (fun n =>
            n + pending_resets self +
              (if self.plug.reset_profile = true ∧ 0 < p.frames_count then 1 else 0)) := by
  obtain ⟨st, hst, hp⟩ := process_returns cv (counting_resets lib) xf self p
  obtain ⟨a1, a2, a3⟩ := process_loop_counts cv lib xf p hev _ _ _ hst
  obtain ⟨s1, _, s3, s4⟩ :=
    store_noise_profile_frame (counting_resets lib) st.self st.noise_profile_changed
  obtain ⟨c1, c2, _⟩ := consume_pending_frame (counting_resets lib) self
  have e1 : (process_start (counting_resets lib) self p).self =
      (consume_pending_noise_profile (counting_resets lib) self).2 := rfl
  have e2 : (process_start (counting_resets lib) self p).i = 0 := rfl
  rw [e1] at a1 a2 a3
  rw [e2] at a2 a3
  rw [c1] at a1 a3
  rw [c2] at a2 a3
  refine ⟨_, _, hp, s4.trans a1, s3.trans a2, fun channel hc => ?_⟩
  have hrc : reset_counts
      (store_noise_profile (counting_resets lib) st.self st.noise_profile_changed) =
      reset_counts st.self := by
    unfold reset_counts
    rw [s1]
  rw [hrc, a3, consume_pending_counts lib self channel hc]
  by_cases h : self.plug.reset_profile = true ∧ 0 < p.frames_count
  · rw [if_pos ⟨h, hc⟩, if_pos h, Option.map_map]
    rfl
  · rw [if_neg (fun hh => h hh.1), if_neg h]
    rfl

/-- C20, the code at a call with no frame: a call of `process` with no frame, on a plugin whose
reset-profile trigger is set and with no event at all, returns with the trigger still set and
without a single call of `specbleach_reset_noise_profile` on either channel. -/
theorem C20_no_frame_keeps_trigger :
    sample_instance.plug.reset_profile = true ∧
    ∃ (after : clap_noiserf_instance Unit (Unit × Nat)) (out : Nat → Nat → Nat),
      process sample_conversions (counting_resets sample_library) sample_crossfade
        sample_instance empty_process = some (CLAP_PROCESS_CONTINUE, after, out) ∧
      after.plug.reset_profile = true ∧
      ∀ channel, channel < 2 → reset_counts after channel = some 0 := by
  have hr : sample_instance.plug.reset_profile = true := by decide
  have hp : pending_resets sample_instance = 0 := by decide
  obtain ⟨after, out, h1, _, h3, h4⟩ := process_resets sample_conversions sample_library
    sample_crossfade sample_instance empty_process (fun e he => by simp [empty_process] at he)
  refine ⟨hr, after, out, h1, ?_, fun channel hc => ?_⟩
  · rw [h3, hr]
    rfl
  · rw [h4 channel hc, hp]
    simp [reset_counts, sample_instance, hc, empty_process]

/-- C20 for calls with a frame: for every call of `process` with at least one frame in which
`reset_profile` is true on entry and no event sets the reset-profile parameter, `process` returns with
`reset_profile` false, and on every channel it has made exactly one call of
`specbleach_reset_noise_profile` besides those of a pending update of size 0; a following
call of `process` without such an event returns with `reset_profile` false and makes no call
of `specbleach_reset_noise_profile` besides those of a pending update. The calls are counted
by `counting_resets`, for any library. -/
theorem C20_reset_profile_one_shot {S L : Type} (cv : c_conversions) (lib : specbleach L)
    (xf : signal_crossfade S) (self : clap_noiserf_instance S (L × Nat)) (p : clap_process)
    (hf : 1 ≤ p.frames_count) (hr : self.plug.reset_profile = true)
    (hev : ∀ e, e ∈ p.in_events → ¬ e.sets_reset_profile) :
    ∃ (after : clap_noiserf_instance S (L × Nat)) (out : Nat → Nat → Nat),
      process cv (counting_resets lib) xf self p = some (CLAP_PROCESS_CONTINUE, after, out) ∧
      after.plug.reset_profile = false ∧
      (∀ channel, channel < self.plug.channel_count →
        reset_counts after channel =
          (reset_counts self channel).map (fun n => n + pending_resets self + 1)) ∧
      ∀ next : clap_process, (∀ e, e ∈ next.in_events → ¬ e.sets_reset_profile) →
        ∃ (later : clap_noiserf_instance S (L × Nat)) (out2 : Nat → Nat → Nat),
          process cv (counting_resets lib) xf after next =
            some (CLAP_PROCESS_CONTINUE, later, out2) ∧
          later.plug.reset_profile = false ∧
          ∀ channel, channel < self.plug.channel_count →
            reset_counts later channel =
              (reset_counts after channel).map (fun n => n + pending_resets after) := by
  obtain ⟨after, out, h1, h2, h3, h4⟩ := process_resets cv lib xf self p hev
  have hpos : 0 < p.frames_count := hf
  rw [if_pos hpos] at h3
  refine ⟨after, out, h1, h3, fun channel hc => ?_, fun next hnext => ?_⟩
  · rw [h4 channel hc, if_pos ⟨hr, hpos⟩]
  · obtain ⟨later, out2, g1, _, g3, g4⟩ := process_resets cv lib xf after next hnext
    refine ⟨later, out2, g1, ?_, fun channel hc => ?_⟩
    · rw [g3, h3]
      simp
    · rw [g4 channel (by rw [h2]; exact hc)]
      have : ¬ (after.plug.reset_profile = true ∧ 0 < next.frames_count) := by
        rw [h3]
        simp
      rw [if_neg this]
      rfl

/-- C20 at the sample plugin and a call of 64 frames with one event. -/
theorem C20_reset_profile_one_shot_witness :
    ∃ (after : clap_noiserf_instance Unit (Unit × Nat)) (out : Nat → Nat → Nat),
      process sample_conversions (counting_resets sample_library) sample_crossfade
        sample_instance sample_process = some (CLAP_PROCESS_CONTINUE, after, out) ∧
      after.plug.reset_profile = false ∧
      ∀ channel, channel < sample_instance.plug.channel_count →
        reset_counts after channel =
          (reset_counts sample_instance channel).map
            (fun n => n + pending_resets sample_instance + 1) := by
  obtain ⟨after, out, h1, h2, h3, _⟩ :=
    C20_reset_profile_one_shot sample_conversions sample_library sample_crossfade
      sample_instance sample_process (by decide) (by decide)
      (fun e he => by
        simp only [sample_process, List.mem_singleton] at he
        subst he
        unfold clap_event.sets_reset_profile
        decide)
  exact ⟨after, out, h1, h2, h3⟩

/-! ### Consuming with nothing pending, producing with nothing consumed -/

theorem consume_clean {T : Type} (b : noise_profile_state_swap_buffers T)
    (h : consume_sees_dirty b = false) :
    noise_profile_state_consume b = (false, b.front_buffer_index, b) := by
  simp [noise_profile_state_consume, h]

theorem sees_dirty_after_exchange {T : Type} (b : noise_profile_state_swap_buffers T)
    (h : indices_distinct b) : consume_sees_dirty (consume_exchange b) = false := by
  obtain ⟨_, hf, _⟩ := h
  simp [consume_sees_dirty, consume_exchange, idx_and_dirty _ hf]

/-- C23: in every reachable state of the triple buffer whose dirty bit is clear,
`noise_profile_state_consume` returns false, yields the front slot and leaves the buffers
(the three indices and every slot) as they were; and after a consume that returned true the
next consume returns false, yields the slot the first one yielded and changes nothing. -/
theorem C23_consume_without_update {T : Type} (b : noise_profile_state_swap_buffers T)
    (hr : reachable b) :
    (consume_sees_dirty b = false →
      noise_profile_state_consume b = (false, b.front_buffer_index, b)) ∧
    ((noise_profile_state_consume b).1 = true →
      noise_profile_state_consume (noise_profile_state_consume b).2.2 =
        (false, (noise_profile_state_consume b).2.1, (noise_profile_state_consume b).2.2)) := by
  refine ⟨consume_clean b, fun h => ?_⟩
  have hd : consume_sees_dirty b = true := by
    by_contra hc
    have hc' : consume_sees_dirty b = false := by simpa using hc
    rw [consume_clean b hc'] at h
    exact absurd h (by simp)
  have he : noise_profile_state_consume b =
      (true, (consume_exchange b).front_buffer_index, consume_exchange b) := by
    simp [noise_profile_state_consume, hd]
  rw [he]
  exact consume_clean _ (sees_dirty_after_exchange b (indices_distinct_of_reachable b hr))

/-- C23 at a freshly initialised buffer after one write and publish: the consume returns
true, the one after it returns false and yields the same slot. -/
theorem C23_consume_without_update_witness :
    noise_profile_state_consume
        (noise_profile_state_consume
          (publish_noise_profile_state
            (write_noise_profile_state
              (init_noise_profile_buffers (zeroed_buffers (0 : Nat))) 7))).2.2 =
      (false,
        (noise_profile_state_consume
          (publish_noise_profile_state
            (write_noise_profile_state
              (init_noise_profile_buffers (zeroed_buffers (0 : Nat))) 7))).2.1,
        (noise_profile_state_consume
          (publish_noise_profile_state
            (write_noise_profile_state
              (init_noise_profile_buffers (zeroed_buffers (0 : Nat))) 7))).2.2) :=
  (C23_consume_without_update
    (publish_noise_profile_state
      (write_noise_profile_state (init_noise_profile_buffers (zeroed_buffers (0 : Nat))) 7))
    ⟨zeroed_buffers 0, [buffer_call.write 7, buffer_call.publish], rfl⟩).2 (by decide)

theorem producer_call_front {T : Type} (b : noise_profile_state_swap_buffers T)
    (h : indices_distinct b) (c : buffer_call T) (hc : c ≠ buffer_call.consume) :
    (apply_call b c).front_buffer_index = b.front_buffer_index ∧
    (apply_call b c).buffers b.front_buffer_index = b.buffers b.front_buffer_index := by
  cases c with
  | write v =>
    refine ⟨rfl, ?_⟩
    show Function.update b.buffers b.back_buffer_index v b.front_buffer_index = _
    exact Function.update_noteq (fun e => h.2.2.2.1 e.symm) _ _
  | publish => exact ⟨rfl, rfl⟩
  | consume => exact absurd rfl hc

theorem indices_distinct_apply_call {T : Type} (b : noise_profile_state_swap_buffers T)
    (h : indices_distinct b) (c : buffer_call T) : indices_distinct (apply_call b c) := by
  cases c with
  | write v => exact indices_distinct_write b v h
  | publish => exact indices_distinct_publish b h
  | consume => exact indices_distinct_consume b h

theorem producer_calls_front {T : Type} (calls : List (buffer_call T))
    (hc : ∀ c, c ∈ calls → c ≠ buffer_call.consume) :
    ∀ b : noise_profile_state_swap_buffers T, indices_distinct b →
      (apply_calls b calls).front_buffer_index = b.front_buffer_index ∧
      (apply_calls b calls).buffers b.front_buffer_index = b.buffers b.front_buffer_index := by
  induction calls with
  | nil => intro b _; exact ⟨rfl, rfl⟩
  | cons c cs ih =>
    intro b h
    obtain ⟨h1, h2⟩ := producer_call_front b h c (hc c (List.mem_cons_self _ _))
    obtain ⟨g1, g2⟩ := ih (fun c' hc' => hc c' (List.mem_cons_of_mem _ hc')) (apply_call b c)
      (indices_distinct_apply_call b h c)
    have e : apply_calls b (c :: cs) = apply_calls (apply_call b c) cs := rfl
    rw [e, g1, h1]
    refine ⟨rfl, ?_⟩
    rw [h1] at g2
    rw [g2, h2]

theorem write_and_publish_all_calls {T : Type} (vs : List T) :
    ∀ b : noise_profile_state_swap_buffers T,
      write_and_publish_all b vs =
        apply_calls b (vs.flatMap (fun v => [buffer_call.write v, buffer_call.publish])) := by
  induction vs with
  | nil => intro b; rfl
  | cons v vs ih =>
    intro b
    show write_and_publish_all (publish_noise_profile_state (write_noise_profile_state b v)) vs
      = _
    rw [ih]
    rfl

/-- C24: in every reachable state of the triple buffer, any sequence of calls of the
producer (stores into the slot `writable_noise_profile_state` returns and calls of
`publish_noise_profile_state`, in any order and number) leaves `front_buffer_index` and the
content of the front slot as they were; in particular any number of write-and-publish
steps does. -/
theorem C24_producer_keeps_front {T : Type} (b : noise_profile_state_swap_buffers T)
    (hr : reachable b) (calls : List (buffer_call T))
    (hc : ∀ c, c ∈ calls → c ≠ buffer_call.consume) (vs : List T) :
    ((apply_calls b calls).front_buffer_index = b.front_buffer_index ∧
      (apply_calls b calls).buffers (apply_calls b calls).front_buffer_index =
        b.buffers b.front_buffer_index) ∧
    ((write_and_publish_all b vs).front_buffer_index = b.front_buffer_index ∧
      (write_and_publish_all b vs).buffers (write_and_publish_all b vs).front_buffer_index =
        b.buffers b.front_buffer_index) := by
  have hd := indices_distinct_of_reachable b hr
  constructor
  · obtain ⟨h1, h2⟩ := producer_calls_front calls hc b hd
    exact ⟨h1, by rw [h1, h2]⟩
  · rw [write_and_publish_all_calls]
    obtain ⟨h1, h2⟩ := producer_calls_front
      (vs.flatMap (fun v => [buffer_call.write v, buffer_call.publish]))
      (fun c hc' => by
        simp only [List.mem_flatMap, List.mem_cons, List.mem_singleton, List.not_mem_nil,
          or_false] at hc'
        obtain ⟨v, _, rfl | rfl⟩ := hc' <;> simp) b hd
    exact ⟨h1, by rw [h1, h2]⟩

/-- C24 at a freshly initialised buffer and three write-and-publish steps. -/
theorem C24_producer_keeps_front_witness :
    (write_and_publish_all (init_noise_profile_buffers (zeroed_buffers (0 : Nat)))
        [5, 6, 7]).front_buffer_index = 2 ∧
    (write_and_publish_all (init_noise_profile_buffers (zeroed_buffers (0 : Nat)))
        [5, 6, 7]).buffers
      (write_and_publish_all (init_noise_profile_buffers (zeroed_buffers (0 : Nat)))
        [5, 6, 7]).front_buffer_index = 0 :=
  (C24_producer_keeps_front (init_noise_profile_buffers (zeroed_buffers (0 : Nat)))
    ⟨zeroed_buffers 0, [], rfl⟩ [] (fun c hc => absurd hc (List.not_mem_nil c)) [5, 6, 7]).2

/-! ### What `state_save` writes -/

/-- C25, the code at the sample plugin: the payload `state_save` writes is
`148 + 4 * size * channel_count` bytes long, four more than `144 + 4 * size * channel_count`. -/
theorem C25_saved_length_is_148 :
    ∃ (plug : clap_noiserf) (out : clap_ostream),
      state_save sample_conversions sample_plugin ⟨[], 0, none, false⟩ =
        some (true, plug, out) ∧
      out.written.length =
        148 + 4 * (saved_profile sample_plugin).size * sample_plugin.channel_count ∧
      out.written.length ≠
        144 + 4 * (saved_profile sample_plugin).size * sample_plugin.channel_count := by
  refine ⟨_, _, state_save_eq sample_conversions sample_plugin _ rfl, ?_⟩
  unfold saved_profile
  simp only [clap_ostream.accept, List.nil_append, payload_length, saved_pairs_length,
    PARAMS_COUNT]
  exact ⟨trivial, by omega⟩

/-- C25 with the length the code writes: on a stream that accepts all bytes `state_save`
returns true and has appended to the stream, in this order, the version 1 (4 bytes), the
parameter count 11 (4 bytes), for each parameter index 0..10 the id `param_get_info` gives
(4 bytes) and the value `param_get_value` gives for it (8 bytes), `blocks_averaged`
(4 bytes), `size` (4 bytes) and for each channel in order `size` floats of 4 bytes, all of
the profile `current_noise_profile(plug, false)` points to; that is
`148 + 4 * size * channel_count` bytes. -/
theorem C25_state_save_layout (cv : c_conversions) (plug : clap_noiserf) (s : clap_ostream)
    (hroom : s.room = none) :
    ∃ (after : clap_noiserf) (out : clap_ostream),
      state_save cv plug s = some (true, after, out) ∧
      out.written = s.written ++
        (le_encode 4 1 ++ (le_encode 4 11 ++
          ((List.range 11).flatMap (fun i =>
              le_encode 4 (param_get_info i).2.id ++
                le_encode 8 (param_get_value cv plug (param_get_info i).2.id).2) ++
            (le_encode 4 (saved_profile plug).blocks_averaged ++
              (le_encode 4 (saved_profile plug).size ++
                (List.range plug.channel_count).flatMap
                  (fun c => floats_bytes ((saved_profile plug).channels c)
                    (saved_profile plug).size)))))) ∧
      out.written.length =
        s.written.length + (148 + 4 * (saved_profile plug).size * plug.channel_count) := by
  refine ⟨_, _, state_save_eq cv plug s hroom, ?_, ?_⟩
  · simp only [clap_ostream.accept, payload, saved_pairs_length, PARAMS_COUNT, pairs_bytes,
      saved_pairs, channels_bytes, saved_profile, List.flatMap_map, List.range_eq_range',
      List.length_map, List.length_range']
  · simp only [clap_ostream.accept, List.length_append, payload_length, saved_pairs_length,
      PARAMS_COUNT, saved_profile]

/-- C25 at the sample plugin and an empty stream. -/
theorem C25_state_save_layout_witness :
    ∃ (after : clap_noiserf) (out : clap_ostream),
      state_save sample_conversions sample_plugin ⟨[], 3, none, false⟩ =
        some (true, after, out) ∧
      out.written.length =
        0 + (148 + 4 * (saved_profile sample_plugin).size * sample_plugin.channel_count) := by
  obtain ⟨after, out, h1, _, h3⟩ :=
    C25_state_save_layout sample_conversions sample_plugin ⟨[], 3, none, false⟩ rfl
  exact ⟨after, out, h1, h3⟩

/-! ### A stream that stops accepting bytes -/

theorem write_full_zero (s : clap_ostream) (buffer : List Nat) (size : Nat)
    (hroom : s.room = some 0) (he : s.full_is_error = false) :
    s.write buffer size = (0, s) := by
  simp [clap_ostream.write, hroom, he]

theorem write_full_error (s : clap_ostream) (buffer : List Nat) (size : Nat)
    (hroom : s.room = some 0) (he : s.full_is_error = true) :
    s.write buffer size = (-1, s) := by
  simp [clap_ostream.write, hroom, he]

theorem write_some_room (s : clap_ostream) (buffer : List Nat) (size k : Nat)
    (hroom : s.room = some (k + 1)) (h0 : size ≠ 0) :
    (s.write buffer size).1 = ((min size (min (k + 1) (s.chunk + 1)) : Nat) : Int) ∧
    (s.write buffer size).2.room = some (k + 1 - min size (min (k + 1) (s.chunk + 1))) ∧
    (s.write buffer size).2.full_is_error = s.full_is_error ∧
    0 < min size (min (k + 1) (s.chunk + 1)) := by
  refine ⟨by simp [clap_ostream.write, hroom], by simp [clap_ostream.write, hroom],
    by simp [clap_ostream.write, hroom], ?_⟩
  have : 0 < size := Nat.pos_of_ne_zero h0
  omega

/-- On a stream that, after `k` more bytes, accepts nothing and answers 0, the loop of
`write_to_stream` never exits when more than `k` bytes are to be written; when the stream
answers a negative value instead, `write_to_stream` returns false. -/
theorem write_to_stream_short (size : Nat) :
    ∀ (s : clap_ostream) (buffer : List Nat) (k : Nat), s.room = some k → k < size →
      (s.full_is_error = false → write_to_stream s buffer size = none) ∧
      (s.full_is_error = true → ∃ s', write_to_stream s buffer size = some (false, s')) := by
  induction size using Nat.strong_induction_on with
  | _ size ih =>
    intro s buffer k hroom hk
    have h0 : size ≠ 0 := by omega
    rw [write_to_stream, if_neg h0]
    cases k with
    | zero =>
      constructor
      · intro he
        rw [write_full_zero s buffer size hroom he]
        simp
      · intro he
        rw [write_full_error s buffer size hroom he]
        exact ⟨s, by simp⟩
    | succ k =>
      obtain ⟨w1, w2, w3, w4⟩ := write_some_room s buffer size k hroom h0
      have c1 : ¬ (s.write buffer size).1 < 0 := by rw [w1]; omega
      have c2 : ¬ (s.write buffer size).1 = 0 := by rw [w1]; omega
      rw [if_neg c1, if_neg c2]
      have hn : (s.write buffer size).1.toNat = min size (min (k + 1) (s.chunk + 1)) := by
        rw [w1]; rfl
      rw [hn]
      have := ih (size - min size (min (k + 1) (s.chunk + 1))) (by omega)
        (s.write buffer size).2 (buffer.drop (min size (min (k + 1) (s.chunk + 1))))
        (k + 1 - min size (min (k + 1) (s.chunk + 1))) w2 (by omega)
      rw [w3] at this
      exact this

theorem state_save_short (cv : c_conversions) (plug : clap_noiserf) (s : clap_ostream)
    (k : Nat) (hroom : s.room = some k) (hk : k < 4) :
    (s.full_is_error = false → state_save cv plug s = none) ∧
    (s.full_is_error = true → ∃ out, state_save cv plug s = some (false, plug, out)) := by
  obtain ⟨h1, h2⟩ := write_to_stream_short 4 s (le_encode 4 1) k hroom hk
  constructor
  · intro he
    simp [state_save, code_state, code, h1 he]
  · intro he
    obtain ⟨s', hs'⟩ := h2 he
    exact ⟨s', by simp [state_save, code_state, code, hs']⟩

/-- C26, the code at a stream that accepts two bytes and then answers 0: `write_to_stream`
never returns and neither does `state_save`; when the stream answers a negative value
instead, `state_save` returns false. -/
theorem C26_zero_write_never_returns :
    write_to_stream ⟨[], 0, some 2, false⟩ (le_encode 4 1) 4 = none ∧
    state_save sample_conversions sample_plugin ⟨[], 0, some 2, false⟩ = none ∧
    ∃ out, state_save sample_conversions sample_plugin ⟨[], 0, some 2, true⟩ =
      some (false, sample_plugin, out) :=
  ⟨(write_to_stream_short 4 ⟨[], 0, some 2, false⟩ _ 2 rfl (by decide)).1 rfl,
    (state_save_short sample_conversions sample_plugin ⟨[], 0, some 2, false⟩ 2 rfl
      (by decide)).1 rfl,
    (state_save_short sample_conversions sample_plugin ⟨[], 0, some 2, true⟩ 2 rfl
      (by decide)).2 rfl⟩

/-! ### Indices read while resampling -/

theorem interpolated_bin_locals {α : Type} (ar : float_arith α) (noise_profile : Nat → α)
    (noise_profile_size self_size k : Nat) :
    interpolated_bin ar noise_profile noise_profile_size self_size k =
      ar.add
        (ar.mul (ar.sub ar.one (alpha ar noise_profile_size self_size k))
          (noise_profile (idx_low ar noise_profile_size self_size k)))
        (ar.mul (alpha ar noise_profile_size self_size k)
          (noise_profile (idx_high ar noise_profile_size self_size k))) := rfl

theorem idx_high_le {α : Type} (ar : float_arith α) (N M k : Nat) (hN : 1 ≤ N)
    (hN2 : N < 2 ^ 32) : idx_high ar N M k ≤ N - 1 := by
  unfold idx_high
  split_ifs with h
  · rw [u32_pred_eq N hN hN2]
  · omega

theorem src_idx_rat (N M k : Nat) (hN : 1 ≤ N) (hN2 : N < 2 ^ 32) (hM : 2 ≤ M)
    (hM2 : M < 2 ^ 32) :
    src_idx rat_arith N M k = (k : ℚ) * ((N - 1 : Nat) : ℚ) / ((M - 1 : Nat) : ℚ) := by
  simp only [src_idx, rat_arith, u32_pred_eq N hN hN2, u32_pred_eq M (by omega) hM2]

/-- The indices of the loop of `set_noise_profile` in exact arithmetic: for a store of size
`M ≥ 1` and an incoming profile of size `N ≥ 1`, `N ≠ M` (both `uint32_t`), and every bin `k`
with `1 ≤ k < M`, the divisor `(float)(self->noise_profile_size - 1)` is `M - 1`, not 0; in any
arithmetic `idx_high ≤ N - 1`; and over the rationals `src_idx` is `k * (N - 1) / (M - 1)`,
`idx_low ≤ N - 1`, `0 ≤ alpha < 1`, and the value stored in bin `k` is
`(1 - alpha) * noise_profile[idx_low] + alpha * noise_profile[idx_high]`. -/
theorem resampling_reads_in_range_exact {α : Type} (ar : float_arith α) (noise_profile : Nat → ℚ)
    (N M k : Nat) (hM : 1 ≤ M) (hM2 : M < 2 ^ 32) (hN : 1 ≤ N) (hN2 : N < 2 ^ 32)
    (hne : N ≠ M) (hk1 : 1 ≤ k) (hk : k < M) :
    u32_pred M = M - 1 ∧ 1 ≤ u32_pred M ∧
    rat_arith.of_uint32 (u32_pred M) ≠ 0 ∧
    idx_high ar N M k ≤ N - 1 ∧
    src_idx rat_arith N M k = (k : ℚ) * ((N - 1 : Nat) : ℚ) / ((M - 1 : Nat) : ℚ) ∧
    idx_low rat_arith N M k ≤ N - 1 ∧
    idx_high rat_arith N M k ≤ N - 1 ∧
    0 ≤ alpha rat_arith N M k ∧ alpha rat_arith N M k < 1 ∧
    interpolated_bin rat_arith noise_profile N M k =
      (1 - alpha rat_arith N M k) * noise_profile (idx_low rat_arith N M k) +
        alpha rat_arith N M k * noise_profile (idx_high rat_arith N M k) ∧
    ∀ blocks (self : NoiseProfile ℚ), self.noise_profile_size = M →
      (profile_after_set rat_arith self noise_profile N blocks).noise_profile k =
        interpolated_bin rat_arith noise_profile N M k := by
  have hM' : 2 ≤ M := by omega
  have hp : u32_pred M = M - 1 := u32_pred_eq M hM hM2
  have hx := src_idx_rat N M k hN hN2 hM' hM2
  have hM1 : (0 : ℚ) < ((M - 1 : Nat) : ℚ) := by
    have : 0 < M - 1 := by omega
    exact_mod_cast this
  have hx0 : 0 ≤ src_idx rat_arith N M k := by
    rw [hx]
    exact div_nonneg (mul_nonneg (Nat.cast_nonneg k) (Nat.cast_nonneg _)) (Nat.cast_nonneg _)
  have hxN : src_idx rat_arith N M k ≤ ((N - 1 : Nat) : ℚ) := by
    rw [hx, div_le_iff₀ hM1]
    have hk' : (k : ℚ) ≤ ((M - 1 : Nat) : ℚ) := by
      have : k ≤ M - 1 := by omega
      exact_mod_cast this
    calc (k : ℚ) * ((N - 1 : Nat) : ℚ) ≤ ((M - 1 : Nat) : ℚ) * ((N - 1 : Nat) : ℚ) :=
          mul_le_mul_of_nonneg_right hk' (Nat.cast_nonneg _)
      _ = ((N - 1 : Nat) : ℚ) * ((M - 1 : Nat) : ℚ) := mul_comm _ _
  have hlow : idx_low rat_arith N M k = ⌊src_idx rat_arith N M k⌋₊ := rfl
  have halpha : alpha rat_arith N M k =
      src_idx rat_arith N M k - (⌊src_idx rat_arith N M k⌋₊ : ℚ) := rfl
  refine ⟨hp, by omega, ?_, idx_high_le ar N M k hN hN2, hx, ?_,
    idx_high_le rat_arith N M k hN hN2, ?_, ?_, rfl, ?_⟩
  · rw [hp]
    exact ne_of_gt hM1
  · rw [hlow]
    exact Nat.floor_le_of_le hxN
  · rw [halpha]
    have := Nat.floor_le hx0
    linarith
  · rw [halpha]
    have := Nat.lt_floor_add_one (src_idx rat_arith N M k)
    linarith
  · intro blocks self hs
    subst hs
    rw [profile_after_set_resized rat_arith self noise_profile N blocks hne]
    simp [hk1, hk]

/-- The exact arithmetic at a store of 5 bins receiving a 3-bin profile, bin 3. -/
theorem resampling_reads_in_range_exact_example :
    idx_low rat_arith 3 5 3 ≤ 3 - 1 ∧ idx_high rat_arith 3 5 3 ≤ 3 - 1 ∧
    0 ≤ alpha rat_arith 3 5 3 ∧ alpha rat_arith 3 5 3 < 1 := by
  obtain ⟨_, _, _, _, _, h1, h2, h3, h4, _⟩ :=
    resampling_reads_in_range_exact rat_arith (fun i => (i : ℚ) + 1) 3 5 3 (by decide)
      (by decide) (by decide) (by decide) (by decide) (by decide) (by decide)
  exact ⟨h1, h2, h3, h4⟩

/-! ### The frame inside the buffer -/

/-- C30, the code at a frame size above `2^31`: for `frame_size = 2^31 + 1` the transform
`fft_transform_initialize` makes has `fft_size = 32`, so `copy_position + frame_size` is
above `fft_size`. -/
theorem C30_huge_frame_outside_buffer :
    ( fft_transform_initialize rat_arith (2 ^ 31 + 1) 0 0).fft_size = 32 ∧
    ( fft_transform_initialize rat_arith (2 ^ 31 + 1) 0 0).frame_size = 2 ^ 31 + 1 ∧
    ¬ (( fft_transform_initialize rat_arith (2 ^ 31 + 1) 0 0).copy_position +
        ( fft_transform_initialize rat_arith (2 ^ 31 + 1) 0 0).frame_size ≤
      ( fft_transform_initialize rat_arith (2 ^ 31 + 1) 0 0).fft_size) := by
  refine ⟨by decide, by decide, by decide⟩

/-- C30 for the frame sizes the cast keeps: for every `frame_size` below `2^31`, after
`fft_transform_initialize` `copy_position + frame_size ≤ fft_size`, so every index `i` of the
loops of `fft_load_input_samples` and `fft_get_output_samples`
(`copy_position ≤ i < frame_size + copy_position`) is below `fft_size`; after
`fft_transform_initialize_bins` `copy_position` is 0 and `frame_size` is `fft_size`, and the
same holds. -/
theorem C30_frame_fits_buffer {α : Type} (ar : float_arith α)
    (frame_size padding_type zeropadding_amount fft_size : Nat) (h : frame_size < 2 ^ 31)
    (hb : fft_size < 2 ^ 32) :
    (( fft_transform_initialize ar frame_size padding_type zeropadding_amount).copy_position +
        ( fft_transform_initialize ar frame_size padding_type zeropadding_amount).frame_size ≤
      ( fft_transform_initialize ar frame_size padding_type zeropadding_amount).fft_size ∧
      ∀ i,
        ( fft_transform_initialize ar frame_size padding_type zeropadding_amount).copy_position
          ≤ i →
        i < (( fft_transform_initialize ar frame_size padding_type
              zeropadding_amount).frame_size +
            ( fft_transform_initialize ar frame_size padding_type
              zeropadding_amount).copy_position) % 2 ^ 32 →
        i < ( fft_transform_initialize ar frame_size padding_type zeropadding_amount).fft_size) ∧
    ((fft_transform_initialize_bins ar fft_size).copy_position = 0 ∧
      (fft_transform_initialize_bins ar fft_size).frame_size =
        (fft_transform_initialize_bins ar fft_size).fft_size ∧
      ∀ i, (fft_transform_initialize_bins ar fft_size).copy_position ≤ i →
        i < ((fft_transform_initialize_bins ar fft_size).frame_size +
            (fft_transform_initialize_bins ar fft_size).copy_position) % 2 ^ 32 →
        i < (fft_transform_initialize_bins ar fft_size).fft_size) := by
  have key : ∀ t : FftTransform α, t.in_bounds →
      ∀ i, t.copy_position ≤ i → i < (t.frame_size + t.copy_position) % 2 ^ 32 →
        i < t.fft_size := by
    intro t ht i _ hi
    obtain ⟨h1, h2⟩ := ht
    rw [Nat.mod_eq_of_lt (by omega)] at hi
    omega
  have h1 := fft_transform_initialize_in_bounds ar frame_size padding_type zeropadding_amount h
  have h2 := fft_transform_initialize_bins_in_bounds ar fft_size hb
  exact ⟨⟨h1.1, key _ h1⟩, rfl, rfl, key _ h2⟩

/-- C30 at `frame_size = 33` and at 64 bins. -/
theorem C30_frame_fits_buffer_witness :
    ( fft_transform_initialize rat_arith 33 0 0).copy_position +
        ( fft_transform_initialize rat_arith 33 0 0).frame_size ≤
      ( fft_transform_initialize rat_arith 33 0 0).fft_size ∧
    (fft_transform_initialize_bins rat_arith 64).copy_position = 0 :=
  ⟨(C30_frame_fits_buffer rat_arith 33 0 0 64 (by decide) (by decide)).1.1,
    (C30_frame_fits_buffer rat_arith 33 0 0 64 (by decide) (by decide)).2.1⟩

/-! ### The snapshot `process` publishes -/

theorem process_event_buffers (cv : c_conversions) (plug : clap_noiserf) (hdr : clap_event) :
    (process_event cv plug hdr).pending_noise_profile_change =
      plug.pending_noise_profile_change ∧
    (process_event cv plug hdr).current_noise_profile = plug.current_noise_profile := by
  unfold process_event
  split_ifs
  · exact (set_value_frame cv plug hdr.param_id hdr.value).2
  · exact ⟨rfl, rfl⟩
  · exact ⟨rfl, rfl⟩

theorem handle_events_buffers (cv : c_conversions) (in_events : List clap_event)
    (frame_count i : Nat) :
    ∀ (fuel : Nat) (plug : clap_noiserf) (ev_index next_ev_frame : Nat),
      (handle_events cv in_events frame_count i fuel plug ev_index
          next_ev_frame).1.pending_noise_profile_change = plug.pending_noise_profile_change ∧
      (handle_events cv in_events frame_count i fuel plug ev_index
          next_ev_frame).1.current_noise_profile = plug.current_noise_profile := by
  intro fuel
  induction fuel with
  | zero => intro plug ev_index next_ev_frame; exact ⟨rfl, rfl⟩
  | succ fuel ih =>
    intro plug ev_index next_ev_frame
    simp only [handle_events]
    split_ifs
    · exact ⟨rfl, rfl⟩
    · exact process_event_buffers cv plug _
    · obtain ⟨a, b⟩ := ih (process_event cv plug _) (ev_index + 1) next_ev_frame
      obtain ⟨c, d⟩ := process_event_buffers cv plug (in_events.get ⟨ev_index, by omega⟩)
      exact ⟨a.trans c, b.trans d⟩
    · exact ⟨rfl, rfl⟩

theorem sub_block_changed {S L : Type} (cv : c_conversions) (lib : specbleach L)
    (xf : signal_crossfade S) (p : clap_process) (st : process_locals S L) :
    (process_sub_block cv lib xf p st).noise_profile_changed =
      (st.noise_profile_changed || decide ((sub_block_plug cv p st).learn_noise ≠ 0)) ∧
    (process_sub_block cv lib xf p st).self.plug.current_noise_profile =
      st.self.plug.current_noise_profile ∧
    (process_sub_block cv lib xf p st).self.plug.channel_count =
      st.self.plug.channel_count := by
  refine ⟨?_, ?_, ?_⟩
  · show (if (sub_block_plug cv p st).learn_noise ≠ 0 then true
      else st.noise_profile_changed) = _
    by_cases h : (sub_block_plug cv p st).learn_noise ≠ 0
    · simp [h]
    · simp [h]
  · unfold process_sub_block
    dsimp only
    rw [process_channels_plug]
    dsimp only
    have := (handle_events_buffers cv p.in_events p.frames_count st.i
      (p.in_events.length - st.ev_index) st.self.plug st.ev_index st.next_ev_frame).2
    split_ifs <;> exact this
  · unfold process_sub_block
    dsimp only
    rw [process_channels_plug]
    dsimp only
    have := handle_events_frame cv p.in_events p.frames_count st.i
      (p.in_events.length - st.ev_index) st.self.plug st.ev_index st.next_ev_frame
    split_ifs <;> exact this

theorem process_loop_changed {S L : Type} (cv : c_conversions) (lib : specbleach L)
    (xf : signal_crossfade S) (p : clap_process) :
    ∀ (fuel : Nat) (st st' : process_locals S L),
      process_loop cv lib xf p fuel st = some st' →
      st'.noise_profile_changed =
        (st.noise_profile_changed ||
          (sub_blocks cv lib xf p fuel st).any
            (fun s => decide ((sub_block_plug cv p s).learn_noise ≠ 0))) ∧
      st'.self.plug.current_noise_profile = st.self.plug.current_noise_profile ∧
      st'.self.plug.channel_count = st.self.plug.channel_count := by
  intro fuel
  induction fuel with
  | zero =>
    intro st st' h
    by_cases hi : st.i < p.frames_count
    · simp [process_loop, hi] at h
    · simp only [process_loop, if_neg hi, Option.some.injEq] at h
      subst h
      simp [sub_blocks]
  | succ fuel ih =>
    intro st st' h
    by_cases hi : st.i < p.frames_count
    · simp only [process_loop, if_pos hi] at h
      obtain ⟨a1, a2, a3⟩ := ih _ _ h
      obtain ⟨b1, b2, b3⟩ := sub_block_changed cv lib xf p st
      refine ⟨?_, a2.trans b2, a3.trans b3⟩
      rw [a1, b1]
      simp only [sub_blocks, if_pos hi, List.any_cons, Bool.or_assoc]
    · simp only [process_loop, if_neg hi, Option.some.injEq] at h
      subst h
      simp [sub_blocks, hi]

theorem store_noise_profile_current {S L : Type} (lib : specbleach L)
    (self : clap_noiserf_instance S L) (changed : Bool) :
    ((changed = true ∧
        ∃ x0, self.lib_instance 0 = some x0 ∧
          lib.specbleach_noise_profile_available x0 = true) →
      ∃ (x0 : L) (snapshot : noise_profile_state),
        self.lib_instance 0 = some x0 ∧
        (store_noise_profile lib self changed).plug.current_noise_profile =
          publish_noise_profile_state
            (write_noise_profile_state self.plug.current_noise_profile snapshot) ∧
        snapshot.size = lib.specbleach_get_noise_profile_size x0 ∧
        snapshot.blocks_averaged = lib.specbleach_get_noise_profile_blocks_averaged x0 ∧
        ∀ channel, channel < self.plug.channel_count → ∀ x, self.lib_instance channel = some x →
          ∀ k, k < snapshot.size →
            snapshot.channels channel k = lib.specbleach_get_noise_profile x k) ∧
    (¬ (changed = true ∧
        ∃ x0, self.lib_instance 0 = some x0 ∧
          lib.specbleach_noise_profile_available x0 = true) →
      (store_noise_profile lib self changed).plug.current_noise_profile =
        self.plug.current_noise_profile) := by
  constructor
  · rintro ⟨hc, x0, hx0, hav⟩
    refine ⟨x0,
      { size := lib.specbleach_get_noise_profile_size x0
        blocks_averaged := lib.specbleach_get_noise_profile_blocks_averaged x0
        channels := fun channel =>
          if channel < self.plug.channel_count then
            match self.lib_instance channel with
            | none =>
              (self.plug.current_noise_profile.buffers
                (writable_noise_profile_state self.plug.current_noise_profile)).channels channel
            | some x =>
              memcpy_floats
                ((self.plug.current_noise_profile.buffers
                  (writable_noise_profile_state self.plug.current_noise_profile)).channels
                  channel)
                (lib.specbleach_get_noise_profile x)
                (lib.specbleach_get_noise_profile_size x0)
          else
            (self.plug.current_noise_profile.buffers
              (writable_noise_profile_state self.plug.current_noise_profile)).channels
              channel },
      hx0, ?_, rfl, rfl, ?_⟩
    · unfold store_noise_profile
      rw [hx0]
      dsimp only
      rw [if_pos ⟨hav, hc⟩]
    · intro channel hch x hx k hk
      simp only [hch, hx, if_true, memcpy_floats]
      rw [if_pos hk]
  · intro hn
    unfold store_noise_profile
    cases hx : self.lib_instance 0 with
    | none => rfl
    | some x0 =>
      dsimp only
      rw [if_neg (fun h => hn ⟨h.2, x0, hx, h.1⟩)]

/-- C21: `process` returns, and it calls `publish_noise_profile_state` on
`current_noise_profile` exactly when `noise_profile_changed` is true after the sub-block loop
and `specbleach_noise_profile_available` holds of the instance of channel 0 then. The flag is
true exactly when a pending update was consumed or `learn_noise` was non-zero in some
sub-block. The snapshot written before the publish carries the size and the
`blocks_averaged` of the instance of channel 0 and, for every channel below `channel_count`,
the first `size` bins of the profile of its instance. Without a publish
`current_noise_profile` is as it was on entry. -/
theorem C21_snapshot_published_when_changed {S L : Type} (cv : c_conversions)
    (lib : specbleach L) (xf : signal_crossfade S) (self : clap_noiserf_instance S L)
    (p : clap_process) :
    ∃ (st : process_locals S L) (after : clap_noiserf_instance S L) (out : Nat → Nat → Nat),
      process_loop cv lib xf p (2 * p.in_events.length + 1) (process_start lib self p) =
        some st ∧
      process cv lib xf self p = some (CLAP_PROCESS_CONTINUE, after, out) ∧
      after.lib_instance = st.self.lib_instance ∧
      st.noise_profile_changed =
        (consume_sees_dirty self.plug.pending_noise_profile_change ||
          (sub_blocks cv lib xf p (2 * p.in_events.length + 1) (process_start lib self p)).any
            (fun s => decide ((sub_block_plug cv p s).learn_noise ≠ 0))) ∧
      ((st.noise_profile_changed = true ∧
          ∃ x0, after.lib_instance 0 = some x0 ∧
            lib.specbleach_noise_profile_available x0 = true) →
        ∃ (x0 : L) (snapshot : noise_profile_state),
          after.lib_instance 0 = some x0 ∧
          after.plug.current_noise_profile =
            publish_noise_profile_state
              (write_noise_profile_state self.plug.current_noise_profile snapshot) ∧
          snapshot.size = lib.specbleach_get_noise_profile_size x0 ∧
          snapshot.blocks_averaged = lib.specbleach_get_noise_profile_blocks_averaged x0 ∧
          ∀ channel, channel < self.plug.channel_count →
            ∀ x, after.lib_instance channel = some x →
              ∀ k, k < snapshot.size →
                snapshot.channels channel k = lib.specbleach_get_noise_profile x k) ∧
      (¬ (st.noise_profile_changed = true ∧
          ∃ x0, after.lib_instance 0 = some x0 ∧
            lib.specbleach_noise_profile_available x0 = true) →
        after.plug.current_noise_profile = self.plug.current_noise_profile) := by
  obtain ⟨st, hst, hp⟩ := process_returns cv lib xf self p
  obtain ⟨a1, a2, a3⟩ := process_loop_changed cv lib xf p _ _ _ hst
  obtain ⟨s1, _, _, _⟩ := store_noise_profile_frame lib st.self st.noise_profile_changed
  obtain ⟨k1, k2⟩ := store_noise_profile_current lib st.self st.noise_profile_changed
  have e0 : (process_start lib self p).noise_profile_changed =
      consume_sees_dirty self.plug.pending_noise_profile_change :=
    consume_pending_flag lib self
  have e1 : (process_start lib self p).self.plug.current_noise_profile =
      self.plug.current_noise_profile := by
    show (consume_pending_noise_profile lib self).2.plug.current_noise_profile = _
    unfold consume_pending_noise_profile
    dsimp only
    split_ifs <;> rfl
  have e2 : st.self.plug.channel_count = self.plug.channel_count :=
    a3.trans (consume_pending_frame lib self).1
  rw [e0] at a1
  rw [e1] at a2
  refine ⟨st, _, _, hst, hp, s1, a1, ?_, ?_⟩
  · rw [s1]
    intro h
    obtain ⟨x0, snapshot, g1, g2, g3, g4, g5⟩ := k1 h
    rw [a2] at g2
    rw [e2] at g5
    exact ⟨x0, snapshot, g1, g2, g3, g4, g5⟩
  · rw [s1]
    intro h
    rw [k2 h, a2]

/-! ### A failed `activate` -/

/-- C22, the code at a stereo plugin fresh from `create` and `init` when the crossfade and the
instance of channel 0 are created and the instance of channel 1 is not: both handles
`soft_bypass` and `lib_instance[0]` were null before the call; `activate` returns false and
leaves in them the crossfade and the instance it has created. -/
theorem C22_failed_activate_keeps_instances :
    (created sample_conversions 2 : clap_noiserf_instance Unit Unit).soft_bypass = none ∧
    (created sample_conversions 2 : clap_noiserf_instance Unit Unit).lib_instance 0 = none ∧
    (activate sample_conversions failing_library sample_crossfade
      (created sample_conversions 2) double_48000 64 64).1 = false ∧
    (activate sample_conversions failing_library sample_crossfade
      (created sample_conversions 2) double_48000 64 64).2.soft_bypass = some () ∧
    (activate sample_conversions failing_library sample_crossfade
      (created sample_conversions 2) double_48000 64 64).2.lib_instance 0 = some () ∧
    (activate sample_conversions failing_library sample_crossfade
      (created sample_conversions 2) double_48000 64 64).2.lib_instance 1 = none := by
  refine ⟨rfl, rfl, by decide, by decide, by decide, by decide⟩

theorem activate_sample_rate_too_high {S L : Type} (cv : c_conversions) (lib : specbleach L)
    (xf : signal_crossfade S) (self : clap_noiserf_instance S L)
    (sample_rate min_frames_count max_frames_count : Nat)
    (h : double_gt_192000 sample_rate = true) :
    activate cv lib xf self sample_rate min_frames_count max_frames_count = (false, self) := by
  simp [activate, h]

theorem activate_no_crossfade {S L : Type} (cv : c_conversions) (lib : specbleach L)
    (xf : signal_crossfade S) (self : clap_noiserf_instance S L)
    (sample_rate min_frames_count max_frames_count : Nat)
    (h : double_gt_192000 sample_rate = false)
    (hx : signal_crossfade.signal_crossfade_initialize xf (cv.to_uint32 sample_rate) = none) :
    activate cv lib xf self sample_rate min_frames_count max_frames_count =
      (false, { self with soft_bypass := none }) := by
  simp [activate, h, hx]

/-! ### The latency query -/

theorem latency_get_null {S L : Type} (lib : specbleach L) (self : clap_noiserf_instance S L)
    (h : self.lib_instance 0 = none) : latency_get lib self = 0 := by
  simp [latency_get, h]

theorem latency_get_live {S L : Type} (lib : specbleach L) (self : clap_noiserf_instance S L)
    (x : L) (h : self.lib_instance 0 = some x) :
    latency_get lib self = lib.specbleach_get_latency x := by
  simp [latency_get, h]

theorem latency_get_deactivate {S L : Type} (lib : specbleach L) (xf : signal_crossfade S)
    (self : clap_noiserf_instance S L) (x : L) (h : self.lib_instance 0 = some x)
    (hc : 0 < self.plug.channel_count) :
    (deactivate lib xf self).lib_instance 0 = some (lib.specbleach_free x) ∧
    latency_get lib (deactivate lib xf self) =
      lib.specbleach_get_latency (lib.specbleach_free x) := by
  have e : (deactivate lib xf self).lib_instance 0 = some (lib.specbleach_free x) := by
    simp [deactivate, for_each_channel, hc, h]
  exact ⟨e, latency_get_live lib _ _ e⟩

/-- C27, the code after `deactivate`: a stereo plugin fresh from `create` and `init` answers
the latency query with 0; after `activate` at 48000 Hz it answers with the latency of the live
instance of channel 0; after `deactivate` the handle `lib_instance[0]` is still not null and
points to the freed instance, and `latency_get` passes it to `specbleach_get_latency`. -/
theorem C27_latency_query_reads_freed_instance :
    latency_get lifetime_library
      (created sample_conversions 2 : clap_noiserf_instance Unit Bool) = 0 ∧
    (activate sample_conversions lifetime_library sample_crossfade
      (created sample_conversions 2) double_48000 64 64).1 = true ∧
    (activate sample_conversions lifetime_library sample_crossfade
      (created sample_conversions 2) double_48000 64 64).2.lib_instance 0 = some true ∧
    latency_get lifetime_library
      (activate sample_conversions lifetime_library sample_crossfade
        (created sample_conversions 2) double_48000 64 64).2 =
      lifetime_library.specbleach_get_latency true ∧
    (deactivate lifetime_library sample_crossfade
      (activate sample_conversions lifetime_library sample_crossfade
        (created sample_conversions 2) double_48000 64 64).2).lib_instance 0 = some false ∧
    latency_get lifetime_library
      (deactivate lifetime_library sample_crossfade
        (activate sample_conversions lifetime_library sample_crossfade
          (created sample_conversions 2) double_48000 64 64).2) =
      lifetime_library.specbleach_get_latency false := by
  refine ⟨rfl, by decide, by decide, by decide, by decide, by decide⟩

theorem process_channel_map {S L β : Type} (lib : specbleach L) (xf : signal_crossfade S)
    (f : L → β) (h4 : ∀ x n input output, f (lib.specbleach_process x n input output).2.1 = f x)
    (block_size i : Nat) (audio_inputs : Nat → Nat → Nat)
    (acc : clap_noiserf_instance S L × (Nat → Nat → Nat)) (channel c : Nat) :
    ((process_channel lib xf block_size i audio_inputs acc channel).1.lib_instance c).map f =
      (acc.1.lib_instance c).map f := by
  unfold process_channel
  cases hx : acc.1.lib_instance channel <;> cases hs : acc.1.soft_bypass
  · simp [hx, hs]
  · simp [hx, hs]
  · simp only [hs]
    by_cases e : c = channel
    · subst e
      simp [hx, h4]
    · simp [Function.update_noteq e]
  · simp only [hs]
    by_cases e : c = channel
    · subst e
      simp [hx, h4]
    · simp [Function.update_noteq e]

theorem process_channels_map {S L β : Type} (lib : specbleach L) (xf : signal_crossfade S)
    (f : L → β) (h4 : ∀ x n input output, f (lib.specbleach_process x n input output).2.1 = f x)
    (block_size i : Nat) (audio_inputs : Nat → Nat → Nat) (l : List Nat) (c : Nat) :
    ∀ acc : clap_noiserf_instance S L × (Nat → Nat → Nat),
      ((l.foldl (process_channel lib xf block_size i audio_inputs) acc).1.lib_instance c).map f =
        (acc.1.lib_instance c).map f := by
  induction l with
  | nil => intro acc; rfl
  | cons ch l ih =>
    intro acc
    rw [List.foldl_cons, ih, process_channel_map lib xf f h4]

theorem for_each_channel_map {L β : Type} (f : L → β) (channel_count : Nat)
    (call : Nat → L → L) (hcall : ∀ channel x, f (call channel x) = f x)
    (lib_instance : Nat → Option L) (c : Nat) :
    (for_each_channel channel_count call lib_instance c).map f = (lib_instance c).map f := by
  unfold for_each_channel
  split_ifs
  · cases lib_instance c <;> simp [hcall]
  · rfl

/-- Through `process` an instance changes only by calls of the library on it: what all four
calls that `process` makes keep, `process` keeps, and a null handle stays null. -/
theorem process_instances_map {S L β : Type} (cv : c_conversions) (lib : specbleach L)
    (xf : signal_crossfade S) (f : L → β)
    (h1 : ∀ x parameters, f (lib.specbleach_load_parameters x parameters).2 = f x)
    (h2 : ∀ x, f (lib.specbleach_reset_noise_profile x).2 = f x)
    (h3 : ∀ x noise_profile size blocks,
      f (lib.specbleach_load_noise_profile x noise_profile size blocks).2 = f x)
    (h4 : ∀ x n input output, f (lib.specbleach_process x n input output).2.1 = f x)
    (self : clap_noiserf_instance S L) (p : clap_process) :
    ∃ (after : clap_noiserf_instance S L) (out : Nat → Nat → Nat),
      process cv lib xf self p = some (CLAP_PROCESS_CONTINUE, after, out) ∧
      ∀ c, (after.lib_instance c).map f = (self.lib_instance c).map f := by
  have hsub : ∀ (st : process_locals S L) (c : Nat),
      ((process_sub_block cv lib xf p st).self.lib_instance c).map f =
        (st.self.lib_instance c).map f := by
    intro st c
    unfold process_sub_block
    dsimp only
    rw [process_channels_map lib xf f h4]
    dsimp only
    split_ifs
    · rw [for_each_channel_map f _ _ (fun _ x => h2 x),
        for_each_channel_map f _ _ (fun _ x => h1 x _)]
    · rw [for_each_channel_map f _ _ (fun _ x => h1 x _)]
  have hloop : ∀ (fuel : Nat) (st st' : process_locals S L),
      process_loop cv lib xf p fuel st = some st' →
      ∀ c, (st'.self.lib_instance c).map f = (st.self.lib_instance c).map f := by
    intro fuel
    induction fuel with
    | zero =>
      intro st st' h c
      by_cases hi : st.i < p.frames_count
      · simp [process_loop, hi] at h
      · simp only [process_loop, if_neg hi, Option.some.injEq] at h
        subst h
        rfl
    | succ fuel ih =>
      intro st st' h c
      by_cases hi : st.i < p.frames_count
      · simp only [process_loop, if_pos hi] at h
        rw [ih _ _ h c, hsub]
      · simp only [process_loop, if_neg hi, Option.some.injEq] at h
        subst h
        rfl
  obtain ⟨st, hst, hp⟩ := process_returns cv lib xf self p
  refine ⟨_, _, hp, fun c => ?_⟩
  rw [(store_noise_profile_frame lib st.self st.noise_profile_changed).1, hloop _ _ _ hst c]
  show ((consume_pending_noise_profile lib self).2.lib_instance c).map f = _
  rw [consume_pending_instances]
  by_cases hd : consume_sees_dirty self.plug.pending_noise_profile_change = true ∧
      c < self.plug.channel_count
  · rw [if_pos hd]
    cases self.lib_instance c with
    | none => rfl
    | some x =>
      simp only [Option.map_some']
      split_ifs
      · rw [h2]
      · rw [h3]
  · rw [if_neg hd]

/-- The latency `latency_get` reports is the same before and after `process` for a library
whose calls keep the latency of an instance; `set_value` and `state_load` work on the
parameters and the triple buffers and leave every handle as it is. -/
theorem latency_get_stable {S L : Type} (cv : c_conversions) (lib : specbleach L)
    (xf : signal_crossfade S)
    (h1 : ∀ x parameters,
      lib.specbleach_get_latency (lib.specbleach_load_parameters x parameters).2 =
        lib.specbleach_get_latency x)
    (h2 : ∀ x, lib.specbleach_get_latency (lib.specbleach_reset_noise_profile x).2 =
      lib.specbleach_get_latency x)
    (h3 : ∀ x noise_profile size blocks,
      lib.specbleach_get_latency
          (lib.specbleach_load_noise_profile x noise_profile size blocks).2 =
        lib.specbleach_get_latency x)
    (h4 : ∀ x n input output,
      lib.specbleach_get_latency (lib.specbleach_process x n input output).2.1 =
        lib.specbleach_get_latency x)
    (self : clap_noiserf_instance S L) (p : clap_process) (param_id value : Nat)
    (stream : clap_istream) :
    (∃ (after : clap_noiserf_instance S L) (out : Nat → Nat → Nat),
      process cv lib xf self p = some (CLAP_PROCESS_CONTINUE, after, out) ∧
      latency_get lib after = latency_get lib self) ∧
    latency_get lib { self with plug := set_value cv self.plug param_id value } =
      latency_get lib self ∧
    latency_get lib { self with plug := (state_load cv self.plug stream).2.1 } =
      latency_get lib self := by
  refine ⟨?_, rfl, rfl⟩
  obtain ⟨after, out, hp, hm⟩ :=
    process_instances_map cv lib xf lib.specbleach_get_latency h1 h2 h3 h4 self p
  refine ⟨after, out, hp, ?_⟩
  have := hm 0
  unfold latency_get
  cases ha : after.lib_instance 0 <;> cases hs : self.lib_instance 0 <;>
    simp [ha, hs] at this ⊢
  exact this

/-! ### The last bin of a resampled profile -/

theorem interpolated_bin_last (inp : Nat → ℚ) (N M : Nat) (hN : 1 ≤ N) (hN2 : N < 2 ^ 32)
    (hM : 2 ≤ M) (hM2 : M < 2 ^ 32) :
    src_idx rat_arith N M (M - 1) = ((N - 1 : Nat) : ℚ) ∧
      idx_low rat_arith N M (M - 1) = N - 1 ∧ idx_high rat_arith N M (M - 1) = N - 1 ∧
      alpha rat_arith N M (M - 1) = 0 ∧
      interpolated_bin rat_arith inp N M (M - 1) = inp (N - 1) := by
  have hM1 : ((M - 1 : Nat) : ℚ) ≠ 0 := by
    have : M - 1 ≠ 0 := by omega
    exact_mod_cast this
  have hs : src_idx rat_arith N M (M - 1) = ((N - 1 : Nat) : ℚ) := by
    rw [src_idx_rat N M (M - 1) hN hN2 hM hM2, mul_comm, mul_div_assoc, div_self hM1, mul_one]
  have hl : idx_low rat_arith N M (M - 1) = N - 1 := by
    unfold idx_low
    rw [hs]
    exact Nat.floor_natCast (N - 1)
  have hh : idx_high rat_arith N M (M - 1) = N - 1 := by
    unfold idx_high
    rw [hl, u32_pred_eq N hN hN2]
    have e : (N - 1 + 1) % 2 ^ 32 = N := by
      rw [Nat.sub_add_cancel hN]; exact Nat.mod_eq_of_lt hN2
    rw [e, if_pos (le_refl N)]
  have ha : alpha rat_arith N M (M - 1) = 0 := by
    unfold alpha
    rw [hs, hl]
    exact sub_self _
  refine ⟨hs, hl, hh, ha, ?_⟩
  rw [interpolated_bin_locals, ha, hl, hh]
  simp [rat_arith]

/-- C35: for a store of size `M ≥ 2` and an incoming profile of size `N ≥ 1`, `N ≠ M` (both
`uint32_t`), with the interpolation arithmetic exact (over the rationals), `set_noise_profile`
returns true and leaves in bin `M - 1` of the store the incoming bin `N - 1` (there
`src_idx = N - 1`, `idx_low = idx_high = N - 1` and `alpha = 0`) and in bin 0 the incoming
bin 0. -/
theorem C35_last_bin_preserved (self : NoiseProfile ℚ) (noise_profile : Nat → ℚ)
    (noise_profile_size blocks : Nat) (hM : 2 ≤ self.noise_profile_size)
    (hM2 : self.noise_profile_size < 2 ^ 32) (hN : 1 ≤ noise_profile_size)
    (hN2 : noise_profile_size < 2 ^ 32) (hne : noise_profile_size ≠ self.noise_profile_size) :
    (set_noise_profile rat_arith (some self) (some noise_profile) noise_profile_size
        blocks).1 = true ∧
      ∃ p, (set_noise_profile rat_arith (some self) (some noise_profile) noise_profile_size
          blocks).2 = some p ∧
        p.noise_profile_size = self.noise_profile_size ∧
        p.noise_profile (self.noise_profile_size - 1) = noise_profile (noise_profile_size - 1) ∧
        p.noise_profile 0 = noise_profile 0 ∧
        idx_low rat_arith noise_profile_size self.noise_profile_size
          (self.noise_profile_size - 1) = noise_profile_size - 1 ∧
        idx_high rat_arith noise_profile_size self.noise_profile_size
          (self.noise_profile_size - 1) = noise_profile_size - 1 ∧
        alpha rat_arith noise_profile_size self.noise_profile_size
          (self.noise_profile_size - 1) = 0 := by
  have h := interpolated_bin_last noise_profile noise_profile_size self.noise_profile_size hN hN2
    hM hM2
  refine ⟨rfl, profile_after_set rat_arith self noise_profile noise_profile_size blocks, rfl,
    ?_, ?_, ?_, h.2.1, h.2.2.1, h.2.2.2.1⟩
  · simp only [profile_after_set, set_noise_profile, Option.getD_some]
  · rw [profile_after_set_resized rat_arith self noise_profile noise_profile_size blocks hne,
      if_pos (by omega)]
    exact h.2.2.2.2
  · rw [profile_after_set_resized rat_arith self noise_profile noise_profile_size blocks hne]
    simp

/-- C35 at a store of 5 bins receiving the 3-bin profile 1, 2, 3: bin 4 of the store is 3. -/
theorem C35_last_bin_preserved_witness :
    (set_noise_profile rat_arith (some ⟨5, 0, fun _ => 0, false⟩)
        (some (fun i => (i : ℚ) + 1)) 3 9).1 = true ∧
      ∃ p, (set_noise_profile rat_arith (some ⟨5, 0, fun _ => 0, false⟩)
          (some (fun i => (i : ℚ) + 1)) 3 9).2 = some p ∧
        p.noise_profile_size = 5 ∧
        p.noise_profile (5 - 1) = (fun i : Nat => (i : ℚ) + 1) (3 - 1) ∧
        p.noise_profile 0 = (fun i : Nat => (i : ℚ) + 1) 0 ∧
        idx_low rat_arith 3 5 (5 - 1) = 3 - 1 ∧ idx_high rat_arith 3 5 (5 - 1) = 3 - 1 ∧
        alpha rat_arith 3 5 (5 - 1) = 0 :=
  C35_last_bin_preserved ⟨5, 0, fun _ => 0, false⟩ (fun i => (i : ℚ) + 1) 3 9
    (by decide) (by decide) (by decide) (by decide) (by decide)

/-! ### A `state_load` that fails -/

theorem only_pending_slot_written_refl (slot : Nat) (p : clap_noiserf) :
    only_pending_slot_written slot p p :=
  ⟨rfl, rfl, rfl, rfl, rfl, fun _ _ => rfl⟩

theorem only_pending_slot_written_of_eq (slot : Nat) (p q : clap_noiserf)
    (h : q.channel_count = p.channel_count ∧
      q.pending_noise_profile_change = p.pending_noise_profile_change ∧
      q.current_noise_profile = p.current_noise_profile) :
    only_pending_slot_written slot p q := by
  obtain ⟨h1, h2, h3⟩ := h
  exact ⟨h1, h3, by rw [h2], by rw [h2], by rw [h2], fun _ _ => by rw [h2]⟩

theorem only_pending_slot_written_trans (slot : Nat) (p q r : clap_noiserf)
    (h1 : only_pending_slot_written slot p q) (h2 : only_pending_slot_written slot q r) :
    only_pending_slot_written slot p r :=
  ⟨h2.1.trans h1.1, h2.2.1.trans h1.2.1, h2.2.2.1.trans h1.2.2.1,
    h2.2.2.2.1.trans h1.2.2.2.1, h2.2.2.2.2.1.trans h1.2.2.2.2.1,
    fun i hi => (h2.2.2.2.2.2 i hi).trans (h1.2.2.2.2.2 i hi)⟩

theorem only_pending_slot_written_store (slot : Nat) (p : clap_noiserf)
    (st : noise_profile_state) :
    only_pending_slot_written slot p (store p (state_ptr.pending slot) st) :=
  ⟨rfl, rfl, rfl, rfl, rfl, fun i hi => by
    show Function.update p.pending_noise_profile_change.buffers slot st i = _
    rw [Function.update_noteq hi]⟩

theorem code_params_decode_frame (cv : c_conversions) (n : Nat) :
    ∀ (i : Nat) (plug : clap_noiserf) (s : clap_istream),
      ∃ ok q s', code_params cv n i plug (state_coder.DECODE s) =
          some (ok, q, state_coder.DECODE s') ∧
        q.channel_count = plug.channel_count ∧
        q.pending_noise_profile_change = plug.pending_noise_profile_change ∧
        q.current_noise_profile = plug.current_noise_profile := by
  induction n with
  | zero => intro i plug s; exact ⟨_, _, _, rfl, rfl, rfl, rfl⟩
  | succ n ih =>
    intro i plug s
    rw [code_params]
    simp only
    obtain ⟨ok1, b1, s1, e1⟩ := code_decode_some s (le_encode 4 0) 4
    rw [e1]
    cases ok1 with
    | false => exact ⟨_, _, _, rfl, rfl, rfl, rfl⟩
    | true =>
      simp only
      obtain ⟨ok2, b2, s2, e2⟩ := code_decode_some s1 (le_encode 8 double_0) 8
      rw [e2]
      cases ok2 with
      | false => exact ⟨_, _, _, rfl, rfl, rfl, rfl⟩
      | true =>
        obtain ⟨ok, q, s', e, h1, h2, h3⟩ :=
          ih (i + 1) (set_value cv plug (le_decode b1) (le_decode b2)) s2
        have hf := set_value_frame cv plug (le_decode b1) (le_decode b2)
        exact ⟨ok, q, s', e, h1.trans hf.1, h2.trans hf.2.1, h3.trans hf.2.2⟩

theorem code_channels_decode_frame (slot : Nat) (n : Nat) :
    ∀ (channel : Nat) (plug : clap_noiserf) (s : clap_istream),
      ∃ ok q s', code_channels n channel (state_ptr.pending slot) plug (state_coder.DECODE s) =
          some (ok, q, state_coder.DECODE s') ∧
        only_pending_slot_written slot plug q := by
  induction n with
  | zero =>
    intro channel plug s
    exact ⟨_, _, _, rfl, only_pending_slot_written_refl slot plug⟩
  | succ n ih =>
    intro channel plug s
    rw [code_channels]
    simp only
    obtain ⟨ok1, b1, s1, e1⟩ := code_decode_some s
      (floats_bytes ((deref plug (state_ptr.pending slot)).channels channel)
        (deref plug (state_ptr.pending slot)).size)
      (4 * (deref plug (state_ptr.pending slot)).size)
    rw [e1]
    cases ok1 with
    | false => exact ⟨_, _, _, rfl, only_pending_slot_written_store slot plug _⟩
    | true =>
      obtain ⟨ok, q, s', e, h⟩ := ih (channel + 1)
        (store plug (state_ptr.pending slot)
          { deref plug (state_ptr.pending slot) with
            channels := Function.update (deref plug (state_ptr.pending slot)).channels channel
              (floats_stored ((deref plug (state_ptr.pending slot)).channels channel)
                (deref plug (state_ptr.pending slot)).size b1) }) s1
      exact ⟨ok, q, s', e,
        only_pending_slot_written_trans slot _ _ _
          (only_pending_slot_written_store slot plug _) h⟩
theorem code_state_decode_frame (cv : c_conversions) (plug : clap_noiserf) (s : clap_istream) :
    ∃ ok q s', code_state cv plug (state_coder.DECODE s) =
        some (ok, q, state_coder.DECODE s') ∧
      (ok = false →
        only_pending_slot_written
          (writable_noise_profile_state plug.pending_noise_profile_change) plug q) := by
  unfold code_state
  simp only
  obtain ⟨ok1, b1, s1, e1⟩ := code_decode_some s (le_encode 4 1) 4
  rw [e1]
  cases ok1 with
  | false => exact ⟨_, _, _, rfl, fun _ => only_pending_slot_written_refl _ plug⟩
  | true =>
    simp only
    obtain ⟨ok2, b2, s2, e2⟩ := code_decode_some s1 (le_encode 4 PARAMS_COUNT) 4
    rw [e2]
    cases ok2 with
    | false => exact ⟨_, _, _, rfl, fun _ => only_pending_slot_written_refl _ plug⟩
    | true =>
      simp only
      have h0 : (if le_decode b2 > PARAMS_COUNT then set_all_params_to_default cv plug
            else plug).channel_count = plug.channel_count ∧
          (if le_decode b2 > PARAMS_COUNT then set_all_params_to_default cv plug
            else plug).pending_noise_profile_change = plug.pending_noise_profile_change ∧
          (if le_decode b2 > PARAMS_COUNT then set_all_params_to_default cv plug
            else plug).current_noise_profile = plug.current_noise_profile := by
        split_ifs
        · exact set_all_params_to_default_frame cv plug
        · exact ⟨rfl, rfl, rfl⟩
      obtain ⟨ok3, q3, s3, e3, f1, f2, f3⟩ := code_params_decode_frame cv (le_decode b2) 0
        (if le_decode b2 > PARAMS_COUNT then set_all_params_to_default cv plug else plug) s2
      rw [e3]
      have hq3 : only_pending_slot_written
          (writable_noise_profile_state plug.pending_noise_profile_change) plug q3 :=
        only_pending_slot_written_of_eq _ plug q3
          ⟨f1.trans h0.1, f2.trans h0.2.1, f3.trans h0.2.2⟩
      have hw : writable_noise_profile_state q3.pending_noise_profile_change =
          writable_noise_profile_state plug.pending_noise_profile_change := by
        rw [f2, h0.2.1]
      cases ok3 with
      | false => exact ⟨_, _, _, rfl, fun _ => hq3⟩
      | true =>
        simp only
        rw [hw]
        generalize writable_noise_profile_state plug.pending_noise_profile_change = back
          at hq3 ⊢
        obtain ⟨ok4, b4, s4, e4⟩ := code_decode_some s3
          (le_encode 4 (deref q3 (state_ptr.pending back)).blocks_averaged) 4
        rw [e4]
        have hq4 := only_pending_slot_written_trans back plug q3 _ hq3
          (only_pending_slot_written_store back q3
            { deref q3 (state_ptr.pending back) with blocks_averaged := le_decode b4 })
        cases ok4 with
        | false => exact ⟨_, _, _, rfl, fun _ => hq4⟩
        | true =>
          simp only [Bool.not_true, Bool.false_eq_true, if_false]
          generalize store q3 (state_ptr.pending back)
            { deref q3 (state_ptr.pending back) with blocks_averaged := le_decode b4 } = q4
            at hq4 ⊢
          obtain ⟨ok5, b5, s5, e5⟩ := code_decode_some s4
            (le_encode 4 (deref q4 (state_ptr.pending back)).size) 4
          rw [e5]
          have hq5 := only_pending_slot_written_trans back plug q4 _ hq4
            (only_pending_slot_written_store back q4
              { deref q4 (state_ptr.pending back) with size := le_decode b5 })
          cases ok5 with
          | false => exact ⟨_, _, _, rfl, fun _ => hq5⟩
          | true =>
            simp only [Bool.not_true, Bool.false_eq_true, if_false]
            generalize store q4 (state_ptr.pending back)
              { deref q4 (state_ptr.pending back) with size := le_decode b5 } = q5
              at hq5 ⊢
            obtain ⟨ok6, q6, s6, e6, hq6⟩ :=
              code_channels_decode_frame back q5.channel_count 0 q5 s5
            rw [e6]
            cases ok6 with
            | false =>
              exact ⟨_, _, _, rfl,
                fun _ => only_pending_slot_written_trans back plug q5 q6 hq5 hq6⟩
            | true => exact ⟨_, _, _, rfl, fun h => by cases h⟩

theorem state_load_failed_frame (cv : c_conversions) (plug : clap_noiserf) (s : clap_istream)
    (h : (state_load cv plug s).1 = false) :
    only_pending_slot_written
      (writable_noise_profile_state plug.pending_noise_profile_change) plug
      (state_load cv plug s).2.1 := by
  obtain ⟨ok, q, s', e, hf⟩ := code_state_decode_frame cv plug s
  have e2 : state_load cv plug s = (ok, q, s') := by unfold state_load; rw [e]
  rw [e2] at h ⊢
  exact hf h

theorem consume_after_failed_load (cv : c_conversions) (plug : clap_noiserf)
    (s : clap_istream) (h : (state_load cv plug s).1 = false)
    (hd : indices_distinct plug.pending_noise_profile_change) :
    let before := noise_profile_state_consume plug.pending_noise_profile_change
    let after := noise_profile_state_consume
      (state_load cv plug s).2.1.pending_noise_profile_change
    after.1 = before.1 ∧ after.2.1 = before.2.1 ∧
      after.2.2.buffers after.2.1 = before.2.2.buffers before.2.1 ∧
      after.2.2.middle_buffer_state = before.2.2.middle_buffer_state ∧
      after.2.2.back_buffer_index = before.2.2.back_buffer_index ∧
      after.2.2.front_buffer_index = before.2.2.front_buffer_index := by
  intro before after
  obtain ⟨_, _, hm, hb, hf, hbuf⟩ := state_load_failed_frame cv plug s h
  obtain ⟨_, _, _, h1, h2, h3, _⟩ := hd
  unfold middle_index at h2 h3
  unfold writable_noise_profile_state at hbuf
  by_cases hdirty : consume_sees_dirty plug.pending_noise_profile_change = true
  · have hdirty2 : consume_sees_dirty
        (state_load cv plug s).2.1.pending_noise_profile_change = true := by
      unfold consume_sees_dirty at hdirty ⊢
      rw [hm]; exact hdirty
    have e1 : before = (true,
        (consume_exchange plug.pending_noise_profile_change).front_buffer_index,
        consume_exchange plug.pending_noise_profile_change) := by
      show noise_profile_state_consume _ = _
      unfold noise_profile_state_consume
      rw [hdirty]; rfl
    have e2 : after = (true,
        (consume_exchange
          (state_load cv plug s).2.1.pending_noise_profile_change).front_buffer_index,
        consume_exchange (state_load cv plug s).2.1.pending_noise_profile_change) := by
      show noise_profile_state_consume _ = _
      unfold noise_profile_state_consume
      rw [hdirty2]; rfl
    rw [e1, e2]
    simp only [consume_exchange, hm, hb, hf]
    exact ⟨trivial, trivial, hbuf _ (fun e => h2 e.symm), trivial, trivial, trivial⟩
  · have hdirty1 : consume_sees_dirty plug.pending_noise_profile_change = false := by
      cases hc : consume_sees_dirty plug.pending_noise_profile_change
      · rfl
      · exact absurd hc hdirty
    have hdirty2 : consume_sees_dirty
        (state_load cv plug s).2.1.pending_noise_profile_change = false := by
      unfold consume_sees_dirty at hdirty1 ⊢
      rw [hm]; exact hdirty1
    have e1 : before = (false, plug.pending_noise_profile_change.front_buffer_index,
        plug.pending_noise_profile_change) := by
      show noise_profile_state_consume _ = _
      unfold noise_profile_state_consume
      rw [hdirty1]; rfl
    have e2 : after = (false,
        (state_load cv plug s).2.1.pending_noise_profile_change.front_buffer_index,
        (state_load cv plug s).2.1.pending_noise_profile_change) := by
      show noise_profile_state_consume _ = _
      unfold noise_profile_state_consume
      rw [hdirty2]; rfl
    rw [e1, e2]
    simp only [hf]
    exact ⟨trivial, trivial, hbuf _ (fun e => h1 e.symm), hm, hb, trivial⟩
theorem floats_stored_received (old a : Nat → Nat) (n m : Nat) (buffer : List Nat)
    (ha : ∀ i, a i < 2 ^ 32) (hm : m ≤ n) (i : Nat) (hi : i < m) :
    floats_stored old n (overwrite buffer (floats_bytes a m)) i = a i := by
  unfold floats_stored overwrite
  rw [if_pos (by omega),
    List.drop_append_of_le_length (by rw [floats_bytes_length]; omega),
    List.take_append_of_le_length (by rw [List.length_drop, floats_bytes_length]; omega),
    floats_bytes_chunk a m i hi, le_decode_encode_u32 _ (ha i)]

theorem state_load_cut_short (cv : c_conversions) (plug : clap_noiserf) (s : clap_istream)
    (version ba size m : Nat) (a : Nat → Nat)
    (hd : s.data = le_encode 4 version ++ (le_encode 4 0 ++ (le_encode 4 ba ++
      (le_encode 4 size ++ (floats_bytes a m ++ [])))))
    (hr : s.readable = 16 + 4 * m) (hcc : 1 ≤ plug.channel_count) (hba : ba < 2 ^ 32)
    (hsize : size < 2 ^ 32) (hm : m < size) (ha : ∀ i, a i < 2 ^ 32) :
    (state_load cv plug s).1 = false ∧
      ((state_load cv plug s).2.1.pending_noise_profile_change.buffers
        (writable_noise_profile_state plug.pending_noise_profile_change)).size = size ∧
      ((state_load cv plug s).2.1.pending_noise_profile_change.buffers
        (writable_noise_profile_state plug.pending_noise_profile_change)).blocks_averaged =
          ba ∧
      ∀ i, i < m →
        ((state_load cv plug s).2.1.pending_noise_profile_change.buffers
          (writable_noise_profile_state plug.pending_noise_profile_change)).channels 0 i =
            a i := by
  obtain ⟨n, hn⟩ : ∃ n, plug.channel_count = n + 1 := ⟨plug.channel_count - 1, by omega⟩
  have e : state_load cv plug s =
      (false,
        store plug
          (state_ptr.pending (writable_noise_profile_state plug.pending_noise_profile_change))
          { channels :=
              Function.update
                (plug.pending_noise_profile_change.buffers
                  (writable_noise_profile_state plug.pending_noise_profile_change)).channels 0
                (floats_stored
                  ((plug.pending_noise_profile_change.buffers
                    (writable_noise_profile_state plug.pending_noise_profile_change)).channels
                    0) size
                  (overwrite
                    (floats_bytes
                      ((plug.pending_noise_profile_change.buffers
                        (writable_noise_profile_state
                          plug.pending_noise_profile_change)).channels 0) size)
                    (floats_bytes a m)))
            blocks_averaged := ba
            size := size },
        s.advance (16 + 4 * m)) := by
    unfold state_load code_state
    simp only
    rw [code_decode_ok s _ _ _ 4 hd (le_encode_length 4 _) (le_encode_length 4 _) (by omega)]
    simp only
    have hd1 := data_advance_append s _ _ 4 hd (le_encode_length 4 _)
    rw [code_decode_ok _ _ _ _ 4 hd1 (le_encode_length 4 _) (le_encode_length 4 _)
      (by rw [readable_advance]; omega)]
    have e0 : le_decode (le_encode 4 0) = 0 := le_decode_encode_u32 0 (by decide)
    have e1 : ¬ (0 > PARAMS_COUNT) := by decide
    simp only [e0, e1, if_false, code_params]
    have hd2 := data_advance_append _ _ _ 4 hd1 (le_encode_length 4 _)
    rw [code_decode_ok _ _ _ _ 4 hd2 (le_encode_length 4 _) (le_encode_length 4 _)
      (by rw [readable_advance, readable_advance]; omega)]
    simp only [Bool.not_true, Bool.false_eq_true, if_false, le_decode_encode_u32 _ hba]
    have hd3 := data_advance_append _ _ _ 4 hd2 (le_encode_length 4 _)
    rw [code_decode_ok _ _ _ _ 4 hd3 (le_encode_length 4 _) (le_encode_length 4 _)
      (by rw [readable_advance, readable_advance, readable_advance]; omega)]
    simp only [Bool.not_true, Bool.false_eq_true, if_false, le_decode_encode_u32 _ hsize,
      deref_store, store_store]
    have hd4 := data_advance_append _ _ _ 4 hd3 (le_encode_length 4 _)
    rw [store_channel_count, hn, code_channels]
    simp only [deref_store]
    have hr4 : ((((s.advance 4).advance 4).advance 4).advance 4).readable = 4 * m := by
      simp only [readable_advance]; omega
    rw [code_decode_eq, if_neg (by rw [hr4]; omega), hr4, hd4]
    have e2 : (floats_bytes a m ++ []).take (4 * m) = floats_bytes a m := by
      rw [List.append_nil]
      exact List.take_of_length_le (by rw [floats_bytes_length])
    simp only [e2, Bool.not_false, if_true, store_store, advance_advance]
    rfl
  rw [e]
  refine ⟨rfl, ?_, ?_, ?_⟩
  · simp [store]
  · simp [store]
  · intro i hi
    simp only [store, Function.update_same]
    exact floats_stored_received _ a size m _ ha (by omega) i hi

theorem cut_stream_readable (version ba size m : Nat) (a : Nat → Nat) (chunk : Nat) :
    (clap_istream.mk (le_encode 4 version ++ (le_encode 4 0 ++ (le_encode 4 ba ++
      (le_encode 4 size ++ (floats_bytes a m ++ []))))) chunk none).readable = 16 + 4 * m := by
  rw [readable_mk_none]
  simp only [List.length_append, le_encode_length, floats_bytes_length, List.length_nil]
  omega

theorem truncated_oversize_load (cv : c_conversions) :
    (state_load cv (init cv (create 1)) truncated_oversize_stream).1 = false ∧
      ((state_load cv (init cv (create 1))
        truncated_oversize_stream).2.1.pending_noise_profile_change.buffers
          (writable_noise_profile_state
            (init cv (create 1)).pending_noise_profile_change)).size = 18004 ∧
      ((state_load cv (init cv (create 1))
        truncated_oversize_stream).2.1.pending_noise_profile_change.buffers
          (writable_noise_profile_state
            (init cv (create 1)).pending_noise_profile_change)).channels 0 18002 =
        1065353216 := by
  have h := state_load_cut_short cv (init cv (create 1)) truncated_oversize_stream 1 0 18004
    18003 (fun _ => 1065353216) rfl
    (cut_stream_readable 1 0 18004 18003 (fun _ => 1065353216) 0)
    (by rw [(init_frame cv 1).1]) (by decide) (by decide) (by decide)
    (fun _ => by show (1065353216 : Nat) < 2 ^ 32; decide)
  exact ⟨h.1, h.2.1, h.2.2.2 18002 (by decide)⟩

theorem fresh_back_slot (cv : c_conversions) (cc : Nat) :
    writable_noise_profile_state (init cv (create cc)).pending_noise_profile_change = 0 ∧
      ∀ c i, ((init cv (create cc)).pending_noise_profile_change.buffers
        (writable_noise_profile_state
          (init cv (create cc)).pending_noise_profile_change)).channels c i = 0 := by
  rw [(init_frame cv cc).2.1]
  exact ⟨rfl, fun _ _ => rfl⟩

/-- C31, the code at a payload for a mono plugin whose `size` field is 18004, cut after 18003
floats: `state_load` on a plugin fresh from `init` returns false, the three indices of
`pending_noise_profile_change` are as before, and the float with index 18002 of channel 0
of the back slot (slot 0) was stored to, while a `noise_profile_state` holds 18002 4-byte
objects, the floats of both channels included: that float lies where the first float of
slot 1, the middle slot, lies. -/
theorem C31_failed_load_stores_past_slot (cv : c_conversions) :
    let plug := init cv (create 1)
    let back := writable_noise_profile_state plug.pending_noise_profile_change
    let r := state_load cv plug truncated_oversize_stream
    r.1 = false ∧ back = 0 ∧
      r.2.1.pending_noise_profile_change.middle_buffer_state =
        plug.pending_noise_profile_change.middle_buffer_state ∧
      r.2.1.pending_noise_profile_change.back_buffer_index =
        plug.pending_noise_profile_change.back_buffer_index ∧
      r.2.1.pending_noise_profile_change.front_buffer_index =
        plug.pending_noise_profile_change.front_buffer_index ∧
      (r.2.1.pending_noise_profile_change.buffers back).size = 18004 ∧
      (r.2.1.pending_noise_profile_change.buffers back).channels 0 18002 = 1065353216 ∧
      (plug.pending_noise_profile_change.buffers back).channels 0 18002 = 0 ∧
      NOISE_PROFILE_STATE_WORDS ≤ 18002 ∧
      channel_float_offset back 0 18002 =
        channel_float_offset (middle_index plug.pending_noise_profile_change) 0 0 :=
  ⟨(truncated_oversize_load cv).1, (fresh_back_slot cv 1).1,
    (state_load_failed_frame cv _ _ (truncated_oversize_load cv).1).2.2.1,
    (state_load_failed_frame cv _ _ (truncated_oversize_load cv).1).2.2.2.1,
    (state_load_failed_frame cv _ _ (truncated_oversize_load cv).1).2.2.2.2.1,
    (truncated_oversize_load cv).2.1, (truncated_oversize_load cv).2.2,
    (fresh_back_slot cv 1).2 0 18002, by decide, by
      rw [(fresh_back_slot cv 1).1, (init_frame cv 1).2.1]
      decide⟩

/-! ### A loaded profile through `activate` -/

theorem consume_publish_write {T : Type} (b : noise_profile_state_swap_buffers T) (v : T)
    (h : indices_distinct b) :
    noise_profile_state_consume (publish_noise_profile_state (write_noise_profile_state b v)) =
      (true, b.back_buffer_index,
        { buffers := Function.update b.buffers b.back_buffer_index v
          middle_buffer_state := b.front_buffer_index
          back_buffer_index := middle_index b
          front_buffer_index := b.back_buffer_index }) := by
  have h1 : ((b.back_buffer_index ||| TRIPLE_BUFFER_DIRTY_BIT) &&& TRIPLE_BUFFER_DIRTY_BIT
      != 0) = true := by
    simpa using idx_or_dirty_and_dirty _ h.1
  simp only [noise_profile_state_consume, consume_sees_dirty, consume_exchange,
    publish_noise_profile_state, write_noise_profile_state, writable_noise_profile_state, h1,
    Bool.not_true, Bool.false_eq_true, if_false, idx_or_dirty_and_mask _ h.1, middle_index]

theorem loaded_frame (cv : c_conversions) (plug : clap_noiserf) (ps : List (Nat × Nat))
    (ba size : Nat) (ch : Nat → Nat → Nat) :
    (loaded cv plug ps ba size ch).channel_count = plug.channel_count ∧
      (loaded cv plug ps ba size ch).current_noise_profile = plug.current_noise_profile ∧
      (loaded cv plug ps ba size ch).pending_noise_profile_change =
        publish_noise_profile_state
          (write_noise_profile_state plug.pending_noise_profile_change
            { channels :=
                channels_replaced
                  (plug.pending_noise_profile_change.buffers
                    (writable_noise_profile_state plug.pending_noise_profile_change)).channels
                  ch size 0 plug.channel_count
              blocks_averaged := ba
              size := size }) := by
  have h2 : (if ps.length > PARAMS_COUNT then set_all_params_to_default cv plug
        else plug).channel_count = plug.channel_count ∧
      (if ps.length > PARAMS_COUNT then set_all_params_to_default cv plug
        else plug).pending_noise_profile_change = plug.pending_noise_profile_change ∧
      (if ps.length > PARAMS_COUNT then set_all_params_to_default cv plug
        else plug).current_noise_profile = plug.current_noise_profile := by
    split_ifs
    · exact set_all_params_to_default_frame cv plug
    · exact ⟨rfl, rfl, rfl⟩
  have h1 := set_values_frame cv ps
    (if ps.length > PARAMS_COUNT then set_all_params_to_default cv plug else plug)
  simp only [loaded]
  rw [h1.1, h1.2.1, h1.2.2, h2.1, h2.2.1, h2.2.2]
  exact ⟨rfl, rfl, rfl⟩

theorem saved_profile_pending_published (plug : clap_noiserf)
    (b : noise_profile_state_swap_buffers noise_profile_state) (v : noise_profile_state)
    (hb : indices_distinct b)
    (hp : plug.pending_noise_profile_change =
      publish_noise_profile_state (write_noise_profile_state b v)) :
    saved_profile plug = v := by
  have h1 : ((b.back_buffer_index ||| TRIPLE_BUFFER_DIRTY_BIT) &&& TRIPLE_BUFFER_DIRTY_BIT
      != 0) = true := by
    simpa using idx_or_dirty_and_dirty _ hb.1
  simp only [saved_profile, current_noise_profile, Bool.false_eq_true, if_false, hp,
    publish_noise_profile_state, write_noise_profile_state, writable_noise_profile_state, h1,
    if_true, deref, idx_or_dirty_and_mask _ hb.1, Function.update_same]

theorem current_noise_profile_consumes_published (plug : clap_noiserf)
    (b : noise_profile_state_swap_buffers noise_profile_state) (v : noise_profile_state)
    (hb : indices_distinct b) (hc : indices_distinct plug.current_noise_profile)
    (hp : plug.pending_noise_profile_change =
      publish_noise_profile_state (write_noise_profile_state b v)) :
    deref (current_noise_profile plug true).2 (current_noise_profile plug true).1 = v ∧
      consume_sees_dirty
        (current_noise_profile plug true).2.pending_noise_profile_change = false ∧
      (∃ slot, (current_noise_profile (current_noise_profile plug true).2 false).1 =
        state_ptr.current slot) ∧
      saved_profile (current_noise_profile plug true).2 =
        { channels :=
            copy_channels plug.channel_count v.size
              (plug.current_noise_profile.buffers
                (writable_noise_profile_state plug.current_noise_profile)).channels
              v.channels
          blocks_averaged := v.blocks_averaged
          size := v.size } := by
  have hcons := consume_publish_write b v hb
  rw [← hp] at hcons
  have hfd : (b.front_buffer_index &&& TRIPLE_BUFFER_DIRTY_BIT != 0) = false := by
    simp [idx_and_dirty _ hb.2.1]
  have e : current_noise_profile plug true =
      (state_ptr.pending b.back_buffer_index,
        { plug with
          pending_noise_profile_change :=
            { buffers := Function.update b.buffers b.back_buffer_index v
              middle_buffer_state := b.front_buffer_index
              back_buffer_index := middle_index b
              front_buffer_index := b.back_buffer_index }
          current_noise_profile :=
            publish_noise_profile_state
              (write_noise_profile_state plug.current_noise_profile
                { channels :=
                    copy_channels plug.channel_count v.size
                      (plug.current_noise_profile.buffers
                        (writable_noise_profile_state plug.current_noise_profile)).channels
                      v.channels
                  blocks_averaged := v.blocks_averaged
                  size := v.size }) }) := by
    simp only [current_noise_profile, if_true, hcons, Function.update_same]
  rw [e]
  have hcc := consume_publish_write plug.current_noise_profile
    { channels :=
        copy_channels plug.channel_count v.size
          (plug.current_noise_profile.buffers
            (writable_noise_profile_state plug.current_noise_profile)).channels
          v.channels
      blocks_averaged := v.blocks_averaged
      size := v.size } hc
  refine ⟨?_, ?_, ?_, ?_⟩
  · simp only [deref, Function.update_same]
  · simp only [consume_sees_dirty, hfd]
  · refine ⟨plug.current_noise_profile.back_buffer_index, ?_⟩
    simp only [current_noise_profile, Bool.false_eq_true, if_false, hfd, hcc]
  · simp only [saved_profile, current_noise_profile, Bool.false_eq_true, if_false, hfd, hcc,
      deref, Function.update_same]

theorem activate_plug {S L : Type} (cv : c_conversions) (lib : specbleach L)
    (xf : signal_crossfade S) (self : clap_noiserf_instance S L)
    (sample_rate min_frames_count max_frames_count : Nat) :
    (activate cv lib xf self sample_rate min_frames_count max_frames_count).2.plug =
      if (activate cv lib xf self sample_rate min_frames_count max_frames_count).1 then
        (current_noise_profile self.plug true).2
      else self.plug := by
  unfold activate
  by_cases h1 : double_gt_192000 sample_rate = true
  · simp [h1]
  · simp only [h1, Bool.false_eq_true, if_false]
    by_cases h2 : (signal_crossfade.signal_crossfade_initialize xf
        (cv.to_uint32 sample_rate)).isNone = true
    · simp [h2]
    · simp only [h2, Bool.false_eq_true, if_false]
      by_cases h3 : (activate_instances lib (cv.to_uint32 sample_rate) float_46
          self.plug.channel_count 0 self.lib_instance).1 = true
      · simp only [h3, Bool.not_true, Bool.false_eq_true, if_false]
        by_cases h4 : (deref (current_noise_profile self.plug true).2
            (current_noise_profile self.plug true).1).size = 0
        · simp [h4]
        · simp [h4]
      · simp [h3]
theorem floats_bytes_congr (a b : Nat → Nat) (n : Nat) (h : ∀ i, i < n → a i = b i) :
    floats_bytes a n = floats_bytes b n := by
  induction n with
  | zero => rfl
  | succ n ih =>
    rw [floats_bytes_succ, floats_bytes_succ, ih (fun i hi => h i (by omega)), h n (by omega)]

theorem channels_bytes_congr (ch1 ch2 : Nat → Nat → Nat) (size : Nat) (n : Nat) :
    ∀ channel, (∀ c, channel ≤ c → c < channel + n → ∀ i, i < size → ch1 c i = ch2 c i) →
      channels_bytes ch1 size channel n = channels_bytes ch2 size channel n := by
  induction n with
  | zero => intro channel _; rfl
  | succ n ih =>
    intro channel h
    rw [channels_bytes_succ, channels_bytes_succ,
      floats_bytes_congr _ _ size (h channel (le_refl _) (by omega)),
      ih (channel + 1) (fun c h1 h2 => h c (by omega) (by omega))]

theorem saved_profile_after_load_and_activate {S L : Type} (cv : c_conversions)
    (lib : specbleach L) (xf : signal_crossfade S) (self : clap_noiserf_instance S L)
    (ps : List (Nat × Nat)) (ba size : Nat) (ch : Nat → Nat → Nat)
    (sample_rate min_frames_count max_frames_count : Nat)
    (hpending : indices_distinct self.plug.pending_noise_profile_change)
    (hcurrent : indices_distinct self.plug.current_noise_profile) :
    (activate cv lib xf { self with plug := loaded cv self.plug ps ba size ch } sample_rate
        min_frames_count max_frames_count).2.plug.channel_count = self.plug.channel_count ∧
      (saved_profile (activate cv lib xf { self with plug := loaded cv self.plug ps ba size ch }
        sample_rate min_frames_count max_frames_count).2.plug).blocks_averaged = ba ∧
      (saved_profile (activate cv lib xf { self with plug := loaded cv self.plug ps ba size ch }
        sample_rate min_frames_count max_frames_count).2.plug).size = size ∧
      (∀ c, c < self.plug.channel_count → ∀ i, i < size →
        (saved_profile (activate cv lib xf
          { self with plug := loaded cv self.plug ps ba size ch } sample_rate
          min_frames_count max_frames_count).2.plug).channels c i = ch c i) ∧
      ((activate cv lib xf { self with plug := loaded cv self.plug ps ba size ch } sample_rate
          min_frames_count max_frames_count).1 = true →
        consume_sees_dirty (activate cv lib xf
          { self with plug := loaded cv self.plug ps ba size ch } sample_rate
          min_frames_count max_frames_count).2.plug.pending_noise_profile_change = false ∧
        ∃ slot, (current_noise_profile (activate cv lib xf
          { self with plug := loaded cv self.plug ps ba size ch } sample_rate
          min_frames_count max_frames_count).2.plug false).1 = state_ptr.current slot) := by
  have hl := loaded_frame cv self.plug ps ba size ch
  have hp := activate_plug cv lib xf { self with plug := loaded cv self.plug ps ba size ch }
    sample_rate min_frames_count max_frames_count
  generalize activate cv lib xf { self with plug := loaded cv self.plug ps ba size ch }
    sample_rate min_frames_count max_frames_count = act at hp ⊢
  simp only at hp
  have hrep : ∀ c, c < self.plug.channel_count → ∀ i, i < size →
      channels_replaced
        (self.plug.pending_noise_profile_change.buffers
          (writable_noise_profile_state self.plug.pending_noise_profile_change)).channels
        ch size 0 self.plug.channel_count c i = ch c i := by
    intro c hc i hi
    simp only [channels_replaced]
    rw [if_pos ⟨Nat.zero_le _, by omega⟩]
    exact if_pos hi
  cases hact : act.1 with
  | false =>
    rw [hact] at hp
    simp only [Bool.false_eq_true, if_false] at hp
    rw [hp, saved_profile_pending_published _ _ _ hpending hl.2.2]
    exact ⟨hl.1, rfl, rfl, hrep, fun h => by cases h⟩
  | true =>
    rw [hact] at hp
    simp only [if_true] at hp
    have hc : indices_distinct
        (loaded cv self.plug ps ba size ch).current_noise_profile := by
      rw [hl.2.1]; exact hcurrent
    obtain ⟨_, h2, h3, h4⟩ := current_noise_profile_consumes_published
      (loaded cv self.plug ps ba size ch) _ _ hpending hc hl.2.2
    rw [hp, h4]
    refine ⟨?_, rfl, rfl, ?_, fun _ => ⟨h2, h3⟩⟩
    · rw [current_noise_profile_channel_count, hl.1]
    · intro c hc i hi
      simp only [copy_channels, memcpy_floats, hl.1, if_pos hc, if_pos hi]
      exact hrep c hc i hi

/-- C33: for every plugin whose two triple buffers hold three distinct slot indices and every
stream that delivers a well-formed payload with `size <= 9000` for its channel count,
`state_load` returns true; after `activate` on the loaded plugin, whatever it returns, the
profile `state_save` encodes has the `blocks_averaged`, the `size` and the first `size`
floats of each of the `channel_count` channels of the payload, and `state_save` on a stream
that accepts every byte returns true having written them after the parameters. When
`activate` returns true the pending update has been consumed and the encoded profile is a
slot of `current_noise_profile`. -/
theorem C33_loaded_profile_survives_activation {S L : Type} (cv : c_conversions)
    (lib : specbleach L) (xf : signal_crossfade S) (self : clap_noiserf_instance S L)
    (s : clap_istream) (rest : List Nat) (version : Nat) (ps : List (Nat × Nat))
    (ba size : Nat) (ch : Nat → Nat → Nat) (out : clap_ostream)
    (sample_rate min_frames_count max_frames_count : Nat)
    (hd : s.data = payload version ps ba size ch self.plug.channel_count ++ rest)
    (hr : (payload version ps ba size ch self.plug.channel_count).length ≤ s.readable)
    (hn : ps.length < 2 ^ 32) (hp : ∀ p ∈ ps, p.1 < 2 ^ 32 ∧ p.2 < 2 ^ 64)
    (hba : ba < 2 ^ 32) (hsize : size ≤ NOISE_PROFILE_MAX_SIZE)
    (hch : ∀ c i, ch c i < 2 ^ 32)
    (hpending : indices_distinct self.plug.pending_noise_profile_change)
    (hcurrent : indices_distinct self.plug.current_noise_profile)
    (hroom : out.room = none) :
    let r := state_load cv self.plug s
    let activated := activate cv lib xf { self with plug := r.2.1 } sample_rate
      min_frames_count max_frames_count
    r.1 = true ∧
      (saved_profile activated.2.plug).blocks_averaged = ba ∧
      (saved_profile activated.2.plug).size = size ∧
      (∀ c, c < self.plug.channel_count → ∀ i, i < size →
        (saved_profile activated.2.plug).channels c i = ch c i) ∧
      (∃ plug', state_save cv activated.2.plug out =
        some (true, plug',
          out.accept (payload 1 (saved_pairs cv activated.2.plug 0 PARAMS_COUNT) ba size ch
            self.plug.channel_count))) ∧
      (activated.1 = true →
        consume_sees_dirty activated.2.plug.pending_noise_profile_change = false ∧
        ∃ slot, (current_noise_profile activated.2.plug false).1 = state_ptr.current slot) := by
  intro r activated
  have hsz : size < 2 ^ 32 := by unfold NOISE_PROFILE_MAX_SIZE at hsize; omega
  have hl := state_load_ok cv self.plug s rest version ps ba size ch hd hr hn hp hba hsz hch
  have h1 : r.1 = true := by show (state_load cv self.plug s).1 = true; rw [hl]
  have h2 : r.2.1 = loaded cv self.plug ps ba size ch := by
    show (state_load cv self.plug s).2.1 = _; rw [hl]
  have ha : activated = activate cv lib xf { self with plug := loaded cv self.plug ps ba size ch }
      sample_rate min_frames_count max_frames_count := by
    show activate cv lib xf { self with plug := r.2.1 } _ _ _ = _
    rw [h2]
  clear_value r activated
  subst ha
  obtain ⟨g0, g1, g2, g3, g4⟩ := saved_profile_after_load_and_activate cv lib xf self ps ba
    size ch sample_rate min_frames_count max_frames_count hpending hcurrent
  refine ⟨h1, g1, g2, g3, ?_, g4⟩
  refine ⟨(current_noise_profile (activate cv lib xf
    { self with plug := loaded cv self.plug ps ba size ch } sample_rate min_frames_count
    max_frames_count).2.plug false).2, ?_⟩
  rw [state_save_eq cv _ out hroom]
  unfold saved_profile at g1 g2 g3
  rw [g0, g1, g2]
  have e : channels_bytes (deref (current_noise_profile (activate cv lib xf
        { self with plug := loaded cv self.plug ps ba size ch } sample_rate min_frames_count
        max_frames_count).2.plug false).2
      (current_noise_profile (activate cv lib xf
        { self with plug := loaded cv self.plug ps ba size ch } sample_rate min_frames_count
        max_frames_count).2.plug false).1).channels size 0 self.plug.channel_count =
      channels_bytes ch size 0 self.plug.channel_count :=
    channels_bytes_congr _ _ size _ 0 (fun c _ hc i hi => g3 c (by omega) i hi)
  simp only [payload, e]
/-- C33 at a stereo plugin fresh from `init`, a payload with no parameter, `blocks_averaged`
7 and three floats for each channel, and `activate` at 48000 Hz with a library that creates
every instance. -/
theorem C33_loaded_profile_survives_activation_witness :
    let self : clap_noiserf_instance Unit Unit := created sample_conversions 2
    let r := state_load sample_conversions self.plug
      ⟨payload 1 [] 7 3 sample_channels 2 ++ [], 0, none⟩
    let activated := activate sample_conversions sample_library sample_crossfade
      { self with plug := r.2.1 } double_48000 1 64
    r.1 = true ∧
      (saved_profile activated.2.plug).blocks_averaged = 7 ∧
      (saved_profile activated.2.plug).size = 3 ∧
      (∀ c, c < self.plug.channel_count → ∀ i, i < 3 →
        (saved_profile activated.2.plug).channels c i = sample_channels c i) ∧
      (∃ plug', state_save sample_conversions activated.2.plug ⟨[], 0, none, false⟩ =
        some (true, plug',
          clap_ostream.accept ⟨[], 0, none, false⟩
            (payload 1 (saved_pairs sample_conversions activated.2.plug 0 PARAMS_COUNT) 7 3
              sample_channels self.plug.channel_count))) ∧
      (activated.1 = true →
        consume_sees_dirty activated.2.plug.pending_noise_profile_change = false ∧
        ∃ slot, (current_noise_profile activated.2.plug false).1 = state_ptr.current slot) :=
  C33_loaded_profile_survives_activation sample_conversions sample_library sample_crossfade
    (created sample_conversions 2) ⟨payload 1 [] 7 3 sample_channels 2 ++ [], 0, none⟩ [] 1 []
    7 3 sample_channels ⟨[], 0, none, false⟩ double_48000 1 64 rfl (by decide) (by decide)
    (by intro p hp; cases hp) (by decide) (by decide)
    (by intro c i; unfold sample_channels; split_ifs <;> decide)
    (by
      show indices_distinct (init sample_conversions (create 2)).pending_noise_profile_change
      rw [(init_frame sample_conversions 2).2.1]
      exact indices_distinct_init _)
    (by
      show indices_distinct (init sample_conversions (create 2)).current_noise_profile
      rw [(init_frame sample_conversions 2).2.2]
      exact indices_distinct_init _)
    rfl

/-! ### The profile `state_save` encodes after a reset -/

theorem sub_block_size_used {S L : Type} (cv : c_conversions) (lib : specbleach L)
    (xf : signal_crossfade S) (p : clap_process) (st : process_locals S L) :
    ∃ acc : clap_noiserf_instance S L × (Nat → Nat → Nat),
      (process_sub_block cv lib xf p st).self =
          ((List.range acc.1.plug.channel_count).foldl
            (process_channel lib xf (sub_block_size cv p st) st.i p.audio_inputs) acc).1 ∧
        (process_sub_block cv lib xf p st).audio_outputs =
          ((List.range acc.1.plug.channel_count).foldl
            (process_channel lib xf (sub_block_size cv p st) st.i p.audio_inputs) acc).2 :=
  ⟨_, rfl, rfl⟩

theorem handle_events_sorted (cv : c_conversions) (in_events : List clap_event)
    (frame_count i : Nat)
    (hs : ∀ (a b : Nat) (ha : a < in_events.length) (hb : b < in_events.length), a ≤ b →
      (in_events.get ⟨a, ha⟩).time ≤ (in_events.get ⟨b, hb⟩).time) :
    ∀ (fuel : Nat) (plug : clap_noiserf) (k : Nat) (hk : k < in_events.length),
      fuel = in_events.length - k → i ≤ (in_events.get ⟨k, hk⟩).time →
      k ≤ (handle_events cv in_events frame_count i fuel plug k i).2.1 ∧
      (handle_events cv in_events frame_count i fuel plug k i).2.1 ≤ in_events.length ∧
      (handle_events cv in_events frame_count i fuel plug k i).1 =
        ((in_events.drop k).take
          ((handle_events cv in_events frame_count i fuel plug k i).2.1 - k)).foldl
          (process_event cv) plug ∧
      (∀ (j : Nat) (hj : j < in_events.length), k ≤ j →
        j < (handle_events cv in_events frame_count i fuel plug k i).2.1 →
        (in_events.get ⟨j, hj⟩).time = i) ∧
      (∀ h : (handle_events cv in_events frame_count i fuel plug k i).2.1 < in_events.length,
        (handle_events cv in_events frame_count i fuel plug k i).2.2 =
            (in_events.get
              ⟨(handle_events cv in_events frame_count i fuel plug k i).2.1, h⟩).time ∧
          i < (in_events.get
            ⟨(handle_events cv in_events frame_count i fuel plug k i).2.1, h⟩).time) ∧
      ((handle_events cv in_events frame_count i fuel plug k i).2.1 = in_events.length →
        (handle_events cv in_events frame_count i fuel plug k i).2.2 = frame_count) := by
  intro fuel
  induction fuel with
  | zero =>
    intro plug k hk hf _
    omega
  | succ fuel ih =>
    intro plug k hk hf hge
    have hc : k < in_events.length ∧ i = i := ⟨hk, rfl⟩
    by_cases ht : (in_events.get ⟨k, hk⟩).time ≠ i
    · have hr : handle_events cv in_events frame_count i (fuel + 1) plug k i =
          (plug, k, (in_events.get ⟨k, hk⟩).time) := by
        rw [handle_events, dif_pos hc]
        simp only [if_pos ht]
      rw [hr]
      refine ⟨le_refl _, hk.le, ?_, ?_, ?_, ?_⟩
      · simp
      · intro j hj h1 h2
        exact absurd h2 (by dsimp only; omega)
      · intro h
        exact ⟨rfl, by dsimp only; omega⟩
      · intro h
        exact absurd h (by dsimp only; omega)
    · have hti : (in_events.get ⟨k, hk⟩).time = i := not_not.mp ht
      have hdrop : in_events.drop k = in_events.get ⟨k, hk⟩ :: in_events.drop (k + 1) := by
        rw [List.get_eq_getElem]
        exact List.drop_eq_getElem_cons hk
      by_cases hend : k + 1 = in_events.length
      · have hr : handle_events cv in_events frame_count i (fuel + 1) plug k i =
            (process_event cv plug (in_events.get ⟨k, hk⟩), k + 1, frame_count) := by
          rw [handle_events, dif_pos hc]
          simp only [if_neg ht, if_pos hend]
        rw [hr]
        refine ⟨by dsimp only; omega, by dsimp only; omega, ?_, ?_, ?_, ?_⟩
        · show process_event cv plug (in_events.get ⟨k, hk⟩) =
            ((in_events.drop k).take (k + 1 - k)).foldl (process_event cv) plug
          have e : k + 1 - k = 1 := by omega
          rw [hdrop, e]
          rfl
        · intro j hj h1 h2
          have : j = k := by dsimp only at h2; omega
          subst this
          exact hti
        · intro h
          exact absurd h (by dsimp only; omega)
        · intro _
          rfl
      · have hk1 : k + 1 < in_events.length := by omega
        have hr : handle_events cv in_events frame_count i (fuel + 1) plug k i =
            handle_events cv in_events frame_count i fuel
              (process_event cv plug (in_events.get ⟨k, hk⟩)) (k + 1) i := by
          rw [handle_events, dif_pos hc]
          simp only [if_neg ht, if_neg hend]
        rw [hr]
        have hge1 : i ≤ (in_events.get ⟨k + 1, hk1⟩).time := by
          have := hs k (k + 1) hk hk1 (by omega)
          omega
        obtain ⟨a1, a2, a3, a4, a5, a6⟩ :=
          ih (process_event cv plug (in_events.get ⟨k, hk⟩)) (k + 1) hk1 (by omega) hge1
        refine ⟨by omega, a2, ?_, ?_, a5, a6⟩
        · rw [a3, hdrop]
          have e : (handle_events cv in_events frame_count i fuel
              (process_event cv plug (in_events.get ⟨k, hk⟩)) (k + 1) i).2.1 - k =
              ((handle_events cv in_events frame_count i fuel
                (process_event cv plug (in_events.get ⟨k, hk⟩)) (k + 1) i).2.1 - (k + 1)) +
                1 := by omega
          rw [e, List.take_succ_cons, List.foldl_cons]
        · intro j hj h1 h2
          by_cases e : j = k
          · subst e
            exact hti
          · exact a4 j hj (by omega) h2

theorem mem_take_drop_get {α : Type} (l : List α) (k m : Nat) (e : α)
    (he : e ∈ (l.drop k).take m) :
    ∃ (j : Nat) (hj : j < l.length), k ≤ j ∧ j < k + m ∧ l.get ⟨j, hj⟩ = e := by
  obtain ⟨j, hj, rfl⟩ := List.mem_iff_getElem.mp he
  have hj2 : j < m ∧ j < l.length - k := by
    simpa [List.length_take, List.length_drop] using hj
  refine ⟨k + j, by omega, by omega, by omega, ?_⟩
  rw [List.get_eq_getElem, List.getElem_take, List.getElem_drop]

theorem sorted_sub_block {S L : Type} (cv : c_conversions) (lib : specbleach L)
    (xf : signal_crossfade S) (p : clap_process) (hF : p.frames_count < 2 ^ 32)
    (hs : ∀ (a b : Nat) (ha : a < p.in_events.length) (hb : b < p.in_events.length), a ≤ b →
      (p.in_events.get ⟨a, ha⟩).time ≤ (p.in_events.get ⟨b, hb⟩).time)
    (htime : ∀ e ∈ p.in_events, e.time < p.frames_count)
    (st : process_locals S L) (h : sorted_loop_head p st) (hi : st.i < p.frames_count) :
    sorted_loop_head p (process_sub_block cv lib xf p st) ∧
      st.i < (process_sub_block cv lib xf p st).next_ev_frame ∧
      (process_sub_block cv lib xf p st).i = (process_sub_block cv lib xf p st).next_ev_frame ∧
      sub_block_size cv p st = (process_sub_block cv lib xf p st).next_ev_frame - st.i ∧
      st.ev_index ≤ (process_sub_block cv lib xf p st).ev_index ∧
      sub_block_events cv p st =
        (p.in_events.drop st.ev_index).take
          ((process_sub_block cv lib xf p st).ev_index - st.ev_index) ∧
      (∀ e ∈ sub_block_events cv p st, e.time = st.i) ∧
      sub_block_plug cv p st =
        (sub_block_events cv p st).foldl (process_event cv) st.self.plug := by
  obtain ⟨hh, hiF, hnext⟩ := h
  obtain ⟨c1, _⟩ := sub_block_control cv lib xf p st hh
  obtain ⟨h1, h2, h3⟩ := hh
  have ei : (process_sub_block cv lib xf p st).i =
      (handle_events cv p.in_events p.frames_count st.i
        (p.in_events.length - st.ev_index) st.self.plug st.ev_index
        st.next_ev_frame).2.2 := rfl
  have ek : (process_sub_block cv lib xf p st).ev_index =
      (handle_events cv p.in_events p.frames_count st.i
        (p.in_events.length - st.ev_index) st.self.plug st.ev_index
        st.next_ev_frame).2.1 := rfl
  have en : (process_sub_block cv lib xf p st).next_ev_frame =
      (handle_events cv p.in_events p.frames_count st.i
        (p.in_events.length - st.ev_index) st.self.plug st.ev_index
        st.next_ev_frame).2.2 := rfl
  unfold sorted_loop_head sub_block_size sub_block_events sub_block_plug
  rw [ei, ek, en]
  by_cases hk : st.ev_index < p.in_events.length
  · rw [h2 hk]
    obtain ⟨a1, a2, a3, a4, a5, a6⟩ := handle_events_sorted cv p.in_events p.frames_count
      st.i hs (p.in_events.length - st.ev_index) st.self.plug st.ev_index hk rfl (hnext hk)
    generalize handle_events cv p.in_events p.frames_count st.i
      (p.in_events.length - st.ev_index) st.self.plug st.ev_index st.i = r
      at a1 a2 a3 a4 a5 a6 ⊢
    have hlt : st.i < r.2.2 ∧ r.2.2 ≤ p.frames_count ∧
        ∀ h : r.2.1 < p.in_events.length, r.2.2 ≤ (p.in_events.get ⟨r.2.1, h⟩).time := by
      by_cases hr : r.2.1 < p.in_events.length
      · obtain ⟨b1, b2⟩ := a5 hr
        have := htime _ (List.get_mem p.in_events r.2.1 hr)
        exact ⟨by omega, by omega, fun _ => by omega⟩
      · have hr2 : r.2.1 = p.in_events.length := by omega
        have := a6 hr2
        exact ⟨by omega, by omega, fun h => absurd h hr⟩
    refine ⟨⟨c1, hlt.2.1, hlt.2.2⟩, hlt.1, rfl, ?_, a1, rfl, ?_, a3⟩
    · have := hlt.1
      have := hlt.2.1
      omega
    · intro e he
      obtain ⟨j, hj, j1, j2, rfl⟩ := mem_take_drop_get _ _ _ _ he
      exact a4 j hj j1 (by omega)
  · have hd := handle_events_done cv p.in_events p.frames_count st.i
      (p.in_events.length - st.ev_index) st.self.plug st.ev_index st.next_ev_frame
      (fun hc => hk hc.1)
    rw [hd]
    dsimp only
    have hn := h3 (by omega)
    rw [hn]
    refine ⟨⟨c1, le_refl _, fun h => absurd h hk⟩, hi, rfl, ?_, le_refl _, rfl, ?_, ?_⟩
    · omega
    · intro e he
      simp at he
    · simp

theorem sorted_loop_trace {S L : Type} (cv : c_conversions) (lib : specbleach L)
    (xf : signal_crossfade S) (p : clap_process) (hF : p.frames_count < 2 ^ 32)
    (hs : ∀ (a b : Nat) (ha : a < p.in_events.length) (hb : b < p.in_events.length), a ≤ b →
      (p.in_events.get ⟨a, ha⟩).time ≤ (p.in_events.get ⟨b, hb⟩).time)
    (htime : ∀ e ∈ p.in_events, e.time < p.frames_count) :
    ∀ (fuel : Nat) (st : process_locals S L), sorted_loop_head p st →
      (st.i < p.frames_count → turns_left p.in_events st.i st.ev_index ≤ fuel) →
      (∃ final, process_loop cv lib xf p fuel st = some final ∧ final.i = p.frames_count ∧
        final.ev_index = p.in_events.length) ∧
      ((sub_blocks cv lib xf p fuel st).map (sub_block_size cv p)).sum =
        p.frames_count - st.i ∧
      (sub_blocks cv lib xf p fuel st).flatMap (sub_block_frames cv p) =
        List.range' st.i (p.frames_count - st.i) ∧
      (sub_blocks cv lib xf p fuel st).flatMap (sub_block_events cv p) =
        p.in_events.drop st.ev_index ∧
      ∀ b ∈ sub_blocks cv lib xf p fuel st,
        b.i < (process_sub_block cv lib xf p b).next_ev_frame ∧
        (process_sub_block cv lib xf p b).next_ev_frame ≤ p.frames_count ∧
        sub_block_size cv p b = (process_sub_block cv lib xf p b).next_ev_frame - b.i ∧
        (process_sub_block cv lib xf p b).i = b.i + sub_block_size cv p b ∧
        (∀ e ∈ sub_block_events cv p b, e.time = b.i) ∧
        sub_block_plug cv p b =
          (sub_block_events cv p b).foldl (process_event cv) b.self.plug := by
  have hend : ∀ st : process_locals S L, sorted_loop_head p st → ¬ st.i < p.frames_count →
      st.i = p.frames_count ∧ st.ev_index = p.in_events.length := by
    intro st h hi
    obtain ⟨⟨h1, _, _⟩, h2, h3⟩ := h
    refine ⟨by omega, ?_⟩
    by_contra hne
    have hk : st.ev_index < p.in_events.length := by omega
    have := h3 hk
    have := htime _ (List.get_mem p.in_events st.ev_index hk)
    omega
  intro fuel
  induction fuel with
  | zero =>
    intro st h hm
    have hi : ¬ st.i < p.frames_count := by
      intro hi
      have := hm hi
      have := turns_left_pos p.in_events st.i st.ev_index
      omega
    obtain ⟨e1, e2⟩ := hend st h hi
    refine ⟨⟨st, by simp only [process_loop, if_neg hi], e1, e2⟩, ?_, ?_, ?_, ?_⟩
    · simp [sub_blocks, e1]
    · simp [sub_blocks, e1]
    · simp [sub_blocks, e2]
    · intro b hb
      simp [sub_blocks] at hb
  | succ fuel ih =>
    intro st h hm
    by_cases hi : st.i < p.frames_count
    · obtain ⟨c1, c2, c3, c4, c5, c6, c7, c8⟩ := sorted_sub_block cv lib xf p hF hs htime st h hi
      obtain ⟨_, d2⟩ := sub_block_control cv lib xf p st h.1
      obtain ⟨⟨final, f1, f2, f3⟩, g2, g3, g4, g5⟩ := ih (process_sub_block cv lib xf p st) c1
        (fun hlt => by have := d2 hlt; have := hm hi; omega)
      have hle : (process_sub_block cv lib xf p st).i ≤ p.frames_count := c1.2.1
      have hsz : (process_sub_block cv lib xf p st).i = st.i + sub_block_size cv p st := by
        rw [c4, c3]; omega
      refine ⟨⟨final, by simp only [process_loop, if_pos hi, f1], f2, f3⟩, ?_, ?_, ?_, ?_⟩
      · simp only [sub_blocks, if_pos hi, List.map_cons, List.sum_cons, g2]
        omega
      · simp only [sub_blocks, if_pos hi, List.flatMap_cons, g3, sub_block_frames]
        rw [hsz]
        have e : p.frames_count - st.i =
            (p.frames_count - (st.i + sub_block_size cv p st)) + sub_block_size cv p st := by
          omega
        rw [e]
        exact (List.range'_append_1 _ _ _)
      · simp only [sub_blocks, if_pos hi, List.flatMap_cons, g4]
        rw [c6]
        have e : List.drop (process_sub_block cv lib xf p st).ev_index p.in_events =
            List.drop ((process_sub_block cv lib xf p st).ev_index - st.ev_index)
              (List.drop st.ev_index p.in_events) := by
          rw [List.drop_drop]
          congr 1
          omega
        rw [e, List.take_append_drop]
      · intro b hb
        simp only [sub_blocks, if_pos hi, List.mem_cons] at hb
        rcases hb with rfl | hb
        · exact ⟨c2, by rw [← c3]; exact hle, c4, hsz, c7, c8⟩
        · exact g5 b hb
    · obtain ⟨e1, e2⟩ := hend st h hi
      refine ⟨⟨st, by simp only [process_loop, if_neg hi], e1, e2⟩, ?_, ?_, ?_, ?_⟩
      · simp [sub_blocks, hi, e1]
      · simp [sub_blocks, hi, e1]
      · simp [sub_blocks, hi, e2]
      · intro b hb
        simp [sub_blocks, hi] at hb

theorem sorted_loop_head_start {S L : Type} (lib : specbleach L)
    (self : clap_noiserf_instance S L) (p : clap_process) :
    sorted_loop_head p (process_start lib self p) :=
  ⟨(at_loop_head_start lib self p).1, Nat.zero_le _, fun _ => Nat.zero_le _⟩

/-- C34: for every `process` call whose frame count is a `uint32_t` and whose events are
sorted by non-decreasing time with every time below the frame count, the sub-block loop
ends, with `i` at the frame count and every event handled. In every sub-block
`next_ev_frame` exceeds `i` after the event loop, so `block_size = next_ev_frame - i` does
not wrap, and the next sub-block starts at `i + block_size`. The sizes of the sub-blocks sum
to the frame count and their frames, in order, are `0, ..., frames_count - 1` once each. The
events that the event loops pass to `process_event`, in order over the sub-blocks, are the
input events once each; each is handled at the start of the sub-block whose first frame is
its time, and the parameters that sub-block uses are those after these events. -/
theorem C34_sub_blocks_cover_frames {S L : Type} (cv : c_conversions) (lib : specbleach L)
    (xf : signal_crossfade S) (self : clap_noiserf_instance S L) (p : clap_process)
    (hF : p.frames_count < 2 ^ 32)
    (hsorted : List.Pairwise (fun a b : clap_event => a.time ≤ b.time) p.in_events)
    (htime : ∀ e ∈ p.in_events, e.time < p.frames_count) :
    (∃ final after out,
      process_loop cv lib xf p (2 * p.in_events.length + 1) (process_start lib self p) =
        some final ∧
      process cv lib xf self p = some (CLAP_PROCESS_CONTINUE, after, out) ∧
      final.i = p.frames_count ∧ final.ev_index = p.in_events.length) ∧
    ((sub_blocks cv lib xf p (2 * p.in_events.length + 1) (process_start lib self p)).map
      (sub_block_size cv p)).sum = p.frames_count ∧
    (sub_blocks cv lib xf p (2 * p.in_events.length + 1) (process_start lib self p)).flatMap
      (sub_block_frames cv p) = List.range p.frames_count ∧
    (sub_blocks cv lib xf p (2 * p.in_events.length + 1) (process_start lib self p)).flatMap
      (sub_block_events cv p) = p.in_events ∧
    ∀ b ∈ sub_blocks cv lib xf p (2 * p.in_events.length + 1) (process_start lib self p),
      b.i < (process_sub_block cv lib xf p b).next_ev_frame ∧
      (process_sub_block cv lib xf p b).next_ev_frame ≤ p.frames_count ∧
      sub_block_size cv p b = (process_sub_block cv lib xf p b).next_ev_frame - b.i ∧
      (process_sub_block cv lib xf p b).i = b.i + sub_block_size cv p b ∧
      (∀ e ∈ sub_block_events cv p b, e.time = b.i) ∧
      sub_block_plug cv p b =
        (sub_block_events cv p b).foldl (process_event cv) b.self.plug := by
  have hs : ∀ (a b : Nat) (ha : a < p.in_events.length) (hb : b < p.in_events.length), a ≤ b →
      (p.in_events.get ⟨a, ha⟩).time ≤ (p.in_events.get ⟨b, hb⟩).time := by
    intro a b ha hb hab
    rcases Nat.lt_or_eq_of_le hab with h | h
    · exact List.pairwise_iff_get.mp hsorted ⟨a, ha⟩ ⟨b, hb⟩ h
    · subst h
      exact le_refl _
  obtain ⟨⟨final, f1, f2, f3⟩, g2, g3, g4, g5⟩ := sorted_loop_trace cv lib xf p hF hs htime
    (2 * p.in_events.length + 1) (process_start lib self p) (sorted_loop_head_start lib self p)
    (fun _ => (at_loop_head_start lib self p).2)
  have hi0 : (process_start lib self p).i = 0 := rfl
  have hk0 : (process_start lib self p).ev_index = 0 := rfl
  rw [hi0] at g2 g3
  rw [hk0] at g4
  refine ⟨⟨final, store_noise_profile lib final.self final.noise_profile_changed,
    final.audio_outputs, f1, ?_, f2, f3⟩, g2, ?_, g4, g5⟩
  · rw [process_eq, f1]
    rfl
  · rw [g3, Nat.sub_zero, List.range_eq_range']

/-- C34 at a call with 64 frames and three events, one at frame 0 and two at frame 10, on an
activated stereo plugin. -/
theorem C34_sub_blocks_cover_frames_witness :
    (∃ final after out,
      process_loop sample_conversions learning_library sample_crossfade three_event_process
          (2 * three_event_process.in_events.length + 1)
          (process_start learning_library learning_instance three_event_process) =
        some final ∧
      process sample_conversions learning_library sample_crossfade learning_instance
        three_event_process = some (CLAP_PROCESS_CONTINUE, after, out) ∧
      final.i = three_event_process.frames_count ∧
      final.ev_index = three_event_process.in_events.length) ∧
    ((sub_blocks sample_conversions learning_library sample_crossfade three_event_process
        (2 * three_event_process.in_events.length + 1)
        (process_start learning_library learning_instance three_event_process)).map
      (sub_block_size sample_conversions three_event_process)).sum =
        three_event_process.frames_count ∧
    (sub_blocks sample_conversions learning_library sample_crossfade three_event_process
        (2 * three_event_process.in_events.length + 1)
        (process_start learning_library learning_instance three_event_process)).flatMap
      (sub_block_frames sample_conversions three_event_process) =
        List.range three_event_process.frames_count ∧
    (sub_blocks sample_conversions learning_library sample_crossfade three_event_process
        (2 * three_event_process.in_events.length + 1)
        (process_start learning_library learning_instance three_event_process)).flatMap
      (sub_block_events sample_conversions three_event_process) =
        three_event_process.in_events ∧
    ∀ b ∈ sub_blocks sample_conversions learning_library sample_crossfade three_event_process
        (2 * three_event_process.in_events.length + 1)
        (process_start learning_library learning_instance three_event_process),
      b.i < (process_sub_block sample_conversions learning_library sample_crossfade
        three_event_process b).next_ev_frame ∧
      (process_sub_block sample_conversions learning_library sample_crossfade
        three_event_process b).next_ev_frame ≤ three_event_process.frames_count ∧
      sub_block_size sample_conversions three_event_process b =
        (process_sub_block sample_conversions learning_library sample_crossfade
          three_event_process b).next_ev_frame - b.i ∧
      (process_sub_block sample_conversions learning_library sample_crossfade
        three_event_process b).i = b.i + sub_block_size sample_conversions three_event_process b ∧
      (∀ e ∈ sub_block_events sample_conversions three_event_process b, e.time = b.i) ∧
      sub_block_plug sample_conversions three_event_process b =
        (sub_block_events sample_conversions three_event_process b).foldl
          (process_event sample_conversions) b.self.plug :=
  C34_sub_blocks_cover_frames sample_conversions learning_library sample_crossfade
    learning_instance three_event_process (by decide) (by decide) (by decide)

theorem three_event_sub_blocks :
    (sub_blocks sample_conversions learning_library sample_crossfade three_event_process
        (2 * three_event_process.in_events.length + 1)
        (process_start learning_library learning_instance three_event_process)).map
      (fun b => (b.i, sub_block_size sample_conversions three_event_process b,
        (sub_block_events sample_conversions three_event_process b).map
          (fun e => e.param_id))) =
      [(0, 10, [pid_ENABLE]), (10, 54, [pid_AMOUNT, pid_OFFSET])] := by
  decide

/-! ### The index `idx_low` when the cast rounds up -/

theorem float_of_uint32_small (n : Nat) (h : n < 2 ^ 24) : float_of_uint32 n = n := by
  have hu : float_ulp 8 n = 1 := by simp only [float_ulp, if_pos h]
  have hr : n % 1 = 0 := Nat.mod_one n
  simp only [float_of_uint32, hu, hr, Nat.div_one, Nat.mul_one, Nat.mul_zero]
  rw [if_pos (by decide)]

theorem float_of_uint32_values :
    float_of_uint32 1 = 1 ∧ float_of_uint32 16777218 = 16777218 ∧
      float_of_uint32 16777219 = 16777220 ∧ float_of_uint32 16777220 = 16777220 := by
  decide

theorem cast_rounding_bin_value (noise_profile : Nat → ℚ) :
    alpha cast_rounding_arith 16777220 2 1 = 0 ∧
      interpolated_bin cast_rounding_arith noise_profile 16777220 2 1 =
        noise_profile 16777220 := by
  have hN : u32_pred 16777220 = 16777219 := by decide
  have hM : u32_pred 2 = 1 := by decide
  have hs : src_idx cast_rounding_arith 16777220 2 1 = ((16777220 : Nat) : ℚ) := by
    show ((float_of_uint32 1 : Nat) : ℚ) * ((float_of_uint32 (u32_pred 16777220) : Nat) : ℚ) /
      ((float_of_uint32 (u32_pred 2) : Nat) : ℚ) = ((16777220 : Nat) : ℚ)
    rw [hN, hM, float_of_uint32_values.1, float_of_uint32_values.2.2.1, Nat.cast_one, one_mul,
      div_one]
  have hl : idx_low cast_rounding_arith 16777220 2 1 = 16777220 := by
    show ⌊src_idx cast_rounding_arith 16777220 2 1⌋₊ = 16777220
    rw [hs]
    exact Nat.floor_natCast 16777220
  have ha : alpha cast_rounding_arith 16777220 2 1 = 0 := by
    show src_idx cast_rounding_arith 16777220 2 1 -
      ((float_of_uint32 (idx_low cast_rounding_arith 16777220 2 1) : Nat) : ℚ) = 0
    rw [hs, hl, float_of_uint32_values.2.2.2, sub_self]
  refine ⟨ha, ?_⟩
  rw [interpolated_bin_locals, ha, hl]
  show (1 - 0) * noise_profile 16777220 + 0 * noise_profile _ = noise_profile 16777220
  rw [sub_zero, one_mul, zero_mul, add_zero]

end NoiseRF
